import Mathlib

/-!
# Luna: a C++ class binder for Lua 5.1

A shallow embedding of `Luna.hpp` (the template `Luna<T>`) together with the
fragment of the Lua 5.1 C API it is written against.

* The Lua state is an explicit record: the value stack of the running frame
  (bottom first, so Lua index `1` is the head of the list), the upvalues of the
  running C closure, three heaps (tables, full userdata, closures) addressed by
  allocation counters, and the per-type metatables of the basic types.
* The registry is the table with id `REGISTRY`, the table of globals the table
  with id `GLOBALS`.
* `lua_gettable` / `lua_settable` follow `luaV_gettable` / `luaV_settable`: a raw
  access when the entry exists or no `__index` / `__newindex` handler is
  installed.  An access that would run a handler yields `LuaError.metamethod`:
  running handlers is outside the model.
* Errors raised with `lua_error` (a `longjmp` in C) are the `Except.error` results.
  Violations of the C API contract and C++ undefined behaviour are
  `LuaError.undefined`.
* The collector never runs between two API calls, and stack space and memory
  are unbounded (`lua_checkstack` always succeeds).
* Native objects are addresses (`Nat`, `0` is the null pointer).  The state carries
  the native heap as far as the program uses it: `new` takes the next address,
  `delete` is recorded in the `deleted` log of the state.
* Numbers carry integers: the fractional part of a `lua_Number` is outside the model.
-/

namespace Luna

/-! ## Values -/

/-- An untyped C pointer (`void*`): a native object address (`obj 0` is `NULL`),
the address of entry `index` of the static method array of the class whose
`typeid` name is `cls`, or the address of the memory block of a full userdata. -/
inductive Ptr where
  | obj (addr : Nat)
  | methodMap (cls : String) (index : Nat)
  | block (id : Nat)
  deriving DecidableEq, Repr

/-- The null pointer. -/
def NULL : Ptr := Ptr.obj 0

/-- A Lua value.  Tables, functions and full userdata are references into the heaps
of the state; `number` carries an integer payload (Luna never inspects numbers). -/
inductive Value where
  | nil
  | boolean (b : Bool)
  | number (n : Int)
  | string (s : String)
  | lightuserdata (p : Ptr)
  | table (id : Nat)
  | function (id : Nat)
  | userdata (id : Nat)
  deriving DecidableEq, Repr

/-- The C functions a closure can run: the four static members of `Luna<T>`
(one instantiation for each class `T`, identified by the name of `typeid(T)`), or
any other function. -/
inductive CFunction where
  | tostringT (cls : String)
  | gcT (cls : String)
  | newT (cls : String)
  | thunk (cls : String)
  | foreign (id : Nat)
  deriving DecidableEq, Repr

/-- A closure object: its function and its upvalues. -/
structure Closure where
  fn : CFunction
  upvalues : List Value
  deriving DecidableEq, Repr

/-- A table: its entries (no entry has a `nil` value) and its metatable. -/
structure LTable where
  entries : List (Value × Value)
  metatable : Option Nat
  deriving DecidableEq, Repr

/-- The block of a full userdata created by Luna, `struct { T* pT; }`, and
the metatable of the userdata. -/
structure Userdata where
  pT : Nat
  metatable : Option Nat
  deriving DecidableEq, Repr

/-- The ways a call can fail. -/
inductive LuaError where
  | runtime (msg : String)
  | typeError (narg : Int) (tname : String)
  | metamethod
  | undefined (what : String)
  deriving DecidableEq, Repr

/-- The Lua state `lua_State* l`, together with the native heap of the program: the log
of the objects deleted so far, the value of the field `m_x` of the `Test` object at each
address, and the number of objects allocated with `new` so far. -/
structure LuaState where
  stack : List Value
  upvalues : List Value
  tables : Nat → LTable
  nextTable : Nat
  userdata : Nat → Userdata
  nextUserdata : Nat
  closures : Nat → Closure
  nextClosure : Nat
  typeMetatable : Nat → Option Nat
  deleted : List Nat
  objects : Nat → Int
  nextObject : Nat

/-- The id of the registry table. -/
def REGISTRY : Nat := 0

/-- The id of the table of globals. -/
def GLOBALS : Nat := 1

/-- The empty table. -/
def LTable.empty : LTable := { entries := [], metatable := none }

/-- A state right after `lua_open`: empty registry and globals, empty stack. -/
def LuaState.fresh : LuaState :=
  { stack := [], upvalues := [], tables := fun _ => LTable.empty, nextTable := 2,
    userdata := fun _ => { pT := 0, metatable := none }, nextUserdata := 0,
    closures := fun _ => { fn := CFunction.foreign 0, upvalues := [] }, nextClosure := 0,
    typeMetatable := fun _ => none, deleted := [], objects := fun _ => 0, nextObject := 0 }

/-! ## Raw table access -/

/-- Raw lookup in an association list: `nil` when the key is absent. -/
def rawgetEntries : List (Value × Value) → Value → Value
  | [], _ => Value.nil
  | (k, v) :: rest, key => if k = key then v else rawgetEntries rest key

/-- Raw store in an association list; storing `nil` removes the entry. -/
def rawsetEntries (es : List (Value × Value)) (key v : Value) : List (Value × Value) :=
  if v = Value.nil then es.filter (fun e => e.1 ≠ key)
  else (key, v) :: es.filter (fun e => e.1 ≠ key)

/-- Raw lookup `lua_rawget`. -/
def LTable.get (t : LTable) (key : Value) : Value := rawgetEntries t.entries key

/-- Raw store `lua_rawset`. -/
def LTable.set (t : LTable) (key v : Value) : LTable :=
  { t with entries := rawsetEntries t.entries key v }

/-- Replace the table with id `id`. -/
def LuaState.setTable (l : LuaState) (id : Nat) (t : LTable) : LuaState :=
  { l with tables := fun j => if j = id then t else l.tables j }

/-- Replace the userdata with id `id`. -/
def LuaState.setUserdata (l : LuaState) (id : Nat) (u : Userdata) : LuaState :=
  { l with userdata := fun j => if j = id then u else l.userdata j }

/-- Push a value on the stack. -/
def LuaState.push (l : LuaState) (v : Value) : LuaState :=
  { l with stack := l.stack ++ [v] }

/-! ## Indices -/

def LUA_REGISTRYINDEX : Int := -10000
def LUA_ENVIRONINDEX : Int := -10001
def LUA_GLOBALSINDEX : Int := -10002

def lua_upvalueindex (i : Int) : Int := LUA_GLOBALSINDEX - i

/-- The type tags `LUA_TNIL` ... `LUA_TUSERDATA`. -/
def lua_typeOf : Value → Nat
  | Value.nil => 0
  | Value.boolean _ => 1
  | Value.lightuserdata _ => 2
  | Value.number _ => 3
  | Value.string _ => 4
  | Value.table _ => 5
  | Value.function _ => 6
  | Value.userdata _ => 7

/-- The position in the stack list of a stack index, when it denotes an element. -/
def stackPos (l : LuaState) (idx : Int) : Option Nat :=
  if 0 < idx then
    if idx ≤ l.stack.length then some (idx - 1).toNat else none
  else if idx < 0 ∧ -idx ≤ l.stack.length then some (l.stack.length - (-idx).toNat)
  else none

/-- The value an index denotes (`index2adr`): a stack slot, a pseudo-index, or an
upvalue.  A positive index above the top and a missing upvalue denote `nil`;
`none` is an index the API does not accept. -/
def index2adr (l : LuaState) (idx : Int) : Option Value :=
  if 0 < idx then
    some (l.stack.getD (idx - 1).toNat Value.nil)
  else if LUA_REGISTRYINDEX < idx then
    if idx = 0 ∨ (l.stack.length : Int) < -idx then none
    else l.stack[l.stack.length - (-idx).toNat]?
  else if idx = LUA_REGISTRYINDEX then some (Value.table REGISTRY)
  else if idx = LUA_GLOBALSINDEX then some (Value.table GLOBALS)
  else if idx = LUA_ENVIRONINDEX then none
  else some (l.upvalues.getD (LUA_GLOBALSINDEX - idx - 1).toNat Value.nil)

/-! ## Metatables and indexing with metamethods -/

/-- The metatable of a value (`luaT_gettmbyobj`): tables and full userdata carry their
own, the other types share one per type. -/
def metatableOf (l : LuaState) : Value → Option Nat
  | Value.table t => (l.tables t).metatable
  | Value.userdata u => (l.userdata u).metatable
  | v => l.typeMetatable (lua_typeOf v)

/-- The handler for `event` in a metatable, `nil` when there is none. -/
def metafield (l : LuaState) (mt : Option Nat) (event : String) : Value :=
  match mt with
  | none => Value.nil
  | some m => (l.tables m).get (Value.string event)

/-- The handler for `event` of the table with id `id` in the table heap `T`: the
field `event` of its metatable, `nil` when it has no metatable. -/
def handlerOf (T : Nat → LTable) (id : Nat) (event : String) : Value :=
  match (T id).metatable with
  | none => Value.nil
  | some m => (T m).get (Value.string event)

/-- Indexing `t[key]` as `luaV_gettable` does it. -/
def luaV_gettable (l : LuaState) (t key : Value) : Except LuaError Value :=
  match t with
  | Value.table id =>
    let res := (l.tables id).get key
    if res ≠ Value.nil then Except.ok res
    else if metafield l (l.tables id).metatable "__index" = Value.nil then Except.ok res
    else Except.error LuaError.metamethod
  | _ =>
    if metafield l (metatableOf l t) "__index" = Value.nil then
      Except.error (LuaError.runtime "attempt to index a non-table value")
    else Except.error LuaError.metamethod

/-- The assignment `t[key] = v` as `luaV_settable` does it. -/
def luaV_settable (l : LuaState) (t key v : Value) : Except LuaError LuaState :=
  match t with
  | Value.table id =>
    if (l.tables id).get key ≠ Value.nil then
      Except.ok (l.setTable id ((l.tables id).set key v))
    else if key = Value.nil then Except.error (LuaError.runtime "table index is nil")
    else if metafield l (l.tables id).metatable "__newindex" = Value.nil then
      Except.ok (l.setTable id ((l.tables id).set key v))
    else Except.error LuaError.metamethod
  | _ =>
    if metafield l (metatableOf l t) "__newindex" = Value.nil then
      Except.error (LuaError.runtime "attempt to index a non-table value")
    else Except.error LuaError.metamethod

/-! ## The Lua 5.1 C API used by Luna -/

def badIndex : LuaError := LuaError.undefined "unacceptable index"

def lua_gettop (l : LuaState) : Int := l.stack.length

def lua_settop (l : LuaState) (idx : Int) : Except LuaError LuaState :=
  if 0 ≤ idx then
    Except.ok { l with stack :=
      (l.stack ++ List.replicate (idx.toNat - l.stack.length) Value.nil).take idx.toNat }
  else if -(idx + 1) ≤ l.stack.length then
    Except.ok { l with stack := l.stack.take (l.stack.length - (-(idx + 1)).toNat) }
  else Except.error badIndex

def lua_pop (l : LuaState) (n : Int) : Except LuaError LuaState := lua_settop l (-n - 1)

def lua_pushnil (l : LuaState) : LuaState := l.push Value.nil

def lua_pushboolean (l : LuaState) (b : Int) : LuaState := l.push (Value.boolean (b != 0))

def lua_pushstring (l : LuaState) (s : String) : LuaState := l.push (Value.string s)

def lua_pushliteral (l : LuaState) (s : String) : LuaState := l.push (Value.string s)

def lua_pushlightuserdata (l : LuaState) (p : Ptr) : LuaState := l.push (Value.lightuserdata p)

def lua_pushvalue (l : LuaState) (idx : Int) : Except LuaError LuaState :=
  match index2adr l idx with
  | some v => Except.ok (l.push v)
  | none => Except.error badIndex

def lua_newtable (l : LuaState) : LuaState :=
  { l with stack := l.stack ++ [Value.table l.nextTable],
           tables := fun j => if j = l.nextTable then LTable.empty else l.tables j,
           nextTable := l.nextTable + 1 }

/-- The call `lua_pushcclosure(l, fn, n)`: pops `n` upvalues, pushes a new closure. -/
def lua_pushcclosure (l : LuaState) (fn : CFunction) (n : Nat) : Except LuaError LuaState :=
  if n ≤ l.stack.length then
    Except.ok { l with
      stack := l.stack.take (l.stack.length - n) ++ [Value.function l.nextClosure],
      closures := fun j => if j = l.nextClosure
        then { fn := fn, upvalues := l.stack.drop (l.stack.length - n) } else l.closures j,
      nextClosure := l.nextClosure + 1 }
  else Except.error badIndex

def lua_pushcfunction (l : LuaState) (fn : CFunction) : Except LuaError LuaState :=
  lua_pushcclosure l fn 0

/-- The call `lua_newuserdata`: pushes a new full userdata without metatable and returns
the address of its block. -/
def lua_newuserdata (l : LuaState) : LuaState × Ptr :=
  ({ l with stack := l.stack ++ [Value.userdata l.nextUserdata],
            userdata := fun j => if j = l.nextUserdata
              then { pT := 0, metatable := none } else l.userdata j,
            nextUserdata := l.nextUserdata + 1 },
   Ptr.block l.nextUserdata)

def lua_isnil (l : LuaState) (idx : Int) : Bool := index2adr l idx = some Value.nil

def lua_istable (l : LuaState) (idx : Int) : Bool :=
  match index2adr l idx with
  | some (Value.table _) => true
  | _ => false

def lua_touserdata (l : LuaState) (idx : Int) : Ptr :=
  match index2adr l idx with
  | some (Value.userdata u) => Ptr.block u
  | some (Value.lightuserdata p) => p
  | _ => NULL

def lua_rawequal (l : LuaState) (i j : Int) : Bool :=
  match index2adr l i, index2adr l j with
  | some a, some b => a = b
  | _, _ => false

def lua_checkstack (_l : LuaState) (_extra : Int) : Bool := true

def lua_insert (l : LuaState) (idx : Int) : Except LuaError LuaState :=
  match stackPos l idx, l.stack.getLast? with
  | some p, some top =>
    Except.ok { l with stack := l.stack.dropLast.take p ++ top :: l.stack.dropLast.drop p }
  | _, _ => Except.error badIndex

def lua_remove (l : LuaState) (idx : Int) : Except LuaError LuaState :=
  match stackPos l idx with
  | some p => Except.ok { l with stack := l.stack.eraseIdx p }
  | none => Except.error badIndex

def lua_replace (l : LuaState) (idx : Int) : Except LuaError LuaState :=
  match stackPos l idx, l.stack.getLast? with
  | some p, some top => Except.ok { l with stack := l.stack.dropLast.set p top }
  | _, _ => Except.error badIndex

def lua_gettable (l : LuaState) (idx : Int) : Except LuaError LuaState :=
  match index2adr l idx, l.stack.getLast? with
  | some t, some key => do
    let v ← luaV_gettable l t key
    Except.ok { l with stack := l.stack.dropLast ++ [v] }
  | _, _ => Except.error badIndex

def lua_getfield (l : LuaState) (idx : Int) (k : String) : Except LuaError LuaState :=
  match index2adr l idx with
  | some t => do
    let v ← luaV_gettable l t (Value.string k)
    Except.ok (l.push v)
  | none => Except.error badIndex

def lua_getglobal (l : LuaState) (k : String) : Except LuaError LuaState :=
  lua_getfield l LUA_GLOBALSINDEX k

def luaL_getmetatable (l : LuaState) (tname : String) : Except LuaError LuaState :=
  lua_getfield l LUA_REGISTRYINDEX tname

def lua_settable (l : LuaState) (idx : Int) : Except LuaError LuaState :=
  match index2adr l idx, l.stack.dropLast.getLast?, l.stack.getLast? with
  | some t, some key, some v => do
    let l ← luaV_settable l t key v
    Except.ok { l with stack := l.stack.dropLast.dropLast }
  | _, _, _ => Except.error badIndex

def lua_setfield (l : LuaState) (idx : Int) (k : String) : Except LuaError LuaState :=
  match index2adr l idx, l.stack.getLast? with
  | some t, some v => do
    let l ← luaV_settable l t (Value.string k) v
    Except.ok { l with stack := l.stack.dropLast }
  | _, _ => Except.error badIndex

/-- The call `lua_getmetatable`: pushes the metatable of the value, if it has one. -/
def lua_getmetatable (l : LuaState) (idx : Int) : Except LuaError (LuaState × Bool) :=
  match index2adr l idx with
  | some v =>
    match metatableOf l v with
    | some m => Except.ok (l.push (Value.table m), true)
    | none => Except.ok (l, false)
  | none => Except.error badIndex

/-- The call `lua_setmetatable`: pops a table or `nil` and makes it the metatable of the
value at the index. -/
def lua_setmetatable (l : LuaState) (idx : Int) : Except LuaError LuaState :=
  match index2adr l idx, l.stack.getLast? with
  | some obj, some top =>
    let set (mt : Option Nat) : LuaState :=
      match obj with
      | Value.table t =>
        { l with stack := l.stack.dropLast,
                 tables := fun j => if j = t
                   then { l.tables t with metatable := mt } else l.tables j }
      | Value.userdata u =>
        { l with stack := l.stack.dropLast,
                 userdata := fun j => if j = u
                   then { l.userdata u with metatable := mt } else l.userdata j }
      | v =>
        { l with stack := l.stack.dropLast,
                 typeMetatable := fun j => if j = lua_typeOf v then mt else l.typeMetatable j }
    match top with
    | Value.nil => Except.ok (set none)
    | Value.table m => Except.ok (set (some m))
    | _ => Except.error (LuaError.undefined "lua_setmetatable: table expected")
  | _, _ => Except.error badIndex

def luaL_error (msg : String) : LuaError := LuaError.runtime msg

def luaL_typerror (narg : Int) (tname : String) : LuaError := LuaError.typeError narg tname

def luaL_newmetatable (l : LuaState) (tname : String) : Except LuaError (LuaState × Int) := do
  let l ← lua_getfield l LUA_REGISTRYINDEX tname
  if !lua_isnil l (-1) then
    return (l, 0)
  let l ← lua_pop l 1
  let l := lua_newtable l
  let l ← lua_pushvalue l (-1)
  let l ← lua_setfield l LUA_REGISTRYINDEX tname
  return (l, 1)

def luaL_checkudata (l : LuaState) (ud : Int) (tname : String) : Except LuaError (LuaState × Ptr) := do
  let p := lua_touserdata l ud
  if p ≠ NULL then
    let (l1, has) ← lua_getmetatable l ud
    if has then
      let l2 ← lua_getfield l1 LUA_REGISTRYINDEX tname
      if lua_rawequal l2 (-1) (-2) then
        let l3 ← lua_pop l2 2
        return (l3, p)
  throw (luaL_typerror ud tname)

/-! ## The bound class -/

/-- The type of a Luna method, the C++ type `int (T::*)(lua_State*)`: called on an object
address with the state, it returns the number of results it pushed. -/
abbrev Method := Nat → LuaState → Except LuaError (LuaState × Int)

/-- An entry `{name, method}` of the method array; `{0}` is `⟨none, none⟩`. -/
structure MethodMap where
  name : Option String
  method : Option Method

/-- A class `T` given to `Luna<T>`, with the statics `LUNA_TYPES(T)` declares and
`LUNA_CLASS(T, MAPS_T, CLASS_NAME)` defines:
`typeidName` is `typeid(T).name()`, `s_lunaTypeInfoName` is
`T::s_lunaTypeInfoPtr->name()`, that is `typeid(MAPS_T).name()`, and `construct` is the
expression `new T(l)`. -/
structure LunaClass where
  typeidName : String
  s_lunaTypeInfoName : String
  s_lunaClassName : String
  s_lunaMethods : List MethodMap
  construct : LuaState → Except LuaError (LuaState × Nat)

/-- The read `ud->pT` through a `Userdata*`. -/
def readPT (l : LuaState) (ud : Ptr) : Except LuaError Nat :=
  match ud with
  | Ptr.block id => Except.ok (l.userdata id).pT
  | _ => Except.error (LuaError.undefined "ud->pT: not a userdata block")

/-- The write `ud->pT = obj` through a `Userdata*`. -/
def writePT (l : LuaState) (ud : Ptr) (obj : Nat) : Except LuaError LuaState :=
  match ud with
  | Ptr.block id => Except.ok (l.setUserdata id { l.userdata id with pT := obj })
  | _ => Except.error (LuaError.undefined "ud->pT: not a userdata block")

/-- The statement `delete obj`: a no-op on the null pointer. -/
def delete (l : LuaState) (obj : Nat) : LuaState :=
  if obj = 0 then l else { l with deleted := l.deleted ++ [obj] }

/-- The entry a `MethodMap*` points to; the pointer must point into the method array of
the class. -/
def derefMethodMap (cls : LunaClass) (m : Ptr) : Except LuaError MethodMap :=
  match m with
  | Ptr.methodMap c i =>
    if c = cls.typeidName then
      match cls.s_lunaMethods[i]? with
      | some e => Except.ok e
      | none => Except.error (LuaError.undefined "MethodMap*: out of bounds")
    else Except.error (LuaError.undefined "MethodMap*: foreign pointer")
  | _ => Except.error (LuaError.undefined "MethodMap*: foreign pointer")

/-! ## Luna.hpp -/

/-- Put the item on the top of the stack into the specified table at the specified key. -/
def set (l : LuaState) (table : Int) (key : String) : Except LuaError LuaState := do
  let l := lua_pushstring l key
  let l ← lua_insert l (-2)
  lua_settable l table

/-- Create a new weak table which controls garbage collection for the key, value or
both. -/
def weaktable (l : LuaState) (mode : String) : Except LuaError LuaState := do
  let l := lua_newtable l
  let l ← lua_pushvalue l (-1)
  let l ← lua_setmetatable l (-2)
  let l := lua_pushliteral l "__mode"
  let l := lua_pushstring l mode
  lua_settable l (-3)

/-- Create a new subtable to the specified metatable with a specific name and table
mode. -/
def subtable (l : LuaState) (metatable : Int) (name mode : String) :
    Except LuaError LuaState := do
  let l := lua_pushstring l name
  let l ← lua_gettable l metatable
  if lua_isnil l (-1) then
    let l ← lua_pop l 1
    let _ := lua_checkstack l 3
    let l ← weaktable l mode
    let l := lua_pushstring l name
    let l ← lua_pushvalue l (-2)
    lua_settable l metatable
  else
    return l

/-- Allocate a userdata entry in the specified table at the specified key. -/
def allocUserdata (l : LuaState) (table : Int) (key : Ptr) :
    Except LuaError (LuaState × Ptr) := do
  let l := lua_pushlightuserdata l key
  let l ← lua_gettable l table
  if lua_isnil l (-1) then
    let l ← lua_pop l 1
    let _ := lua_checkstack l 3
    let (l, userdata) := lua_newuserdata l
    let l := lua_pushlightuserdata l key
    let l ← lua_pushvalue l (-2)
    let l ← lua_settable l (-4)
    return (l, userdata)
  else
    return (l, NULL)

/-- Return the object of type T from the argument narg. -/
def check (cls : LunaClass) (l : LuaState) (narg : Int) : Except LuaError (LuaState × Nat) := do
  let (l, ud) ← luaL_checkudata l narg cls.s_lunaClassName
  if ud = NULL then
    throw (luaL_typerror narg cls.s_lunaClassName)
  let pT ← readPT l ud
  return (l, pT)

/-- Thunk for dispatching to class methods. -/
def thunk (cls : LunaClass) (l : LuaState) : Except LuaError (LuaState × Int) := do
  let (l, obj) ← check cls l 1
  let l ← lua_remove l 1
  let m ← derefMethodMap cls (lua_touserdata l (lua_upvalueindex 1))
  match m.method with
  | some method => method obj l
  | none => throw (LuaError.undefined "call through a null method pointer")

/-- Class instantiator. -/
def newT (cls : LunaClass) (l : LuaState) : Except LuaError (LuaState × Int) := do
  let l ← lua_remove l 1
  let (l, obj) ← cls.construct l
  let (l, ud) := lua_newuserdata l
  let l ← writePT l ud obj
  let l ← luaL_getmetatable l cls.s_lunaClassName
  let l ← lua_setmetatable l (-2)
  return (l, 1)

/-- Garbage collector for class instances. -/
def gcT (_cls : LunaClass) (l : LuaState) : Except LuaError (LuaState × Int) := do
  let ud := lua_touserdata l 1
  let obj ← readPT l ud
  let l := delete l obj
  return (l, 0)

/-- The class `Luna<T>::TypeInfo`, member `commit`. -/
def TypeInfo.commit (cls : LunaClass) (l : LuaState) (methods : Int) :
    Except LuaError LuaState := do
  let l ← lua_getglobal l cls.typeidName
  if lua_istable l (-1) then
    let l ← lua_settable l methods
    return l
  let l := lua_newtable l
  let type := lua_gettop l
  let l := lua_pushstring l cls.s_lunaTypeInfoName
  let l ← set l type "name"
  let l ← lua_pushvalue l type
  let l ← set l methods "type"
  let l ← lua_pushvalue l methods
  set l LUA_GLOBALSINDEX cls.s_lunaTypeInfoName

/-- The loop `for (MethodMap* m = T::s_lunaMethods; m->name; ++m)` of `commit`, entered
at entry `i` with the entries from `i` on.  The array ends with the entry `{0}`; the loop
also stops at the end of the list. -/
def commitMethods (cls : LunaClass) (methods : Int) :
    List MethodMap → Nat → LuaState → Except LuaError LuaState
  | [], _, l => Except.ok l
  | m :: rest, i, l =>
    match m.name with
    | none => Except.ok l
    | some name => do
      let l := lua_pushstring l name
      let l := lua_pushlightuserdata l (Ptr.methodMap cls.typeidName i)
      let l ← lua_pushcclosure l (CFunction.thunk cls.typeidName) 1
      let l ← lua_settable l methods
      commitMethods cls methods rest (i + 1) l

/-- Commit the class into Lua's global registry. -/
def commit (cls : LunaClass) (l : LuaState) : Except LuaError LuaState := do
  let l := lua_newtable l
  let methods := lua_gettop l
  let (l, _) ← luaL_newmetatable l cls.s_lunaClassName
  let metatable := lua_gettop l
  let l ← lua_pushvalue l methods
  let l ← set l LUA_GLOBALSINDEX cls.s_lunaClassName
  let l ← lua_pushvalue l methods
  let l ← set l metatable "__metatable"
  let l ← lua_pushvalue l methods
  let l ← set l metatable "__index"
  let l ← lua_pushcfunction l (CFunction.tostringT cls.typeidName)
  let l ← set l metatable "__tostring"
  let l ← lua_pushcfunction l (CFunction.gcT cls.typeidName)
  let l ← set l metatable "__gc"
  let l := lua_newtable l
  let l ← lua_pushcfunction l (CFunction.newT cls.typeidName)
  let l ← lua_pushvalue l (-1)
  let l ← set l methods "new"
  let l ← set l (-3) "__call"
  let l ← lua_setmetatable l methods
  let l ← commitMethods cls methods cls.s_lunaMethods 0 l
  let l ← TypeInfo.commit cls l methods
  lua_pop l 2

/-- Push an object instance onto the stack; returns the index of the instance. -/
def push (cls : LunaClass) (l : LuaState) (inst : Nat) (gc : Bool) :
    Except LuaError (LuaState × Int) := do
  if inst = 0 then
    return (lua_pushnil l, 0)
  let l ← luaL_getmetatable l cls.s_lunaClassName
  if lua_isnil l (-1) then
    throw (luaL_error ("[Luna::push] Class " ++ cls.s_lunaClassName ++ " has not been commited!"))
  let metatable := lua_gettop l
  let l ← subtable l metatable "userdata" "v"
  let (l, userdata) ← allocUserdata l metatable (Ptr.obj inst)
  let l ← (if userdata ≠ NULL then do
    let l ← writePT l userdata inst
    let l ← lua_pushvalue l metatable
    let l ← lua_setmetatable l (-2)
    if !gc then
      let _ := lua_checkstack l 3
      let l ← subtable l metatable "unmanaged" "k"
      let l ← lua_pushvalue l (-2)
      let l := lua_pushboolean l 1
      let l ← lua_settable l (-3)
      lua_pop l 1
    else
      pure l
  else
    pure l)
  let l ← lua_replace l metatable
  let l ← lua_settop l metatable
  return (l, metatable)

/-- The names of the entries of a method array that precede the entry `{0}`, in
order: entry `k` of the array lies before the sentinel and has name `s` exactly when
`(boundNames ms)[k]? = some s`. -/
def boundNames : List MethodMap → List String
  | [] => []
  | m :: rest =>
    match m.name with
    | none => []
    | some s => s :: boundNames rest

/-- The state `lm` in which `commit` runs its last statement `lua_pop(l, 2)` when it is
called in the state `l`: `mt` is the id of the class metatable and `base` the table that
was there before `commit` wrote its four fields (the empty table when `commit` created
the metatable). -/
structure CommitPost (cls : LunaClass) (l lm : LuaState) (mt : Nat) (base : LTable) :
    Prop where
  upvalues : lm.upvalues = l.upvalues
  userdata : lm.userdata = l.userdata
  nextUserdata : lm.nextUserdata = l.nextUserdata
  typeMetatable : lm.typeMetatable = l.typeMetatable
  deleted : lm.deleted = l.deleted
  nextTable : l.nextTable + 2 ≤ lm.nextTable
  mt_lt : mt < lm.nextTable
  stack :
    ((cls.typeidName = cls.s_lunaClassName ∨
        ∃ gt, (l.tables GLOBALS).get (Value.string cls.typeidName) = Value.table gt) ∧
      lm.stack = l.stack ++ [Value.table l.nextTable]) ∨
    ((cls.typeidName ≠ cls.s_lunaClassName ∧
        ∀ gt, (l.tables GLOBALS).get (Value.string cls.typeidName) ≠ Value.table gt) ∧
      ∃ g ty,
        lm.stack = l.stack ++ [Value.table l.nextTable, Value.table mt, g, Value.table ty])
  registry_class : (lm.tables REGISTRY).get (Value.string cls.s_lunaClassName) = Value.table mt
  registry_other : ∀ key, key ≠ Value.string cls.s_lunaClassName →
    (lm.tables REGISTRY).get key = (l.tables REGISTRY).get key
  registry_plain : (lm.tables REGISTRY).metatable = none
  globals_plain : (lm.tables GLOBALS).metatable = none
  globals_class :
    (lm.tables GLOBALS).get (Value.string cls.s_lunaClassName) = Value.table l.nextTable
  metatable_eq : lm.tables mt =
    (((base.set (Value.string "__metatable") (Value.table l.nextTable)).set
      (Value.string "__index") (Value.table l.nextTable)).set
      (Value.string "__tostring") (Value.function l.nextClosure)).set
      (Value.string "__gc") (Value.function (l.nextClosure + 1))
  methods_meta : ∃ t, (lm.tables l.nextTable).metatable = some t ∧
    lm.tables t = LTable.empty.set (Value.string "__call") (Value.function (l.nextClosure + 2))
  closure_newT : lm.closures (l.nextClosure + 2)
    = { fn := CFunction.newT cls.typeidName, upvalues := [] }
  closure_gcT : lm.closures (l.nextClosure + 1)
    = { fn := CFunction.gcT cls.typeidName, upvalues := [] }
  closures_old : ∀ f, f < l.nextClosure → lm.closures f = l.closures f
  untouched : ∀ j, j < l.nextTable → j ≠ REGISTRY → j ≠ GLOBALS → j ≠ mt →
    lm.tables j = l.tables j
  methods : ∀ k s, (boundNames cls.s_lunaMethods)[k]? = some s →
    s ∉ (boundNames cls.s_lunaMethods).drop (k + 1) → s ≠ "type" →
    ∃ f, (lm.tables l.nextTable).get (Value.string s) = Value.function f ∧
      lm.closures f = { fn := CFunction.thunk cls.typeidName,
                        upvalues := [Value.lightuserdata (Ptr.methodMap cls.typeidName k)] }

/-- The states in which `commit` is specified: the registry and the table of globals
exist and have no metatable (so no handler runs), the class name is unused in the
registry or bound there to a table without metatable (an earlier commit), and the stack
is not empty when `TypeInfo::commit` finds a table under the global named
`typeid(T).name()` (`commit` then pops one value more than it pushed). -/
structure CommitReady (cls : LunaClass) (l : LuaState) : Prop where
  allocated : 2 ≤ l.nextTable
  registry_plain : (l.tables REGISTRY).metatable = none
  globals_plain : (l.tables GLOBALS).metatable = none
  class_entry :
    (l.tables REGISTRY).get (Value.string cls.s_lunaClassName) = Value.nil ∨
    ∃ mt, (l.tables REGISTRY).get (Value.string cls.s_lunaClassName) = Value.table mt ∧
      (l.tables mt).metatable = none ∧ mt ≠ GLOBALS ∧ mt ≠ REGISTRY ∧ mt < l.nextTable
  stack :
    (cls.typeidName = cls.s_lunaClassName ∨
      ∃ gt, (l.tables GLOBALS).get (Value.string cls.typeidName) = Value.table gt) →
    l.stack ≠ []

/-- The table `w` is a weak table as `weaktable` makes them: it is its own metatable and
has no `__newindex` field, so a store into it is a raw store. -/
def IsWeakTable (l : LuaState) (w : Nat) : Prop :=
  GLOBALS < w ∧ w < l.nextTable ∧ (l.tables w).metatable = some w ∧
    (l.tables w).get (Value.string "__newindex") = Value.nil

/-- The class has been committed in the state `l`, with class metatable `mt`: the
registry binds the class name to the table `mt`, which has no metatable and no
light-userdata key; its field `userdata` is absent or a weak table, and so is its field
`unmanaged`, whose keys are userdata that exist.  These are the states that `commit`
and `push` produce. -/
structure Committed (cls : LunaClass) (l : LuaState) (mt : Nat) : Prop where
  registered : (l.tables REGISTRY).get (Value.string cls.s_lunaClassName) = Value.table mt
  mt_gt : GLOBALS < mt
  mt_lt : mt < l.nextTable
  plain : (l.tables mt).metatable = none
  no_light : ∀ p, (l.tables mt).get (Value.lightuserdata p) = Value.nil
  userdata_sub : (l.tables mt).get (Value.string "userdata") = Value.nil ∨
    ∃ u, (l.tables mt).get (Value.string "userdata") = Value.table u ∧ u ≠ mt ∧
      IsWeakTable l u
  unmanaged_sub : (l.tables mt).get (Value.string "unmanaged") = Value.nil ∨
    ∃ k, (l.tables mt).get (Value.string "unmanaged") = Value.table k ∧ k ≠ mt ∧
      IsWeakTable l k ∧
      ∀ id, l.nextUserdata ≤ id → (l.tables k).get (Value.userdata id) = Value.nil
  distinct : ∀ u k, (l.tables mt).get (Value.string "userdata") = Value.table u →
    (l.tables mt).get (Value.string "unmanaged") = Value.table k → u ≠ k

/-- The registry as `luaL_newmetatable` leaves it: the tables it binds to names are
allocated, and two different names are bound to two different tables.  A new state has
this property; `commit`, `push` and `newT` keep it. -/
structure RegistrySound (l : LuaState) : Prop where
  allocated : ∀ s t, (l.tables REGISTRY).get (Value.string s) = Value.table t →
    t < l.nextTable
  distinct : ∀ s1 s2 t1 t2, (l.tables REGISTRY).get (Value.string s1) = Value.table t1 →
    (l.tables REGISTRY).get (Value.string s2) = Value.table t2 → s1 ≠ s2 → t1 ≠ t2

/-! ## The class of `test.cc` and variations of it

The objects of `test.cc` live in the native heap of the state: `objects a` is the field
`m_x` of the `Test` inside the `LuaTest` at address `a`.  The names of `typeid` are those
of the Itanium ABI. -/

/-- The conversion of a string to a number (`luaO_str2d`) for the decimal integer
numerals: blanks, an optional sign, one or more digits, blanks.  Numbers are integers in
this model, so the result is `none` for every other string, be it a numeral (with a
fraction, an exponent, hexadecimal) or not. -/
def str2d (s : String) : Option Int :=
  let t := s.trim
  let negative := t.startsWith "-"
  let digits := if t.startsWith "-" ∨ t.startsWith "+" then t.drop 1 else t
  if digits.isEmpty then none
  else (digits.toNat?).map (fun n => if negative then -(n : Int) else (n : Int))

/-- The call `luaL_checknumber(l, narg)`: the number at the index, or the number a
string at the index converts to; the type error for a value of another type.  A string
outside the domain of `str2d` is outside the model. -/
def luaL_checknumber (l : LuaState) (narg : Int) : Except LuaError Int :=
  match index2adr l narg with
  | some (Value.number n) => Except.ok n
  | some (Value.string s) =>
    match str2d s with
    | some n => Except.ok n
    | none => Except.error (LuaError.undefined "luaL_checknumber: string outside the model")
  | _ => Except.error (luaL_typerror narg "number")

/-- The call `lua_pushnumber`. -/
def lua_pushnumber (l : LuaState) (n : Int) : LuaState := l.push (Value.number n)

/-- The conversion of a `lua_Number` to `int`, undefined outside the range of `int`. -/
def toInt32 (n : Int) : Except LuaError Int :=
  if -2147483648 ≤ n ∧ n ≤ 2147483647 then Except.ok n
  else Except.error (LuaError.undefined "conversion to int out of range")

/-- The expression `new LuaTest(x)` after the conversion of `x`: the object is stored at
the next address of the native heap, which is not null and was never used before. -/
def LuaTest.new (l : LuaState) (x : Int) : LuaState × Nat :=
  ({ l with objects := fun a => if a = l.nextObject + 1 then x else l.objects a,
            nextObject := l.nextObject + 1 },
   l.nextObject + 1)

/-- The constructor `LuaTest::LuaTest(lua_State* l)`, as `new LuaTest(l)`. -/
def LuaTest.construct (l : LuaState) : Except LuaError (LuaState × Nat) := do
  let d ← luaL_checknumber l 1
  let x ← toInt32 d
  return LuaTest.new l x

/-- The method `LuaTest::getValue`: it pushes the field `m_x` of the object. -/
def LuaTest.getValue : Method := fun p l =>
  Except.ok (lua_pushnumber l (l.objects p), 1)

/-- The statics of `LUNA_CLASS(LuaTest, Test, Test)` without the method array. -/
def LuaTest.statics : LunaClass :=
  { typeidName := "7LuaTest", s_lunaTypeInfoName := "4Test", s_lunaClassName := "Test",
    s_lunaMethods := [], construct := LuaTest.construct }

/-- The method `LuaTest::getInstance`: `Luna<LuaTest>::push(l, new LuaTest(2), true)`. -/
def LuaTest.getInstance : Method := fun _ l => do
  let (l, obj) := LuaTest.new l 2
  let (l, _) ← push LuaTest.statics l obj true
  return (l, 1)

/-- The class `LuaTest` with `LUNA_CLASS(LuaTest, Test, Test)` and its method array. -/
def LuaTest : LunaClass :=
  { LuaTest.statics with
    s_lunaMethods := [⟨some "getValue", some LuaTest.getValue⟩,
                      ⟨some "getInstance", some LuaTest.getInstance⟩,
                      ⟨none, none⟩] }

/-- A second binding class for the same native type under another class name,
`LUNA_CLASS(LuaTest2, Test, Test2)`. -/
def LuaTest2 : LunaClass :=
  { typeidName := "8LuaTest2", s_lunaTypeInfoName := "4Test", s_lunaClassName := "Test2",
    s_lunaMethods := [⟨some "getValue", some LuaTest.getValue⟩, ⟨none, none⟩],
    construct := LuaTest.construct }

/-- A second binding class with the class name of `LuaTest`,
`LUNA_CLASS(LuaOther, Other, Test)`. -/
def LuaOther : LunaClass :=
  { typeidName := "8LuaOther", s_lunaTypeInfoName := "5Other", s_lunaClassName := "Test",
    s_lunaMethods := [⟨none, none⟩], construct := LuaTest.construct }

/-- A binding class with a method called `type` and a name that occurs twice in its
method array. -/
def LuaTyped : LunaClass :=
  { typeidName := "8LuaTyped", s_lunaTypeInfoName := "5Typed", s_lunaClassName := "Typed",
    s_lunaMethods := [⟨some "type", some LuaTest.getValue⟩,
                      ⟨some "value", some LuaTest.getValue⟩,
                      ⟨some "value", some LuaTest.getInstance⟩,
                      ⟨none, none⟩],
    construct := LuaTest.construct }

/-- The state a call returned, `LuaState.fresh` when it failed. -/
def stateOf (r : Except LuaError LuaState) : LuaState :=
  match r with
  | Except.ok l => l
  | Except.error _ => LuaState.fresh

/-- The state of `test.cc` when the script starts: `Luna<LuaTest>::commit(l)` has run
on a new state (the standard libraries, which bind none of the names used here, are
left out). -/
def committed : LuaState := stateOf (commit LuaTest LuaState.fresh)

/-- The state of `test.cc` after the commit of a second class, `LuaTest2`. -/
def paired : LuaState := stateOf (commit LuaTest2 committed)

/-- The state of `test.cc` after `Luna<LuaTest>::push(l, p, true)` for the object 5. -/
def handled : LuaState := stateOf ((push LuaTest committed 5 true).map Prod.fst)

/-- The state `handled` after the commit of a second class, `LuaTest2`: the handle of
`LuaTest` at index 3 was made before `LuaTest2` was committed. -/
def handledPaired : LuaState := stateOf (commit LuaTest2 handled)

/-- A state in which a script has bound a table to the global named
`typeid(LuaTest).name()`, with one value on the stack. -/
def typeidBound : LuaState :=
  { LuaState.fresh with
    stack := [Value.number 1],
    tables := fun j => if j = GLOBALS
      then LTable.empty.set (Value.string "7LuaTest") (Value.table 2) else LTable.empty,
    nextTable := 3 }

/-! ## Symbolic execution of the API calls -/

/-! ## Lemmas on the API -/


theorem ok_bind {α β : Type} (a : α) (f : α → Except LuaError β) :
    (Except.ok a >>= f) = f a := Eq.trans rfl rfl

theorem error_bind {α β : Type} (e : LuaError) (f : α → Except LuaError β) :
    ((Except.error e : Except LuaError α) >>= f) = Except.error e := Eq.trans rfl rfl

theorem ok_pure {α : Type} (a : α) : (pure a : Except LuaError α) = Except.ok a :=
  Eq.trans rfl rfl

theorem index2adr_pos (l : LuaState) (idx : Int) (h : 0 < idx) :
    index2adr l idx = some (l.stack.getD (idx - 1).toNat Value.nil) := by
  simp [index2adr, h]

theorem index2adr_neg (l : LuaState) (k : Nat) (h1 : 0 < k) (h2 : k < 10000) :
    index2adr l (-(k : Int)) = l.stack.reverse[k - 1]? := by
  have e1 : ¬ (0 : Int) < -(k : Int) := by omega
  have e2 : LUA_REGISTRYINDEX < -(k : Int) := by simp only [LUA_REGISTRYINDEX]; omega
  have e3 : ¬ (-(k : Int) = 0) := by omega
  simp only [index2adr, e1, e2, e3, if_true, if_false, false_or, neg_neg, Int.toNat_ofNat,
    Nat.cast_lt]
  by_cases hk : l.stack.length < k
  · simp only [hk, if_true]
    rw [eq_comm, List.getElem?_eq_none_iff]
    simp only [List.length_reverse]; omega
  · simp only [hk, if_false]
    rw [List.getElem?_reverse (by omega)]
    congr 1; omega

theorem index2adr_registry (l : LuaState) :
    index2adr l LUA_REGISTRYINDEX = some (Value.table REGISTRY) := by
  simp [index2adr, LUA_REGISTRYINDEX]

theorem index2adr_globals (l : LuaState) :
    index2adr l LUA_GLOBALSINDEX = some (Value.table GLOBALS) := by
  simp [index2adr, LUA_REGISTRYINDEX, LUA_GLOBALSINDEX]

theorem index2adr_upvalue1 (l : LuaState) :
    index2adr l (lua_upvalueindex 1) = some (l.upvalues.getD 0 Value.nil) := by
  simp [index2adr, LUA_REGISTRYINDEX, LUA_GLOBALSINDEX, LUA_ENVIRONINDEX, lua_upvalueindex]

/-- The value at the absolute index of an element, whatever lies above it. -/
theorem index2adr_abs (l : LuaState) (xs ys : List Value) (v : Value)
    (h : l.stack = xs ++ [v] ++ ys) :
    index2adr l ((xs ++ [v]).length : Int) = some v := by
  have h0 : (0 : Int) < ((xs ++ [v]).length : Int) := by
    simp only [List.length_append, List.length_singleton]; omega
  have h1 : (((xs ++ [v]).length : Int) - 1).toNat = xs.length := by
    simp only [List.length_append, List.length_singleton]; omega
  rw [index2adr_pos l _ h0, h, h1, List.getD_eq_getElem?_getD, List.append_assoc,
    List.getElem?_append_right (le_refl _)]
  simp

theorem stackPos_abs (l : LuaState) (xs ys : List Value) (v : Value)
    (h : l.stack.length = (xs ++ [v] ++ ys).length) :
    stackPos l ((xs ++ [v]).length : Int) = some xs.length := by
  have h1 : (0 : Int) < ((xs ++ [v]).length : Int) := by
    simp only [List.length_append, List.length_singleton]; omega
  have h2 : ((xs ++ [v]).length : Int) ≤ (l.stack.length : Int) := by
    rw [h]; simp only [List.length_append, List.length_singleton]; omega
  have h3 : (((xs ++ [v]).length : Int) - 1).toNat = xs.length := by
    simp only [List.length_append, List.length_singleton]; omega
  simp only [stackPos, h1, h2, if_true, h3]

section canonical

variable (S up : List Value) (T : Nat → LTable) (nT : Nat) (U : Nat → Userdata) (nU : Nat)
  (C : Nat → Closure) (nC : Nat) (tm : Nat → Option Nat) (del : List Nat)
  (ob : Nat → Int) (nO : Nat)

theorem index2adr_m1 (a : Value) :
    index2adr ⟨S ++ [a], up, T, nT, U, nU, C, nC, tm, del, ob, nO⟩ (-1) = some a := by
  rw [show (-1 : Int) = -((1 : Nat) : Int) from rfl, index2adr_neg _ 1 (by decide) (by decide)]
  simp

theorem index2adr_m2 (a b : Value) :
    index2adr ⟨S ++ [a] ++ [b], up, T, nT, U, nU, C, nC, tm, del, ob, nO⟩ (-2) = some a := by
  rw [show (-2 : Int) = -((2 : Nat) : Int) from rfl, index2adr_neg _ 2 (by decide) (by decide)]
  simp

theorem index2adr_m3 (a b c : Value) :
    index2adr ⟨S ++ [a] ++ [b] ++ [c], up, T, nT, U, nU, C, nC, tm, del, ob, nO⟩ (-3) = some a := by
  rw [show (-3 : Int) = -((3 : Nat) : Int) from rfl, index2adr_neg _ 3 (by decide) (by decide)]
  simp

theorem index2adr_m4 (a b c d : Value) :
    index2adr ⟨S ++ [a] ++ [b] ++ [c] ++ [d], up, T, nT, U, nU, C, nC, tm, del, ob, nO⟩ (-4) = some a := by
  rw [show (-4 : Int) = -((4 : Nat) : Int) from rfl, index2adr_neg _ 4 (by decide) (by decide)]
  simp

theorem index2adr_abs0 (v : Value) :
    index2adr ⟨S ++ [v], up, T, nT, U, nU, C, nC, tm, del, ob, nO⟩ ((S ++ [v]).length : Int) = some v :=
  index2adr_abs _ S [] v (by simp)

theorem index2adr_abs1 (v a : Value) :
    index2adr ⟨S ++ [v] ++ [a], up, T, nT, U, nU, C, nC, tm, del, ob, nO⟩ ((S ++ [v]).length : Int)
      = some v :=
  index2adr_abs _ S [a] v (by simp)

theorem index2adr_abs2 (v a b : Value) :
    index2adr ⟨S ++ [v] ++ [a] ++ [b], up, T, nT, U, nU, C, nC, tm, del, ob, nO⟩
      ((S ++ [v]).length : Int) = some v :=
  index2adr_abs _ S [a, b] v (by simp)

theorem index2adr_abs3 (v a b c : Value) :
    index2adr ⟨S ++ [v] ++ [a] ++ [b] ++ [c], up, T, nT, U, nU, C, nC, tm, del, ob, nO⟩
      ((S ++ [v]).length : Int) = some v :=
  index2adr_abs _ S [a, b, c] v (by simp)

theorem index2adr_abs4 (v a b c d : Value) :
    index2adr ⟨S ++ [v] ++ [a] ++ [b] ++ [c] ++ [d], up, T, nT, U, nU, C, nC, tm, del, ob, nO⟩
      ((S ++ [v]).length : Int) = some v :=
  index2adr_abs _ S [a, b, c, d] v (by simp)

theorem index2adr_abs5 (v a b c d e : Value) :
    index2adr ⟨S ++ [v] ++ [a] ++ [b] ++ [c] ++ [d] ++ [e], up, T, nT, U, nU, C, nC, tm, del, ob, nO⟩
      ((S ++ [v]).length : Int) = some v :=
  index2adr_abs _ S [a, b, c, d, e] v (by simp)

theorem lua_insert_m2 (a b : Value) :
    lua_insert ⟨S ++ [a] ++ [b], up, T, nT, U, nU, C, nC, tm, del, ob, nO⟩ (-2)
      = Except.ok ⟨S ++ [b] ++ [a], up, T, nT, U, nU, C, nC, tm, del, ob, nO⟩ := by
  have h : stackPos ⟨S ++ [a] ++ [b], up, T, nT, U, nU, C, nC, tm, del, ob, nO⟩ (-2)
      = some S.length := by
    have e : (-(-2 : Int)).toNat = 2 := by decide
    have e1 : (-2 : Int) < 0 ∧ -(-2 : Int) ≤ ((S ++ [a] ++ [b]).length : Int) := by
      simp only [List.length_append, List.length_singleton]; omega
    have e2 : ¬ (0 : Int) < -2 := by decide
    simp only [stackPos, e, e1, e2, if_true, if_false, and_self]
    simp only [List.length_append, List.length_singleton]
    congr 1
  simp only [lua_insert, h, List.getLast?_concat, List.dropLast_concat]
  simp

theorem lua_pop_1 (a : Value) :
    lua_pop ⟨S ++ [a], up, T, nT, U, nU, C, nC, tm, del, ob, nO⟩ 1
      = Except.ok ⟨S, up, T, nT, U, nU, C, nC, tm, del, ob, nO⟩ := by
  simp [lua_pop, lua_settop]

theorem lua_pop_2 (a b : Value) :
    lua_pop ⟨S ++ [a] ++ [b], up, T, nT, U, nU, C, nC, tm, del, ob, nO⟩ 2
      = Except.ok ⟨S, up, T, nT, U, nU, C, nC, tm, del, ob, nO⟩ := by
  have : S.length + 1 + 1 - 2 = S.length := by omega
  simp [lua_pop, lua_settop, this]

theorem lua_settop_abs1 (m b a : Value) :
    lua_settop ⟨S ++ [b] ++ [a], up, T, nT, U, nU, C, nC, tm, del, ob, nO⟩ ((S ++ [m]).length : Int)
      = Except.ok ⟨S ++ [b], up, T, nT, U, nU, C, nC, tm, del, ob, nO⟩ := by
  have h : (0 : Int) ≤ ((S ++ [m]).length : Int) := by omega
  simp only [lua_settop, h, if_true, Int.toNat_ofNat]
  have e : (S ++ [m]).length - (S ++ [b] ++ [a]).length = 0 := by
    simp only [List.length_append, List.length_singleton]; omega
  have e2 : (S ++ [m]).length = (S ++ [b]).length + 0 := by simp
  rw [e, List.replicate_zero, List.append_nil, e2, List.take_append]
  simp

theorem lua_replace_abs2 (m a b : Value) :
    lua_replace ⟨S ++ [m] ++ [a] ++ [b], up, T, nT, U, nU, C, nC, tm, del, ob, nO⟩
      ((S ++ [m]).length : Int)
      = Except.ok ⟨S ++ [b] ++ [a], up, T, nT, U, nU, C, nC, tm, del, ob, nO⟩ := by
  have h := stackPos_abs ⟨S ++ [m] ++ [a] ++ [b], up, T, nT, U, nU, C, nC, tm, del, ob, nO⟩ S [a, b] m
    (by simp)
  simp only [lua_replace, h, List.getLast?_concat, List.dropLast_concat]
  simp

theorem lua_pushcfunction_eq (fn : CFunction) :
    lua_pushcfunction ⟨S, up, T, nT, U, nU, C, nC, tm, del, ob, nO⟩ fn
      = Except.ok ⟨S ++ [Value.function nC], up, T, nT, U, nU,
          fun j => if j = nC then { fn := fn, upvalues := [] } else C j, nC + 1, tm, del, ob, nO⟩ := by
  simp [lua_pushcfunction, lua_pushcclosure]

theorem lua_pushcclosure_1 (fn : CFunction) (a : Value) :
    lua_pushcclosure ⟨S ++ [a], up, T, nT, U, nU, C, nC, tm, del, ob, nO⟩ fn 1
      = Except.ok ⟨S ++ [Value.function nC], up, T, nT, U, nU,
          fun j => if j = nC then { fn := fn, upvalues := [a] } else C j, nC + 1, tm, del, ob, nO⟩ := by
  simp [lua_pushcclosure]

/-! Raw table access. -/

end canonical

theorem rawgetEntries_filter (es : List (Value × Value)) (k key : Value) :
    rawgetEntries (es.filter (fun e => e.1 ≠ k)) key
      = if key = k then Value.nil else rawgetEntries es key := by
  induction es with
  | nil => simp [rawgetEntries]
  | cons e es ih =>
    obtain ⟨k1, v1⟩ := e
    rw [List.filter_cons]
    by_cases h1 : k1 = k
    · have hd : decide ((k1, v1).1 ≠ k) = false := by simp [h1]
      rw [hd]; simp only [Bool.false_eq_true, if_false]; rw [ih]
      by_cases h2 : key = k
      · simp [h2]
      · have h3 : ¬ k1 = key := by rw [h1]; exact fun h => h2 h.symm
        simp [h2, rawgetEntries, h3]
    · have hd : decide ((k1, v1).1 ≠ k) = true := by simp [h1]
      rw [hd]; simp only [if_true]
      simp only [rawgetEntries]; rw [ih]
      by_cases h2 : k1 = key
      · have h3 : ¬ key = k := by rw [← h2]; exact h1
        simp [h2, h3]
      · simp [h2]

theorem LTable.get_set (t : LTable) (k v key : Value) :
    (t.set k v).get key = if key = k then v else t.get key := by
  unfold LTable.set LTable.get rawsetEntries
  by_cases hv : v = Value.nil
  · subst hv; simp only [if_true]; rw [rawgetEntries_filter]
  · simp only [hv, if_false, rawgetEntries]; rw [rawgetEntries_filter]
    by_cases hk : key = k
    · subst hk; simp
    · have hk2 : ¬ k = key := fun h => hk h.symm
      simp [hk, hk2]

theorem LTable.metatable_set (t : LTable) (k v : Value) :
    (t.set k v).metatable = t.metatable := Eq.trans rfl rfl

theorem LTable.get_empty (key : Value) : LTable.empty.get key = Value.nil :=
  Eq.trans rfl rfl

theorem LTable.metatable_empty : LTable.empty.metatable = none := Eq.trans rfl rfl

theorem LTable.get_mk (es : List (Value × Value)) (m : Option Nat) (key : Value) :
    (LTable.mk es m).get key = rawgetEntries es key := Eq.trans rfl rfl

theorem LTable.entries_empty : LTable.empty.entries = [] := Eq.trans rfl rfl

theorem rawgetEntries_nil (key : Value) : rawgetEntries [] key = Value.nil := Eq.trans rfl rfl

theorem handlerOf_eq (T : Nat → LTable) (id : Nat) (event : String) :
    handlerOf T id event = match (T id).metatable with
      | none => Value.nil
      | some m => (T m).get (Value.string event) := Eq.trans rfl rfl

theorem handlerOf_plain (T : Nat → LTable) (id : Nat) (event : String)
    (h : (T id).metatable = none) : handlerOf T id event = Value.nil := by
  rw [handlerOf_eq, h]

theorem handlerOf_some (T : Nat → LTable) (id m : Nat) (event : String)
    (h : (T id).metatable = some m) :
    handlerOf T id event = (T m).get (Value.string event) := by
  rw [handlerOf_eq, h]

section canonical2

variable (S up : List Value) (T : Nat → LTable) (nT : Nat) (U : Nat → Userdata) (nU : Nat)
  (C : Nat → Closure) (nC : Nat) (tm : Nat → Option Nat) (del : List Nat)
  (ob : Nat → Int) (nO : Nat)

theorem lua_settable_eq (k v : Value) (idx : Int) :
    lua_settable ⟨S ++ [k] ++ [v], up, T, nT, U, nU, C, nC, tm, del, ob, nO⟩ idx
      = match index2adr ⟨S ++ [k] ++ [v], up, T, nT, U, nU, C, nC, tm, del, ob, nO⟩ idx with
        | some t => do
          let l ← luaV_settable ⟨S ++ [k] ++ [v], up, T, nT, U, nU, C, nC, tm, del, ob, nO⟩ t k v
          Except.ok { l with stack := l.stack.dropLast.dropLast }
        | none => Except.error badIndex := by
  cases h : index2adr ⟨S ++ [k] ++ [v], up, T, nT, U, nU, C, nC, tm, del, ob, nO⟩ idx <;>
    simp only [lua_settable, h, List.getLast?_concat, List.dropLast_concat]

theorem lua_gettable_eq (k : Value) (idx : Int) :
    lua_gettable ⟨S ++ [k], up, T, nT, U, nU, C, nC, tm, del, ob, nO⟩ idx
      = match index2adr ⟨S ++ [k], up, T, nT, U, nU, C, nC, tm, del, ob, nO⟩ idx with
        | some t => do
          let v ← luaV_gettable ⟨S ++ [k], up, T, nT, U, nU, C, nC, tm, del, ob, nO⟩ t k
          Except.ok ⟨S ++ [v], up, T, nT, U, nU, C, nC, tm, del, ob, nO⟩
        | none => Except.error badIndex := by
  cases h : index2adr ⟨S ++ [k], up, T, nT, U, nU, C, nC, tm, del, ob, nO⟩ idx <;>
    simp only [lua_gettable, h, List.getLast?_concat, List.dropLast_concat]

theorem lua_setmetatable_table (t m : Nat) (idx : Int)
    (h : index2adr ⟨S ++ [Value.table m], up, T, nT, U, nU, C, nC, tm, del, ob, nO⟩ idx
      = some (Value.table t)) :
    lua_setmetatable ⟨S ++ [Value.table m], up, T, nT, U, nU, C, nC, tm, del, ob, nO⟩ idx
      = Except.ok ⟨S, up, fun j => if j = t then { T t with metatable := some m } else T j,
          nT, U, nU, C, nC, tm, del, ob, nO⟩ := by
  simp only [lua_setmetatable, h, List.getLast?_concat, List.dropLast_concat]

theorem lua_setmetatable_userdata (u m : Nat) (idx : Int)
    (h : index2adr ⟨S ++ [Value.table m], up, T, nT, U, nU, C, nC, tm, del, ob, nO⟩ idx
      = some (Value.userdata u)) :
    lua_setmetatable ⟨S ++ [Value.table m], up, T, nT, U, nU, C, nC, tm, del, ob, nO⟩ idx
      = Except.ok ⟨S, up, T, nT,
          fun j => if j = u then { U u with metatable := some m } else U j,
          nU, C, nC, tm, del, ob, nO⟩ := by
  simp only [lua_setmetatable, h, List.getLast?_concat, List.dropLast_concat]


/-- The store `t[key] = v` on a table, by cases. -/
theorem luaV_settable_table (id : Nat) (key v : Value) :
    luaV_settable ⟨S, up, T, nT, U, nU, C, nC, tm, del, ob, nO⟩ (Value.table id) key v
      = if (T id).get key ≠ Value.nil then
          Except.ok ⟨S, up, fun j => if j = id then (T id).set key v else T j,
            nT, U, nU, C, nC, tm, del, ob, nO⟩
        else if key = Value.nil then Except.error (LuaError.runtime "table index is nil")
        else if handlerOf T id "__newindex" = Value.nil then
          Except.ok ⟨S, up, fun j => if j = id then (T id).set key v else T j,
            nT, U, nU, C, nC, tm, del, ob, nO⟩
        else Except.error LuaError.metamethod := Eq.trans rfl rfl

/-- The lookup `t[key]` on a table, by cases. -/
theorem luaV_gettable_table (id : Nat) (key : Value) :
    luaV_gettable ⟨S, up, T, nT, U, nU, C, nC, tm, del, ob, nO⟩ (Value.table id) key
      = if (T id).get key ≠ Value.nil then Except.ok ((T id).get key)
        else if handlerOf T id "__index" = Value.nil then
          Except.ok ((T id).get key)
        else Except.error LuaError.metamethod := Eq.trans rfl rfl

/-- A store into a table without `__newindex` handler is a raw store. -/
theorem luaV_settable_ok (id : Nat) (key v : Value) (hk : key ≠ Value.nil)
    (hw : handlerOf T id "__newindex" = Value.nil) :
    luaV_settable ⟨S, up, T, nT, U, nU, C, nC, tm, del, ob, nO⟩ (Value.table id) key v
      = Except.ok ⟨S, up, fun j => if j = id then (T id).set key v else T j,
          nT, U, nU, C, nC, tm, del, ob, nO⟩ := by
  simp only [luaV_settable_table, hk, hw, if_true, if_false, ite_self]

/-- A lookup in a table without `__index` handler is a raw lookup. -/
theorem luaV_gettable_ok (id : Nat) (key : Value)
    (hw : handlerOf T id "__index" = Value.nil) :
    luaV_gettable ⟨S, up, T, nT, U, nU, C, nC, tm, del, ob, nO⟩ (Value.table id) key
      = Except.ok ((T id).get key) := by
  simp only [luaV_gettable_table, hw, if_true, ite_self]

/-- A lookup that finds an entry is a raw lookup. -/
theorem luaV_gettable_found (id : Nat) (key : Value) (h : (T id).get key ≠ Value.nil) :
    luaV_gettable ⟨S, up, T, nT, U, nU, C, nC, tm, del, ob, nO⟩ (Value.table id) key
      = Except.ok ((T id).get key) := by
  simp only [luaV_gettable_table, h, ne_eq, not_false_eq_true, if_true]

theorem set_eq (v : Value) (idx : Int) (key : String) :
    set ⟨S ++ [v], up, T, nT, U, nU, C, nC, tm, del, ob, nO⟩ idx key
      = match index2adr ⟨S ++ [Value.string key] ++ [v], up, T, nT, U, nU, C, nC, tm, del, ob, nO⟩ idx with
        | some t => do
          let l ← luaV_settable ⟨S ++ [Value.string key] ++ [v], up, T, nT, U, nU, C, nC, tm, del, ob, nO⟩
            t (Value.string key) v
          Except.ok { l with stack := l.stack.dropLast.dropLast }
        | none => Except.error badIndex := by
  simp only [set, lua_pushstring, LuaState.push, lua_insert_m2, ok_bind, lua_settable_eq]


/-- The effect of `set` on a table that has no `__newindex` handler. -/
theorem set_of_index (v : Value) (idx : Int) (key : String) (id : Nat)
    (hidx : index2adr ⟨S ++ [Value.string key] ++ [v], up, T, nT, U, nU, C, nC, tm, del, ob, nO⟩ idx
      = some (Value.table id))
    (hw : handlerOf T id "__newindex" = Value.nil) :
    set ⟨S ++ [v], up, T, nT, U, nU, C, nC, tm, del, ob, nO⟩ idx key
      = Except.ok ⟨S, up, fun j => if j = id then (T id).set (Value.string key) v else T j,
          nT, U, nU, C, nC, tm, del, ob, nO⟩ := by
  simp only [set_eq, hidx, luaV_settable_table, hw, if_true, ite_self, ok_bind,
    List.dropLast_concat, reduceCtorEq, if_false]

theorem set_globals (v : Value) (key : String)
    (hw : handlerOf T GLOBALS "__newindex" = Value.nil) :
    set ⟨S ++ [v], up, T, nT, U, nU, C, nC, tm, del, ob, nO⟩ LUA_GLOBALSINDEX key
      = Except.ok ⟨S, up,
          fun j => if j = GLOBALS then (T GLOBALS).set (Value.string key) v else T j,
          nT, U, nU, C, nC, tm, del, ob, nO⟩ :=
  set_of_index S up T nT U nU C nC tm del ob nO v _ key GLOBALS (index2adr_globals _) hw

theorem set_m3 (v : Value) (key : String) (id : Nat)
    (hw : handlerOf T id "__newindex" = Value.nil) :
    set ⟨S ++ [Value.table id] ++ [v], up, T, nT, U, nU, C, nC, tm, del, ob, nO⟩ (-3) key
      = Except.ok ⟨S ++ [Value.table id], up,
          fun j => if j = id then (T id).set (Value.string key) v else T j,
          nT, U, nU, C, nC, tm, del, ob, nO⟩ :=
  set_of_index (S ++ [Value.table id]) up T nT U nU C nC tm del ob nO v _ key id
    (index2adr_m3 _ _ _ _ _ _ _ _ _ _ _ _ _ _ _) hw

theorem set_abs0 (v : Value) (key : String) (id : Nat)
    (hw : handlerOf T id "__newindex" = Value.nil) :
    set ⟨S ++ [Value.table id] ++ [v], up, T, nT, U, nU, C, nC, tm, del, ob, nO⟩
        ((S ++ [Value.table id]).length) key
      = Except.ok ⟨S ++ [Value.table id], up,
          fun j => if j = id then (T id).set (Value.string key) v else T j,
          nT, U, nU, C, nC, tm, del, ob, nO⟩ :=
  set_of_index (S ++ [Value.table id]) up T nT U nU C nC tm del ob nO v _ key id
    (index2adr_abs2 _ _ _ _ _ _ _ _ _ _ _ _ _ _ _) hw

theorem set_abs1 (a v : Value) (key : String) (id : Nat)
    (hw : handlerOf T id "__newindex" = Value.nil) :
    set ⟨S ++ [Value.table id] ++ [a] ++ [v], up, T, nT, U, nU, C, nC, tm, del, ob, nO⟩
        ((S ++ [Value.table id]).length) key
      = Except.ok ⟨S ++ [Value.table id] ++ [a], up,
          fun j => if j = id then (T id).set (Value.string key) v else T j,
          nT, U, nU, C, nC, tm, del, ob, nO⟩ :=
  set_of_index (S ++ [Value.table id] ++ [a]) up T nT U nU C nC tm del ob nO v _ key id
    (index2adr_abs3 _ _ _ _ _ _ _ _ _ _ _ _ _ _ _ _) hw

theorem set_abs2 (a b v : Value) (key : String) (id : Nat)
    (hw : handlerOf T id "__newindex" = Value.nil) :
    set ⟨S ++ [Value.table id] ++ [a] ++ [b] ++ [v], up, T, nT, U, nU, C, nC, tm, del, ob, nO⟩
        ((S ++ [Value.table id]).length) key
      = Except.ok ⟨S ++ [Value.table id] ++ [a] ++ [b], up,
          fun j => if j = id then (T id).set (Value.string key) v else T j,
          nT, U, nU, C, nC, tm, del, ob, nO⟩ :=
  set_of_index (S ++ [Value.table id] ++ [a] ++ [b]) up T nT U nU C nC tm del ob nO v _ key id
    (index2adr_abs4 _ _ _ _ _ _ _ _ _ _ _ _ _ _ _ _ _) hw

theorem set_abs3 (a b c v : Value) (key : String) (id : Nat)
    (hw : handlerOf T id "__newindex" = Value.nil) :
    set ⟨S ++ [Value.table id] ++ [a] ++ [b] ++ [c] ++ [v], up, T, nT, U, nU, C, nC, tm, del, ob, nO⟩
        ((S ++ [Value.table id]).length) key
      = Except.ok ⟨S ++ [Value.table id] ++ [a] ++ [b] ++ [c], up,
          fun j => if j = id then (T id).set (Value.string key) v else T j,
          nT, U, nU, C, nC, tm, del, ob, nO⟩ :=
  set_of_index (S ++ [Value.table id] ++ [a] ++ [b] ++ [c]) up T nT U nU C nC tm del ob nO v _ key id
    (index2adr_abs5 _ _ _ _ _ _ _ _ _ _ _ _ _ _ _ _ _ _) hw

theorem lua_pushvalue_abs0 (v : Value) :
    lua_pushvalue ⟨S ++ [v], up, T, nT, U, nU, C, nC, tm, del, ob, nO⟩ ((S ++ [v]).length)
      = Except.ok ⟨S ++ [v] ++ [v], up, T, nT, U, nU, C, nC, tm, del, ob, nO⟩ := by
  simp only [lua_pushvalue, index2adr_abs0, LuaState.push]

theorem lua_pushvalue_abs1 (v a : Value) :
    lua_pushvalue ⟨S ++ [v] ++ [a], up, T, nT, U, nU, C, nC, tm, del, ob, nO⟩ ((S ++ [v]).length)
      = Except.ok ⟨S ++ [v] ++ [a] ++ [v], up, T, nT, U, nU, C, nC, tm, del, ob, nO⟩ := by
  simp only [lua_pushvalue, index2adr_abs1, LuaState.push]

theorem lua_pushvalue_abs2 (v a b : Value) :
    lua_pushvalue ⟨S ++ [v] ++ [a] ++ [b], up, T, nT, U, nU, C, nC, tm, del, ob, nO⟩
        ((S ++ [v]).length)
      = Except.ok ⟨S ++ [v] ++ [a] ++ [b] ++ [v], up, T, nT, U, nU, C, nC, tm, del, ob, nO⟩ := by
  simp only [lua_pushvalue, index2adr_abs2, LuaState.push]

theorem lua_pushvalue_abs3 (v a b c : Value) :
    lua_pushvalue ⟨S ++ [v] ++ [a] ++ [b] ++ [c], up, T, nT, U, nU, C, nC, tm, del, ob, nO⟩
        ((S ++ [v]).length)
      = Except.ok ⟨S ++ [v] ++ [a] ++ [b] ++ [c] ++ [v], up, T, nT, U, nU, C, nC, tm, del, ob, nO⟩ := by
  simp only [lua_pushvalue, index2adr_abs3, LuaState.push]

theorem lua_pushvalue_m1 (a : Value) :
    lua_pushvalue ⟨S ++ [a], up, T, nT, U, nU, C, nC, tm, del, ob, nO⟩ (-1)
      = Except.ok ⟨S ++ [a] ++ [a], up, T, nT, U, nU, C, nC, tm, del, ob, nO⟩ := by
  simp only [lua_pushvalue, index2adr_m1, LuaState.push]

theorem lua_pushvalue_m2 (a b : Value) :
    lua_pushvalue ⟨S ++ [a] ++ [b], up, T, nT, U, nU, C, nC, tm, del, ob, nO⟩ (-2)
      = Except.ok ⟨S ++ [a] ++ [b] ++ [a], up, T, nT, U, nU, C, nC, tm, del, ob, nO⟩ := by
  simp only [lua_pushvalue, index2adr_m2, LuaState.push]

theorem lua_setmetatable_abs1 (t a m : Nat) :
    lua_setmetatable ⟨S ++ [Value.table t] ++ [Value.table a] ++ [Value.table m],
        up, T, nT, U, nU, C, nC, tm, del, ob, nO⟩ ((S ++ [Value.table t]).length)
      = Except.ok ⟨S ++ [Value.table t] ++ [Value.table a], up,
          fun j => if j = t then { T t with metatable := some m } else T j,
          nT, U, nU, C, nC, tm, del, ob, nO⟩ :=
  lua_setmetatable_table _ _ _ _ _ _ _ _ _ _ _ _ _ _ _ (index2adr_abs2 _ _ _ _ _ _ _ _ _ _ _ _ _ _ _)

theorem lua_setmetatable_m2_table (t m : Nat) :
    lua_setmetatable ⟨S ++ [Value.table t] ++ [Value.table m],
        up, T, nT, U, nU, C, nC, tm, del, ob, nO⟩ (-2)
      = Except.ok ⟨S ++ [Value.table t], up,
          fun j => if j = t then { T t with metatable := some m } else T j,
          nT, U, nU, C, nC, tm, del, ob, nO⟩ :=
  lua_setmetatable_table _ _ _ _ _ _ _ _ _ _ _ _ _ _ _ (index2adr_m2 _ _ _ _ _ _ _ _ _ _ _ _ _ _)

theorem lua_setmetatable_m2_userdata (u m : Nat) :
    lua_setmetatable ⟨S ++ [Value.userdata u] ++ [Value.table m],
        up, T, nT, U, nU, C, nC, tm, del, ob, nO⟩ (-2)
      = Except.ok ⟨S ++ [Value.userdata u], up, T, nT,
          fun j => if j = u then { U u with metatable := some m } else U j,
          nU, C, nC, tm, del, ob, nO⟩ :=
  lua_setmetatable_userdata _ _ _ _ _ _ _ _ _ _ _ _ _ _ _ (index2adr_m2 _ _ _ _ _ _ _ _ _ _ _ _ _ _)

theorem lua_newtable_eq :
    lua_newtable ⟨S, up, T, nT, U, nU, C, nC, tm, del, ob, nO⟩
      = ⟨S ++ [Value.table nT], up, fun j => if j = nT then LTable.empty else T j, nT + 1,
          U, nU, C, nC, tm, del, ob, nO⟩ := Eq.trans rfl rfl

theorem lua_pushstring_eq (s : String) :
    lua_pushstring ⟨S, up, T, nT, U, nU, C, nC, tm, del, ob, nO⟩ s
      = ⟨S ++ [Value.string s], up, T, nT, U, nU, C, nC, tm, del, ob, nO⟩ := Eq.trans rfl rfl

theorem lua_pushliteral_eq (s : String) :
    lua_pushliteral ⟨S, up, T, nT, U, nU, C, nC, tm, del, ob, nO⟩ s
      = ⟨S ++ [Value.string s], up, T, nT, U, nU, C, nC, tm, del, ob, nO⟩ := Eq.trans rfl rfl

theorem lua_pushlightuserdata_eq (p : Ptr) :
    lua_pushlightuserdata ⟨S, up, T, nT, U, nU, C, nC, tm, del, ob, nO⟩ p
      = ⟨S ++ [Value.lightuserdata p], up, T, nT, U, nU, C, nC, tm, del, ob, nO⟩ := Eq.trans rfl rfl

theorem lua_pushboolean_1 :
    lua_pushboolean ⟨S, up, T, nT, U, nU, C, nC, tm, del, ob, nO⟩ 1
      = ⟨S ++ [Value.boolean true], up, T, nT, U, nU, C, nC, tm, del, ob, nO⟩ := Eq.trans rfl rfl

theorem lua_pushnil_eq :
    lua_pushnil ⟨S, up, T, nT, U, nU, C, nC, tm, del, ob, nO⟩
      = ⟨S ++ [Value.nil], up, T, nT, U, nU, C, nC, tm, del, ob, nO⟩ := Eq.trans rfl rfl

theorem lua_gettop_eq :
    lua_gettop ⟨S, up, T, nT, U, nU, C, nC, tm, del, ob, nO⟩ = (S.length : Int) := Eq.trans rfl rfl

theorem lua_newuserdata_eq :
    lua_newuserdata ⟨S, up, T, nT, U, nU, C, nC, tm, del, ob, nO⟩
      = (⟨S ++ [Value.userdata nU], up, T, nT,
          fun j => if j = nU then { pT := 0, metatable := none } else U j, nU + 1,
          C, nC, tm, del, ob, nO⟩, Ptr.block nU) := Eq.trans rfl rfl

theorem lua_istable_m1_table (t : Nat) :
    lua_istable ⟨S ++ [Value.table t], up, T, nT, U, nU, C, nC, tm, del, ob, nO⟩ (-1) = true := by
  simp only [lua_istable, index2adr_m1]

theorem lua_istable_m1_not (a : Value) (h : ∀ t, a ≠ Value.table t) :
    lua_istable ⟨S ++ [a], up, T, nT, U, nU, C, nC, tm, del, ob, nO⟩ (-1) = false := by
  simp only [lua_istable, index2adr_m1]
  cases a <;> first | rfl | exact absurd rfl (h _)

theorem lua_isnil_m1 (a : Value) :
    lua_isnil ⟨S ++ [a], up, T, nT, U, nU, C, nC, tm, del, ob, nO⟩ (-1) = decide (a = Value.nil) := by
  simp only [lua_isnil, index2adr_m1, Option.some.injEq]

theorem lua_getfield_globals (k : String) :
    lua_getfield ⟨S, up, T, nT, U, nU, C, nC, tm, del, ob, nO⟩ LUA_GLOBALSINDEX k
      = (do
        let v ← luaV_gettable ⟨S, up, T, nT, U, nU, C, nC, tm, del, ob, nO⟩ (Value.table GLOBALS)
          (Value.string k)
        Except.ok ⟨S ++ [v], up, T, nT, U, nU, C, nC, tm, del, ob, nO⟩) := by
  simp only [lua_getfield, index2adr_globals, LuaState.push]

theorem lua_getfield_registry (k : String) :
    lua_getfield ⟨S, up, T, nT, U, nU, C, nC, tm, del, ob, nO⟩ LUA_REGISTRYINDEX k
      = (do
        let v ← luaV_gettable ⟨S, up, T, nT, U, nU, C, nC, tm, del, ob, nO⟩ (Value.table REGISTRY)
          (Value.string k)
        Except.ok ⟨S ++ [v], up, T, nT, U, nU, C, nC, tm, del, ob, nO⟩) := by
  simp only [lua_getfield, index2adr_registry, LuaState.push]

end canonical2

/-! ## The specification of `commit` -/

/-! ## The loop of `commit` -/

section commitLemmas

variable (S up : List Value) (T : Nat → LTable) (nT : Nat) (U : Nat → Userdata) (nU : Nat)
  (C : Nat → Closure) (nC : Nat) (tm : Nat → Option Nat) (del : List Nat)
  (ob : Nat → Int) (nO : Nat)

/-- One round of the loop of `commit`. -/
theorem commitMethods_cons (cls : LunaClass) (n : Nat) (a : Value) (m : MethodMap)
    (rest : List MethodMap) (i : Nat) (name : String) (hname : m.name = some name)
    (hw : handlerOf T n "__newindex" = Value.nil) :
    commitMethods cls ((S ++ [Value.table n]).length) (m :: rest) i
        ⟨S ++ [Value.table n] ++ [a], up, T, nT, U, nU, C, nC, tm, del, ob, nO⟩
      = commitMethods cls ((S ++ [Value.table n]).length) rest (i + 1)
        ⟨S ++ [Value.table n] ++ [a], up,
          fun j => if j = n then (T n).set (Value.string name) (Value.function nC) else T j,
          nT, U, nU,
          fun j => if j = nC then
            { fn := CFunction.thunk cls.typeidName,
              upvalues := [Value.lightuserdata (Ptr.methodMap cls.typeidName i)] } else C j,
          nC + 1, tm, del, ob, nO⟩ := by
  rw [commitMethods]
  simp only [hname, lua_pushstring_eq, lua_pushlightuserdata_eq, lua_pushcclosure_1, ok_bind,
    lua_settable_eq, index2adr_abs3, luaV_settable_ok, hw, ne_eq, reduceCtorEq,
    not_false_eq_true, List.dropLast_concat]

/-- The loop of `commit` stores, under every name before the sentinel, a closure of
`thunk` whose upvalue is the address of the last entry with that name; it changes no
other table, no other field of the method table, and no closure that existed. -/
theorem commitMethods_spec (cls : LunaClass) (n t : Nat) (a : Value) (hnt : t ≠ n)
    (ms : List MethodMap) :
    ∀ (i : Nat) (T : Nat → LTable) (C : Nat → Closure) (nC : Nat),
      (T n).metatable = some t → (T t).get (Value.string "__newindex") = Value.nil →
      ∃ (T1 : Nat → LTable) (C1 : Nat → Closure) (nC1 : Nat),
        commitMethods cls ((S ++ [Value.table n]).length) ms i
            ⟨S ++ [Value.table n] ++ [a], up, T, nT, U, nU, C, nC, tm, del, ob, nO⟩
          = Except.ok ⟨S ++ [Value.table n] ++ [a], up, T1, nT, U, nU, C1, nC1, tm, del, ob, nO⟩ ∧
        (∀ j, j ≠ n → T1 j = T j) ∧
        (T1 n).metatable = some t ∧
        nC ≤ nC1 ∧
        (∀ f, f < nC → C1 f = C f) ∧
        (∀ key, (∀ s ∈ boundNames ms, key ≠ Value.string s) → (T1 n).get key = (T n).get key) ∧
        (∀ k s, (boundNames ms)[k]? = some s → s ∉ (boundNames ms).drop (k + 1) →
          ∃ f, (T1 n).get (Value.string s) = Value.function f ∧
            C1 f = { fn := CFunction.thunk cls.typeidName,
                     upvalues := [Value.lightuserdata (Ptr.methodMap cls.typeidName (i + k))] }) := by
  induction ms with
  | nil =>
    intro i T C nC hm hni
    refine ⟨T, C, nC, ?_, fun _ _ => rfl, hm, le_refl _, fun _ _ => rfl, fun _ _ => rfl, ?_⟩
    · rw [commitMethods]
    · intro k s hk; simp [boundNames] at hk
  | cons m rest ih =>
    intro i T C nC hm hni
    cases hname : m.name with
    | none =>
      refine ⟨T, C, nC, ?_, fun _ _ => rfl, hm, le_refl _, fun _ _ => rfl, fun _ _ => rfl, ?_⟩
      · rw [commitMethods]; simp only [hname]
      · intro k s hk; simp [boundNames, hname] at hk
    | some name =>
      have hw : handlerOf T n "__newindex" = Value.nil := by
        rw [handlerOf_some T n t _ hm]; exact hni
      rw [commitMethods_cons S up T nT U nU C nC tm del ob nO cls n a m rest i name hname hw]
      have hm2 : ((fun j => if j = n then (T n).set (Value.string name) (Value.function nC)
          else T j) n).metatable = some t := by
        simp only [if_true, LTable.metatable_set, hm]
      have hni2 : ((fun j => if j = n then (T n).set (Value.string name) (Value.function nC)
          else T j) t).get (Value.string "__newindex") = Value.nil := by
        simp only [hnt, if_false, hni]
      obtain ⟨T1, C1, nC1, heq, hT, hmt, hle, hC, hkeep, hnames⟩ :=
        ih (i + 1)
          (fun j => if j = n then (T n).set (Value.string name) (Value.function nC) else T j)
          (fun j => if j = nC then
            { fn := CFunction.thunk cls.typeidName,
              upvalues := [Value.lightuserdata (Ptr.methodMap cls.typeidName i)] } else C j)
          (nC + 1) hm2 hni2
      refine ⟨T1, C1, nC1, heq, ?_, hmt, by omega, ?_, ?_, ?_⟩
      · intro j hj; rw [hT j hj]; simp only [hj, if_false]
      · intro f hf; rw [hC f (by omega)]
        have : f ≠ nC := by omega
        simp only [this, if_false]
      · intro key hkey
        have h1 : key ≠ Value.string name := hkey name (by simp [boundNames, hname])
        rw [hkeep key (fun s hs => hkey s (by simp [boundNames, hname, hs]))]
        simp only [if_true, LTable.get_set, h1, if_false]
      · intro k s hk hnot
        have hb : boundNames (m :: rest) = name :: boundNames rest := by
          simp [boundNames, hname]
        rw [hb] at hk hnot
        cases k with
        | zero =>
          simp only [List.getElem?_cons_zero, Option.some.injEq] at hk
          subst hk
          simp only [zero_add, List.drop_succ_cons, List.drop_zero] at hnot
          refine ⟨nC, ?_, ?_⟩
          · rw [hkeep _ (fun s hs h => hnot (by rw [Value.string.injEq] at h; rw [h]; exact hs))]
            simp only [if_true, LTable.get_set]
          · rw [hC nC (by omega)]; simp only [if_true, add_zero]
        | succ k =>
          simp only [List.getElem?_cons_succ] at hk
          simp only [List.drop_succ_cons] at hnot
          obtain ⟨f, h1, h2⟩ := hnames k s hk hnot
          refine ⟨f, h1, ?_⟩
          rw [h2]
          have : i + 1 + k = i + (k + 1) := by omega
          rw [this]

/-- `TypeInfo::commit` when a table is bound to the global named `typeid(T).name()`. -/
theorem TypeInfo_commit_table (cls : LunaClass) (n gt : Nat) (a : Value) (ha : a ≠ Value.nil)
    (hg : (T GLOBALS).get (Value.string cls.typeidName) = Value.table gt)
    (hw : handlerOf T n "__newindex" = Value.nil) :
    TypeInfo.commit cls ⟨S ++ [Value.table n] ++ [a], up, T, nT, U, nU, C, nC, tm, del, ob, nO⟩
        ((S ++ [Value.table n]).length)
      = Except.ok ⟨S ++ [Value.table n], up,
          fun j => if j = n then (T n).set a (Value.table gt) else T j,
          nT, U, nU, C, nC, tm, del, ob, nO⟩ := by
  have hf : (T GLOBALS).get (Value.string cls.typeidName) ≠ Value.nil := by
    rw [hg]; exact fun h => Value.noConfusion h
  simp only [TypeInfo.commit, lua_getglobal, lua_getfield_globals,
    luaV_gettable_found, hf, hg, ok_bind, reduceCtorEq,
    lua_istable_m1_table, if_true, lua_settable_eq, index2adr_abs2, luaV_settable_ok, hw, ha,
    ne_eq, not_false_eq_true, List.dropLast_concat, ok_pure]

/-- `TypeInfo::commit` when no table is bound to the global named `typeid(T).name()`. -/
theorem TypeInfo_commit_fresh (cls : LunaClass) (n : Nat) (a : Value)
    (hgl : (T GLOBALS).metatable = none)
    (hg : ∀ gt, (T GLOBALS).get (Value.string cls.typeidName) ≠ Value.table gt)
    (t : Nat) (hm : (T n).metatable = some t)
    (hni : (T t).get (Value.string "__newindex") = Value.nil)
    (h1 : n ≠ GLOBALS) (h2 : n < nT) (h3 : GLOBALS < nT) (h4 : t < nT) :
    TypeInfo.commit cls ⟨S ++ [Value.table n] ++ [a], up, T, nT, U, nU, C, nC, tm, del, ob, nO⟩
        ((S ++ [Value.table n]).length)
      = Except.ok ⟨S ++ [Value.table n] ++ [a]
            ++ [(T GLOBALS).get (Value.string cls.typeidName)] ++ [Value.table nT], up,
          fun j =>
            if j = GLOBALS then
              (T GLOBALS).set (Value.string cls.s_lunaTypeInfoName) (Value.table n)
            else if j = n then (T n).set (Value.string "type") (Value.table nT)
            else if j = nT then
              LTable.empty.set (Value.string "name") (Value.string cls.s_lunaTypeInfoName)
            else if j = nT then LTable.empty else T j,
          nT + 1, U, nU, C, nC, tm, del, ob, nO⟩ := by
  have d1 : GLOBALS ≠ n := fun h => h1 h.symm
  have d2 : nT ≠ n := by omega
  have d3 : n ≠ nT := by omega
  have d4 : nT ≠ GLOBALS := by omega
  have d5 : GLOBALS ≠ nT := by omega
  have d6 : t ≠ nT := by omega
  have hi : handlerOf T GLOBALS "__index" = Value.nil := handlerOf_plain T GLOBALS _ hgl
  simp only [TypeInfo.commit, lua_getglobal, lua_getfield_globals, luaV_gettable_ok, hi, ok_bind,
    lua_istable_m1_not, hg, ne_eq, not_false_eq_true, implies_true, Bool.false_eq_true, if_false,
    lua_newtable_eq, lua_gettop_eq, lua_pushstring_eq, set_abs0, set_abs1, set_abs2, set_abs3,
    set_globals, lua_pushvalue_abs0, lua_pushvalue_abs1, lua_pushvalue_abs2, lua_pushvalue_abs3,
    handlerOf_eq, hgl, if_true, LTable.metatable_empty, LTable.metatable_set, h1, d1, d2, d3, d4,
    d5, d6, hm, hni, ok_pure]

theorem luaL_newmetatable_fresh (tname : String)
    (hreg : (T REGISTRY).get (Value.string tname) = Value.nil)
    (hplain : (T REGISTRY).metatable = none) (hR : REGISTRY ≠ nT) :
    luaL_newmetatable ⟨S, up, T, nT, U, nU, C, nC, tm, del, ob, nO⟩ tname
      = Except.ok (⟨S ++ [Value.table nT], up,
          fun j => if j = REGISTRY then (T REGISTRY).set (Value.string tname) (Value.table nT)
            else if j = nT then LTable.empty else T j,
          nT + 1, U, nU, C, nC, tm, del, ob, nO⟩, 1) := by
  have hi : handlerOf T REGISTRY "__index" = Value.nil := handlerOf_plain T REGISTRY _ hplain
  have hw : handlerOf (fun j => if j = nT then LTable.empty else T j) REGISTRY "__newindex"
      = Value.nil := by
    apply handlerOf_plain; simp only [hR, if_false, hplain]
  simp only [luaL_newmetatable, lua_getfield_registry, luaV_gettable_ok, hi, hreg, ok_bind,
    lua_isnil_m1, decide_True, Bool.not_true, Bool.false_eq_true, if_false, lua_pop_1,
    lua_newtable_eq, lua_pushvalue_m1, lua_setfield, index2adr_registry, List.getLast?_concat,
    luaV_settable_ok, hw, ne_eq, reduceCtorEq, not_false_eq_true, List.dropLast_concat, hR,
    ok_pure]

theorem luaL_newmetatable_existing (tname : String) (v : Value)
    (hreg : (T REGISTRY).get (Value.string tname) = v) (hv : v ≠ Value.nil) :
    luaL_newmetatable ⟨S, up, T, nT, U, nU, C, nC, tm, del, ob, nO⟩ tname
      = Except.ok (⟨S ++ [v], up, T, nT, U, nU, C, nC, tm, del, ob, nO⟩, 0) := by
  subst hreg
  simp only [luaL_newmetatable, lua_getfield_registry, luaV_gettable_found, hv, ne_eq,
    not_false_eq_true, ok_bind, lua_isnil_m1, decide_False, Bool.not_false, if_true, ok_pure]

/-- The statements of `commit` before its loop, when the class name is not in the
registry. -/
theorem commit_fresh_eq (cls : LunaClass)
    (hreg : (T REGISTRY).get (Value.string cls.s_lunaClassName) = Value.nil)
    (hR : (T REGISTRY).metatable = none) (hG : (T GLOBALS).metatable = none) (hnT : 2 ≤ nT) :
    commit cls ⟨S, up, T, nT, U, nU, C, nC, tm, del, ob, nO⟩ = (do
      let l ← (do
        let l ← commitMethods cls ((S ++ [Value.table nT]).length) cls.s_lunaMethods 0
          ⟨S ++ [Value.table nT] ++ [Value.table (nT + 1)], up,
            fun j =>
              if j = nT then
                { entries := (LTable.empty.set (Value.string "new")
                    (Value.function (nC + 1 + 1))).entries,
                  metatable := some (nT + 1 + 1) }
              else if j = nT + 1 + 1 then
                LTable.empty.set (Value.string "__call") (Value.function (nC + 1 + 1))
              else if j = nT + 1 then
                (((LTable.empty.set (Value.string "__metatable") (Value.table nT)).set
                  (Value.string "__index") (Value.table nT)).set
                  (Value.string "__tostring") (Value.function nC)).set
                  (Value.string "__gc") (Value.function (nC + 1))
              else if j = GLOBALS then
                (T GLOBALS).set (Value.string cls.s_lunaClassName) (Value.table nT)
              else if j = REGISTRY then
                (T REGISTRY).set (Value.string cls.s_lunaClassName) (Value.table (nT + 1))
              else T j,
            nT + 1 + 1 + 1, U, nU,
            fun j =>
              if j = nC + 1 + 1 then { fn := CFunction.newT cls.typeidName, upvalues := [] }
              else if j = nC + 1 then { fn := CFunction.gcT cls.typeidName, upvalues := [] }
              else if j = nC then { fn := CFunction.tostringT cls.typeidName, upvalues := [] }
              else C j,
            nC + 1 + 1 + 1, tm, del, ob, nO⟩
        TypeInfo.commit cls l ((S ++ [Value.table nT]).length))
      lua_pop l 2) := by
  have e1 : REGISTRY ≠ GLOBALS := by decide
  have e2 : REGISTRY ≠ nT := by simp only [REGISTRY, GLOBALS]; omega
  have e3 : REGISTRY ≠ nT + 1 := by simp only [REGISTRY, GLOBALS]; omega
  have e4 : REGISTRY ≠ nT + 1 + 1 := by simp only [REGISTRY, GLOBALS]; omega
  have e5 : GLOBALS ≠ REGISTRY := by decide
  have e6 : GLOBALS ≠ nT := by simp only [REGISTRY, GLOBALS]; omega
  have e7 : GLOBALS ≠ nT + 1 := by simp only [REGISTRY, GLOBALS]; omega
  have e8 : GLOBALS ≠ nT + 1 + 1 := by simp only [REGISTRY, GLOBALS]; omega
  have e9 : nT ≠ REGISTRY := by simp only [REGISTRY, GLOBALS]; omega
  have e10 : nT ≠ GLOBALS := by simp only [REGISTRY, GLOBALS]; omega
  have e11 : nT ≠ nT + 1 := by omega
  have e12 : nT ≠ nT + 1 + 1 := by omega
  have e13 : nT + 1 ≠ REGISTRY := by simp only [REGISTRY, GLOBALS]; omega
  have e14 : nT + 1 ≠ GLOBALS := by simp only [REGISTRY, GLOBALS]; omega
  have e15 : nT + 1 ≠ nT := by omega
  have e16 : nT + 1 ≠ nT + 1 + 1 := by omega
  have e17 : nT + 1 + 1 ≠ REGISTRY := by simp only [REGISTRY, GLOBALS]; omega
  have e18 : nT + 1 + 1 ≠ GLOBALS := by simp only [REGISTRY, GLOBALS]; omega
  have e19 : nT + 1 + 1 ≠ nT := by omega
  have e20 : nT + 1 + 1 ≠ nT + 1 := by omega
  simp only [commit, lua_newtable_eq, lua_gettop_eq,
    luaL_newmetatable_fresh, hreg, ne_eq, not_false_eq_true, ok_bind,
    e1, e2, e3, e4, e5, e6, e7, e8, e9, e10, e11, e12, e13, e14, e15, e16, e17, e18, e19, e20,
    lua_pushvalue_abs0, lua_pushvalue_abs1, lua_pushvalue_abs2, lua_pushvalue_abs3,
    lua_pushvalue_m1, set_globals, set_abs0, set_abs1, set_abs2, set_abs3, set_m3, hG, hR,
    if_false, if_true, handlerOf_eq, LTable.get_set, LTable.get_empty, LTable.metatable_set,
    LTable.metatable_empty, lua_pushcfunction_eq, lua_setmetatable_abs1]
  rw [bind_assoc]
  congr 3
  funext j
  simp only [REGISTRY, GLOBALS] at *
  split_ifs <;> rfl

/-- The statements of `commit` before its loop, when the class name is bound to a table
in the registry. -/
theorem commit_existing_eq (cls : LunaClass) (mt : Nat)
    (hreg : (T REGISTRY).get (Value.string cls.s_lunaClassName) = Value.table mt)
    (hmt : (T mt).metatable = none) (h1 : mt ≠ GLOBALS) (h2 : mt < nT)
    (hG : (T GLOBALS).metatable = none) (hnT : GLOBALS < nT) :
    commit cls ⟨S, up, T, nT, U, nU, C, nC, tm, del, ob, nO⟩ = (do
      let l ← (do
        let l ← commitMethods cls ((S ++ [Value.table nT]).length) cls.s_lunaMethods 0
          ⟨S ++ [Value.table nT] ++ [Value.table mt], up,
            fun j =>
              if j = nT then
                { entries := (LTable.empty.set (Value.string "new")
                    (Value.function (nC + 1 + 1))).entries,
                  metatable := some (nT + 1) }
              else if j = nT + 1 then
                LTable.empty.set (Value.string "__call") (Value.function (nC + 1 + 1))
              else if j = mt then
                ((((T mt).set (Value.string "__metatable") (Value.table nT)).set
                  (Value.string "__index") (Value.table nT)).set
                  (Value.string "__tostring") (Value.function nC)).set
                  (Value.string "__gc") (Value.function (nC + 1))
              else if j = GLOBALS then
                (T GLOBALS).set (Value.string cls.s_lunaClassName) (Value.table nT)
              else T j,
            nT + 1 + 1, U, nU,
            fun j =>
              if j = nC + 1 + 1 then { fn := CFunction.newT cls.typeidName, upvalues := [] }
              else if j = nC + 1 then { fn := CFunction.gcT cls.typeidName, upvalues := [] }
              else if j = nC then { fn := CFunction.tostringT cls.typeidName, upvalues := [] }
              else C j,
            nC + 1 + 1 + 1, tm, del, ob, nO⟩
        TypeInfo.commit cls l ((S ++ [Value.table nT]).length))
      lua_pop l 2) := by
  have e1 : GLOBALS ≠ nT := by omega
  have e2 : GLOBALS ≠ nT + 1 := by omega
  have e3 : GLOBALS ≠ mt := by omega
  have e4 : nT ≠ GLOBALS := by omega
  have e5 : nT ≠ nT + 1 := by omega
  have e6 : nT ≠ mt := by omega
  have e7 : nT + 1 ≠ GLOBALS := by omega
  have e8 : nT + 1 ≠ nT := by omega
  have e9 : nT + 1 ≠ mt := by omega
  have e10 : mt ≠ GLOBALS := by omega
  have e11 : mt ≠ nT := by omega
  have e12 : mt ≠ nT + 1 := by omega
  have hr1 : ((fun j => if j = nT then LTable.empty else T j) REGISTRY).get
      (Value.string cls.s_lunaClassName) = Value.table mt := by
    have : REGISTRY ≠ nT := by simp only [REGISTRY, GLOBALS] at *; omega
    simp only [this, if_false, hreg]
  simp only [commit, lua_newtable_eq, lua_gettop_eq,
    luaL_newmetatable_existing (S ++ [Value.table nT]) up
      (fun j => if j = nT then LTable.empty else T j) (nT + 1) U nU C nC tm del ob nO
      cls.s_lunaClassName (Value.table mt) hr1 (by simp),
    ne_eq, not_false_eq_true, ok_bind,
    e1, e2, e3, e4, e5, e6, e7, e8, e9, e10, e11, e12,
    lua_pushvalue_abs0, lua_pushvalue_abs1, lua_pushvalue_abs2, lua_pushvalue_abs3,
    lua_pushvalue_m1, set_globals, set_abs0, set_abs1, set_abs2, set_abs3, set_m3, hG, hmt,
    if_false, if_true, handlerOf_eq, LTable.get_set, LTable.get_empty, LTable.metatable_set,
    LTable.metatable_empty, lua_pushcfunction_eq, lua_setmetatable_abs1]
  rw [bind_assoc]
  congr 3
  funext j
  split_ifs <;> rfl

/-- The loop of `commit` followed by `TypeInfo::commit`. -/
theorem commit_tail_spec (cls : LunaClass) (n mt t : Nat)
    (hgl : (T GLOBALS).metatable = none) (hm : (T n).metatable = some t)
    (hni : (T t).get (Value.string "__newindex") = Value.nil)
    (h0 : t ≠ n) (h1 : n ≠ GLOBALS) (h2 : n < nT) (h3 : GLOBALS < nT) (h4 : t < nT) :
    ∃ (St : List Value) (T2 : Nat → LTable) (nT2 : Nat) (C2 : Nat → Closure) (nC2 : Nat),
      (do
        let l ← commitMethods cls ((S ++ [Value.table n]).length) cls.s_lunaMethods 0
          ⟨S ++ [Value.table n] ++ [Value.table mt], up, T, nT, U, nU, C, nC, tm, del, ob, nO⟩
        TypeInfo.commit cls l ((S ++ [Value.table n]).length))
        = Except.ok ⟨St, up, T2, nT2, U, nU, C2, nC2, tm, del, ob, nO⟩ ∧
      nT ≤ nT2 ∧
      ((∃ gt, (T GLOBALS).get (Value.string cls.typeidName) = Value.table gt ∧
          St = S ++ [Value.table n]) ∨
        ((∀ gt, (T GLOBALS).get (Value.string cls.typeidName) ≠ Value.table gt) ∧
          St = S ++ [Value.table n] ++ [Value.table mt]
            ++ [(T GLOBALS).get (Value.string cls.typeidName)] ++ [Value.table nT])) ∧
      (∀ j, j < nT → j ≠ n → j ≠ GLOBALS → T2 j = T j) ∧
      (T2 GLOBALS).metatable = none ∧
      (∀ key, (T GLOBALS).get key = Value.table n → (T2 GLOBALS).get key = Value.table n) ∧
      (T2 n).metatable = some t ∧
      (∀ f, f < nC → C2 f = C f) ∧
      (∀ k s, (boundNames cls.s_lunaMethods)[k]? = some s →
        s ∉ (boundNames cls.s_lunaMethods).drop (k + 1) → s ≠ "type" →
        ∃ f, (T2 n).get (Value.string s) = Value.function f ∧
          C2 f = { fn := CFunction.thunk cls.typeidName,
                   upvalues := [Value.lightuserdata (Ptr.methodMap cls.typeidName k)] }) := by
  obtain ⟨T1, C1, nC1, heq, hT, hmt, hle, hC, _, hnames⟩ :=
    commitMethods_spec S up nT U nU tm del ob nO cls n t (Value.table mt) h0 cls.s_lunaMethods 0 T C nC
      hm hni
  have d1 : GLOBALS ≠ n := fun h => h1 h.symm
  have d3 : n ≠ nT := by omega
  have hG1 : T1 GLOBALS = T GLOBALS := hT GLOBALS d1
  have ht1 : T1 t = T t := hT t h0
  have hw1 : handlerOf T1 n "__newindex" = Value.nil := by
    rw [handlerOf_some T1 n t _ hmt, ht1]; exact hni
  rw [heq, ok_bind]
  by_cases hg : ∃ gt, (T GLOBALS).get (Value.string cls.typeidName) = Value.table gt
  · obtain ⟨gt, hg⟩ := hg
    rw [TypeInfo_commit_table S up T1 nT U nU C1 nC1 tm del ob nO cls n gt (Value.table mt)
      (fun h => Value.noConfusion h) (by rw [hG1]; exact hg) hw1]
    refine ⟨_, _, _, _, _, rfl, le_refl _, Or.inl ⟨gt, hg, rfl⟩, ?_, ?_, ?_, ?_, hC, ?_⟩
    · intro j _ hj _; simp only [hj, if_false]; exact hT j hj
    · simp only [d1, if_false, hG1, hgl]
    · intro key hk; simp only [d1, if_false, hG1, hk]
    · simp only [if_true, LTable.metatable_set, hmt]
    · intro k s hk hnot _
      obtain ⟨f, hf1, hf2⟩ := hnames k s hk hnot
      refine ⟨f, ?_, by rw [hf2, zero_add]⟩
      simp only [if_true, LTable.get_set, reduceCtorEq, if_false, hf1]
  · have hg2 : ∀ gt, (T1 GLOBALS).get (Value.string cls.typeidName) ≠ Value.table gt := by
      intro gt h; rw [hG1] at h; exact hg ⟨gt, h⟩
    rw [TypeInfo_commit_fresh S up T1 nT U nU C1 nC1 tm del ob nO cls n (Value.table mt)
      (by rw [hG1]; exact hgl) hg2 t hmt (by rw [ht1]; exact hni) h1 h2 h3 h4]
    have hg3 : ∀ gt, (T GLOBALS).get (Value.string cls.typeidName) ≠ Value.table gt :=
      fun gt h => hg ⟨gt, h⟩
    refine ⟨_, _, _, _, _, rfl, by omega, Or.inr ⟨hg3, by rw [hG1]⟩, ?_, ?_, ?_, ?_, hC, ?_⟩
    · intro j hj1 hj2 hj3
      have : j ≠ nT := by omega
      simp only [hj2, hj3, this, if_false]; exact hT j hj2
    · simp only [if_true, LTable.metatable_set, hG1, hgl]
    · intro key hk
      simp only [if_true, LTable.get_set, hG1, hk, ite_self]
    · simp only [h1, if_false, if_true, LTable.metatable_set, hmt]
    · intro k s hk hnot hty
      obtain ⟨f, hf1, hf2⟩ := hnames k s hk hnot
      refine ⟨f, ?_, by rw [hf2, zero_add]⟩
      have : Value.string s ≠ Value.string "type" := by
        intro h; rw [Value.string.injEq] at h; exact hty h
      simp only [h1, if_false, if_true, LTable.get_set, this, hf1]

end commitLemmas

/-- The effect of `lua_pop(l, 2)`: it fails exactly when fewer than two values are on
the stack, and otherwise only shortens the stack. -/
theorem lua_pop_2_eq (l : LuaState) :
    lua_pop l 2 = if 2 ≤ l.stack.length
      then Except.ok { l with stack := l.stack.take (l.stack.length - 2) }
      else Except.error badIndex := by
  have e : (-(2 : Int) - 1) = -3 := by decide
  have e3 : ¬ (0 : Int) ≤ -3 := by decide
  have e4 : (-(-3 + 1 : Int)) = 2 := by decide
  simp only [lua_pop, lua_settop, e, e3, if_false, e4]
  have e5 : ((2 : Int) ≤ (l.stack.length : Int)) ↔ 2 ≤ l.stack.length := by omega
  simp only [e5]
  rfl

/-- The first commit of a class: `commit` reaches its final `lua_pop` in a state
described by `CommitPost`, with a new class metatable. -/
theorem commit_spec_fresh (cls : LunaClass) (l : LuaState)
    (hreg : (l.tables REGISTRY).get (Value.string cls.s_lunaClassName) = Value.nil)
    (hR : (l.tables REGISTRY).metatable = none) (hG : (l.tables GLOBALS).metatable = none)
    (hnT : 2 ≤ l.nextTable) :
    ∃ lm, commit cls l = lua_pop lm 2 ∧ CommitPost cls l lm (l.nextTable + 1) LTable.empty := by
  obtain ⟨S, up, T, nT, U, nU, C, nC, tm, del, ob, nO⟩ := l
  simp only at hreg hR hG hnT
  have heq := commit_fresh_eq S up T nT U nU C nC tm del ob nO cls hreg hR hG hnT
  have g1 : GLOBALS ≠ nT := by unfold GLOBALS; omega
  have g2 : GLOBALS ≠ nT + 1 := by unfold GLOBALS; omega
  have g3 : GLOBALS ≠ nT + 1 + 1 := by unfold GLOBALS; omega
  have g4 : GLOBALS < nT + 1 + 1 + 1 := by unfold GLOBALS; omega
  have r1 : REGISTRY ≠ nT := by unfold REGISTRY; omega
  have r2 : REGISTRY ≠ nT + 1 := by unfold REGISTRY; omega
  have r3 : REGISTRY ≠ nT + 1 + 1 := by unfold REGISTRY; omega
  have r4 : REGISTRY ≠ GLOBALS := by decide
  have r5 : REGISTRY < nT + 1 + 1 + 1 := by unfold REGISTRY; omega
  have n1 : nT + 1 + 1 ≠ nT := by omega
  have n2 : nT + 1 ≠ nT := by omega
  have n3 : nT + 1 ≠ nT + 1 + 1 := by omega
  obtain ⟨St, T2, nT2, C2, nC2, heq2, hle, hstack, hunt, hgp, hgc, hmm, hcl, hmeth⟩ :=
    commit_tail_spec S up
      (fun j =>
              if j = nT then
                { entries := (LTable.empty.set (Value.string "new")
                    (Value.function (nC + 1 + 1))).entries,
                  metatable := some (nT + 1 + 1) }
              else if j = nT + 1 + 1 then
                LTable.empty.set (Value.string "__call") (Value.function (nC + 1 + 1))
              else if j = nT + 1 then
                (((LTable.empty.set (Value.string "__metatable") (Value.table nT)).set
                  (Value.string "__index") (Value.table nT)).set
                  (Value.string "__tostring") (Value.function nC)).set
                  (Value.string "__gc") (Value.function (nC + 1))
              else if j = GLOBALS then
                (T GLOBALS).set (Value.string cls.s_lunaClassName) (Value.table nT)
              else if j = REGISTRY then
                (T REGISTRY).set (Value.string cls.s_lunaClassName) (Value.table (nT + 1))
              else T j)
      (nT + 1 + 1 + 1) U nU
      (fun j =>
              if j = nC + 1 + 1 then { fn := CFunction.newT cls.typeidName, upvalues := [] }
              else if j = nC + 1 then { fn := CFunction.gcT cls.typeidName, upvalues := [] }
              else if j = nC then { fn := CFunction.tostringT cls.typeidName, upvalues := [] }
              else C j)
      (nC + 1 + 1 + 1) tm del ob nO cls nT (nT + 1) (nT + 1 + 1)
      (by simp only [g1, g2, g3, if_false, if_true, LTable.metatable_set, hG])
      (by simp only [if_true])
      (by simp only [n1, if_false, if_true, LTable.get_set, LTable.get_empty, reduceCtorEq,
        Value.string.injEq, String.reduceEq])
      n1 (fun h => g1 h.symm) (by omega) g4 (by omega)
  rw [heq2] at heq
  rw [ok_bind] at heq
  refine ⟨_, heq, ?_⟩
  have hTR : T2 REGISTRY = (T REGISTRY).set (Value.string cls.s_lunaClassName)
      (Value.table (nT + 1)) := by
    rw [hunt REGISTRY r5 r1 r4]
    simp only [r1, r2, r3, r4, if_false, if_true]
  constructor
  · rfl
  · rfl
  · rfl
  · rfl
  · rfl
  · show nT + 2 ≤ nT2
    omega
  · show nT + 1 < nT2
    omega
  · rcases hstack with ⟨gt, hgt, h⟩ | ⟨hgt, h⟩
    · refine Or.inl ⟨?_, h⟩
      simp only [g1, g2, g3, if_false, if_true, LTable.get_set, Value.string.injEq] at hgt
      by_cases hc : cls.typeidName = cls.s_lunaClassName
      · exact Or.inl hc
      · rw [if_neg hc] at hgt; exact Or.inr ⟨gt, hgt⟩
    · refine Or.inr ⟨?_, ?_, ?_, h.trans ?_⟩
      · simp only [g1, g2, g3, if_false, if_true, LTable.get_set, Value.string.injEq] at hgt
        by_cases hc : cls.typeidName = cls.s_lunaClassName
        · rw [if_pos hc] at hgt; exact absurd rfl (hgt nT)
        · rw [if_neg hc] at hgt; exact ⟨hc, hgt⟩
      rotate_left 2
      · rw [List.append_assoc, List.append_assoc, List.append_assoc]; exact rfl
  · show (T2 REGISTRY).get _ = _
    rw [hTR, LTable.get_set]; simp only [if_true]
  · intro key hkey
    show (T2 REGISTRY).get key = (T REGISTRY).get key
    rw [hTR, LTable.get_set]; simp only [hkey, if_false]
  · show (T2 REGISTRY).metatable = none
    rw [hTR, LTable.metatable_set]; exact hR
  · exact hgp
  · show (T2 GLOBALS).get _ = Value.table nT
    apply hgc
    simp only [g1, g2, g3, if_false, if_true, LTable.get_set]
  · show T2 (nT + 1) = _
    rw [hunt (nT + 1) (by omega) n2 (fun h => g2 h.symm)]
    simp only [n2, n3, if_false, if_true]
  · refine ⟨nT + 1 + 1, hmm, ?_⟩
    show T2 (nT + 1 + 1) = _
    rw [hunt (nT + 1 + 1) (by omega) n1 (fun h => g3 h.symm)]
    simp only [n1, if_false, if_true]
  · show C2 (nC + 2) = _
    rw [hcl (nC + 2) (by omega)]
    simp only [if_true]
  · show C2 (nC + 1) = _
    rw [hcl (nC + 1) (by omega)]
    have : nC + 1 ≠ nC + 1 + 1 := by omega
    simp only [this, if_false, if_true]
  · intro f hf
    show C2 f = C f
    have hf2 : f < nC := hf
    rw [hcl f (by omega)]
    have c1 : f ≠ nC + 1 + 1 := by omega
    have c2 : f ≠ nC + 1 := by omega
    have c3 : f ≠ nC := by omega
    simp only [c1, c2, c3, if_false]
  · intro j hj1 hj2 hj3 _
    show T2 j = T j
    have hj4 : j < nT := hj1
    rw [hunt j (by omega) (by omega) hj3]
    have t1 : j ≠ nT := by omega
    have t2 : j ≠ nT + 1 := by omega
    have t3 : j ≠ nT + 1 + 1 := by omega
    simp only [t1, t2, t3, hj2, hj3, if_false]
  · exact hmeth

/-- A later commit of a class whose name is bound, in the registry, to a table
without metatable: `commit` reuses that table as the class metatable. -/
theorem commit_spec_existing (cls : LunaClass) (l : LuaState) (mt : Nat)
    (hreg : (l.tables REGISTRY).get (Value.string cls.s_lunaClassName) = Value.table mt)
    (hmt : (l.tables mt).metatable = none) (hm1 : mt ≠ GLOBALS) (hm2 : mt ≠ REGISTRY)
    (hm3 : mt < l.nextTable)
    (hR : (l.tables REGISTRY).metatable = none) (hG : (l.tables GLOBALS).metatable = none)
    (hnT : 2 ≤ l.nextTable) :
    ∃ lm, commit cls l = lua_pop lm 2 ∧ CommitPost cls l lm mt (l.tables mt) := by
  obtain ⟨S, up, T, nT, U, nU, C, nC, tm, del, ob, nO⟩ := l
  simp only at hreg hmt hm3 hR hG hnT
  have g0 : GLOBALS < nT := by unfold GLOBALS; omega
  have heq := commit_existing_eq S up T nT U nU C nC tm del ob nO cls mt hreg hmt hm1 hm3 hG g0
  have g1 : GLOBALS ≠ nT := by omega
  have g2 : GLOBALS ≠ nT + 1 := by omega
  have g3 : GLOBALS ≠ mt := fun h => hm1 h.symm
  have g4 : GLOBALS < nT + 1 + 1 := by omega
  have r1 : REGISTRY ≠ nT := by unfold REGISTRY; omega
  have r2 : REGISTRY ≠ nT + 1 := by unfold REGISTRY; omega
  have r3 : REGISTRY ≠ mt := fun h => hm2 h.symm
  have r4 : REGISTRY ≠ GLOBALS := by decide
  have r5 : REGISTRY < nT + 1 + 1 := by unfold REGISTRY; omega
  have n1 : nT + 1 ≠ nT := by omega
  have n2 : mt ≠ nT := by omega
  have n3 : mt ≠ nT + 1 := by omega
  obtain ⟨St, T2, nT2, C2, nC2, heq2, hle, hstack, hunt, hgp, hgc, hmm, hcl, hmeth⟩ :=
    commit_tail_spec S up
      (fun j =>
              if j = nT then
                { entries := (LTable.empty.set (Value.string "new")
                    (Value.function (nC + 1 + 1))).entries,
                  metatable := some (nT + 1) }
              else if j = nT + 1 then
                LTable.empty.set (Value.string "__call") (Value.function (nC + 1 + 1))
              else if j = mt then
                ((((T mt).set (Value.string "__metatable") (Value.table nT)).set
                  (Value.string "__index") (Value.table nT)).set
                  (Value.string "__tostring") (Value.function nC)).set
                  (Value.string "__gc") (Value.function (nC + 1))
              else if j = GLOBALS then
                (T GLOBALS).set (Value.string cls.s_lunaClassName) (Value.table nT)
              else T j)
      (nT + 1 + 1) U nU
      (fun j =>
              if j = nC + 1 + 1 then { fn := CFunction.newT cls.typeidName, upvalues := [] }
              else if j = nC + 1 then { fn := CFunction.gcT cls.typeidName, upvalues := [] }
              else if j = nC then { fn := CFunction.tostringT cls.typeidName, upvalues := [] }
              else C j)
      (nC + 1 + 1 + 1) tm del ob nO cls nT mt (nT + 1)
      (by simp only [g1, g2, g3, if_false, if_true, LTable.metatable_set, hG])
      (by simp only [if_true])
      (by simp only [n1, if_false, if_true, LTable.get_set, LTable.get_empty, reduceCtorEq,
        Value.string.injEq, String.reduceEq])
      n1 (fun h => g1 h.symm) (by omega) g4 (by omega)
  rw [heq2] at heq
  rw [ok_bind] at heq
  refine ⟨_, heq, ?_⟩
  have hTR : T2 REGISTRY = T REGISTRY := by
    rw [hunt REGISTRY r5 r1 r4]
    simp only [r1, r2, r3, r4, if_false, if_true]
  constructor
  · rfl
  · rfl
  · rfl
  · rfl
  · rfl
  · show nT + 2 ≤ nT2
    omega
  · show mt < nT2
    omega
  · rcases hstack with ⟨gt, hgt, h⟩ | ⟨hgt, h⟩
    · refine Or.inl ⟨?_, h⟩
      simp only [g1, g2, g3, if_false, if_true, LTable.get_set, Value.string.injEq] at hgt
      by_cases hc : cls.typeidName = cls.s_lunaClassName
      · exact Or.inl hc
      · rw [if_neg hc] at hgt; exact Or.inr ⟨gt, hgt⟩
    · refine Or.inr ⟨?_, ?_, ?_, h.trans ?_⟩
      · simp only [g1, g2, g3, if_false, if_true, LTable.get_set, Value.string.injEq] at hgt
        by_cases hc : cls.typeidName = cls.s_lunaClassName
        · rw [if_pos hc] at hgt; exact absurd rfl (hgt nT)
        · rw [if_neg hc] at hgt; exact ⟨hc, hgt⟩
      rotate_left 2
      · rw [List.append_assoc, List.append_assoc, List.append_assoc]; exact rfl
  · show (T2 REGISTRY).get _ = _
    rw [hTR]; exact hreg
  · intro key _
    show (T2 REGISTRY).get key = (T REGISTRY).get key
    rw [hTR]
  · show (T2 REGISTRY).metatable = none
    rw [hTR]; exact hR
  · exact hgp
  · show (T2 GLOBALS).get _ = Value.table nT
    apply hgc
    simp only [g1, g2, g3, if_false, if_true, LTable.get_set]
  · show T2 mt = _
    rw [hunt mt (by omega) n2 hm1]
    simp only [n2, n3, if_false, if_true]
  · refine ⟨nT + 1, hmm, ?_⟩
    show T2 (nT + 1) = _
    rw [hunt (nT + 1) (by omega) n1 (fun h => g2 h.symm)]
    simp only [n1, if_false, if_true]
  · show C2 (nC + 2) = _
    rw [hcl (nC + 2) (by omega)]
    simp only [if_true]
  · show C2 (nC + 1) = _
    rw [hcl (nC + 1) (by omega)]
    have : nC + 1 ≠ nC + 1 + 1 := by omega
    simp only [this, if_false, if_true]
  · intro f hf
    show C2 f = C f
    have hf2 : f < nC := hf
    rw [hcl f (by omega)]
    have c1 : f ≠ nC + 1 + 1 := by omega
    have c2 : f ≠ nC + 1 := by omega
    have c3 : f ≠ nC := by omega
    simp only [c1, c2, c3, if_false]
  · intro j hj1 hj2 hj3 hj5
    show T2 j = T j
    have hj4 : j < nT := hj1
    rw [hunt j (by omega) (by omega) hj3]
    have t1 : j ≠ nT := by omega
    have t2 : j ≠ nT + 1 := by omega
    simp only [t1, t2, hj5, hj3, if_false]
  · exact hmeth

/-! ## The specification of `push` -/

/-! ## `push` -/

section pushLemmas

variable (S up : List Value) (T : Nat → LTable) (nT : Nat) (U : Nat → Userdata) (nU : Nat)
  (C : Nat → Closure) (nC : Nat) (tm : Nat → Option Nat) (del : List Nat)
  (ob : Nat → Int) (nO : Nat)

/-- The table `weaktable` creates. -/
theorem weaktable_eq (mode : String) :
    weaktable ⟨S, up, T, nT, U, nU, C, nC, tm, del, ob, nO⟩ mode
      = Except.ok ⟨S ++ [Value.table nT], up,
          fun j => if j = nT then
            ({ LTable.empty with metatable := some nT } : LTable).set
              (Value.string "__mode") (Value.string mode)
            else T j,
          nT + 1, U, nU, C, nC, tm, del, ob, nO⟩ := by
  simp only [weaktable, lua_newtable_eq, lua_pushvalue_m1, ok_bind, lua_setmetatable_m2_table,
    lua_pushliteral_eq, lua_pushstring_eq, lua_settable_eq, index2adr_m3, luaV_settable_ok,
    handlerOf_eq, if_true, LTable.get_empty, ne_eq, reduceCtorEq, not_false_eq_true,
    LTable.get_mk, LTable.entries_empty, rawgetEntries_nil,
    List.dropLast_concat]
  congr 3
  funext j
  split_ifs <;> rfl


/-- `subtable` creates the subtable when the metatable has no field `name`
(0 values above the metatable). -/
theorem subtable_absent_0 (mt : Nat) (name mode : String)
    (habs : (T mt).get (Value.string name) = Value.nil)
    (hplain : (T mt).metatable = none) (hne : mt ≠ nT) :
    subtable ⟨S ++ [Value.table mt], up, T, nT, U, nU, C, nC, tm, del, ob, nO⟩
        ((S ++ [Value.table mt]).length) name mode
      = Except.ok ⟨S ++ [Value.table mt] ++ [Value.table nT], up,
          fun j => if j = mt then (T mt).set (Value.string name) (Value.table nT)
            else if j = nT then
              ({ LTable.empty with metatable := some nT } : LTable).set
                (Value.string "__mode") (Value.string mode)
            else T j,
          nT + 1, U, nU, C, nC, tm, del, ob, nO⟩ := by
  simp only [subtable, lua_pushstring_eq, lua_gettable_eq, index2adr_abs1, index2adr_abs3,
    index2adr_abs5, luaV_gettable_ok, handlerOf_eq, hplain, habs, ok_bind, lua_isnil_m1,
    decide_True, if_true, lua_pop_1, weaktable_eq, lua_pushvalue_m2, lua_settable_eq,
    luaV_settable_ok, hne, if_false, ne_eq, reduceCtorEq, not_false_eq_true,
    List.dropLast_concat]

/-- `subtable` pushes the subtable when the metatable has it (0 values above the
metatable). -/
theorem subtable_present_0 (mt u : Nat) (name mode : String)
    (hpres : (T mt).get (Value.string name) = Value.table u) :
    subtable ⟨S ++ [Value.table mt], up, T, nT, U, nU, C, nC, tm, del, ob, nO⟩
        ((S ++ [Value.table mt]).length) name mode
      = Except.ok ⟨S ++ [Value.table mt] ++ [Value.table u], up, T, nT, U, nU, C, nC, tm, del, ob, nO⟩ := by
  have hf : (T mt).get (Value.string name) ≠ Value.nil := by rw [hpres]; simp
  simp only [subtable, lua_pushstring_eq, lua_gettable_eq, index2adr_abs1, index2adr_abs3,
    luaV_gettable_found, hf, ne_eq, not_false_eq_true, hpres, ok_bind, lua_isnil_m1,
    reduceCtorEq, decide_False, Bool.false_eq_true, if_false, ok_pure]

/-- `subtable` creates the subtable when the metatable has no field `name`
(2 values above the metatable). -/
theorem subtable_absent_2 (mt : Nat) (a b : Value) (name mode : String)
    (habs : (T mt).get (Value.string name) = Value.nil)
    (hplain : (T mt).metatable = none) (hne : mt ≠ nT) :
    subtable ⟨S ++ [Value.table mt] ++ [a] ++ [b], up, T, nT, U, nU, C, nC, tm, del, ob, nO⟩
        ((S ++ [Value.table mt]).length) name mode
      = Except.ok ⟨S ++ [Value.table mt] ++ [a] ++ [b] ++ [Value.table nT], up,
          fun j => if j = mt then (T mt).set (Value.string name) (Value.table nT)
            else if j = nT then
              ({ LTable.empty with metatable := some nT } : LTable).set
                (Value.string "__mode") (Value.string mode)
            else T j,
          nT + 1, U, nU, C, nC, tm, del, ob, nO⟩ := by
  simp only [subtable, lua_pushstring_eq, lua_gettable_eq, index2adr_abs1, index2adr_abs3,
    index2adr_abs5, luaV_gettable_ok, handlerOf_eq, hplain, habs, ok_bind, lua_isnil_m1,
    decide_True, if_true, lua_pop_1, weaktable_eq, lua_pushvalue_m2, lua_settable_eq,
    luaV_settable_ok, hne, if_false, ne_eq, reduceCtorEq, not_false_eq_true,
    List.dropLast_concat]

/-- `subtable` pushes the subtable when the metatable has it (2 values above the
metatable). -/
theorem subtable_present_2 (mt u : Nat) (a b : Value) (name mode : String)
    (hpres : (T mt).get (Value.string name) = Value.table u) :
    subtable ⟨S ++ [Value.table mt] ++ [a] ++ [b], up, T, nT, U, nU, C, nC, tm, del, ob, nO⟩
        ((S ++ [Value.table mt]).length) name mode
      = Except.ok ⟨S ++ [Value.table mt] ++ [a] ++ [b] ++ [Value.table u], up, T, nT, U, nU, C, nC, tm, del, ob, nO⟩ := by
  have hf : (T mt).get (Value.string name) ≠ Value.nil := by rw [hpres]; simp
  simp only [subtable, lua_pushstring_eq, lua_gettable_eq, index2adr_abs1, index2adr_abs3,
    luaV_gettable_found, hf, ne_eq, not_false_eq_true, hpres, ok_bind, lua_isnil_m1,
    reduceCtorEq, decide_False, Bool.false_eq_true, if_false, ok_pure]

/-- What `subtable` does for a metatable without metatable whose field `name` is absent
or a weak table (0 values above the metatable). -/
theorem subtable_spec_0 (mt : Nat) (name mode : String)
    (hplain : (T mt).metatable = none) (h1 : GLOBALS < mt) (h2 : mt < nT)
    (hsub : (T mt).get (Value.string name) = Value.nil ∨
      ∃ u, (T mt).get (Value.string name) = Value.table u ∧ u ≠ mt ∧ GLOBALS < u ∧ u < nT ∧
        (T u).metatable = some u ∧ (T u).get (Value.string "__newindex") = Value.nil) :
    ∃ (w : Nat) (T1 : Nat → LTable) (nT1 : Nat),
      subtable ⟨S ++ [Value.table mt], up, T, nT, U, nU, C, nC, tm, del, ob, nO⟩
          ((S ++ [Value.table mt]).length) name mode
        = Except.ok ⟨S ++ [Value.table mt] ++ [Value.table w], up, T1, nT1, U, nU, C, nC, tm, del, ob, nO⟩ ∧
      (T1 mt).get (Value.string name) = Value.table w ∧
      (T1 mt).metatable = none ∧
      (∀ key, key ≠ Value.string name → (T1 mt).get key = (T mt).get key) ∧
      w ≠ mt ∧ GLOBALS < w ∧ w < nT1 ∧ (T1 w).metatable = some w ∧
      (T1 w).get (Value.string "__newindex") = Value.nil ∧
      nT ≤ nT1 ∧
      (∀ j, j ≠ mt → j < nT → T1 j = T j) ∧
      ((T mt).get (Value.string name) = Value.table w ∨
        ((T mt).get (Value.string name) = Value.nil ∧ w = nT ∧
          ∀ id, (T1 w).get (Value.userdata id) = Value.nil)) := by
  rcases hsub with habs | ⟨u, hpres, hu1, hu2, hu3, hu4, hu5⟩
  · have hne : mt ≠ nT := by omega
    have hne2 : nT ≠ mt := by omega
    refine ⟨nT, _, _, subtable_absent_0 S up T nT U nU C nC tm del ob nO mt name mode habs hplain hne,
      ?_, ?_, ?_, hne2, by omega, by omega, ?_, ?_, by omega, ?_, Or.inr ⟨habs, rfl, ?_⟩⟩
    · simp only [if_true, LTable.get_set]
    · simp only [if_true, LTable.metatable_set, hplain]
    · intro key hkey; simp only [if_true, LTable.get_set, hkey, if_false]
    · simp only [hne2, if_false, if_true, LTable.metatable_set]
    · simp only [hne2, if_false, if_true, LTable.get_set, LTable.get_mk, LTable.entries_empty,
        rawgetEntries_nil, Value.string.injEq, String.reduceEq]
    · intro j hj1 hj2
      have : j ≠ nT := by omega
      simp only [hj1, this, if_false]
    · intro id
      simp only [hne2, if_false, if_true, LTable.get_set, LTable.get_mk, LTable.entries_empty,
        rawgetEntries_nil, reduceCtorEq]
  · exact ⟨u, T, nT, subtable_present_0 S up T nT U nU C nC tm del ob nO mt u name mode hpres,
      hpres, hplain, fun _ _ => rfl, hu1, hu2, hu3, hu4, hu5, le_refl _, fun _ _ _ => rfl,
      Or.inl hpres⟩

/-- What `subtable` does for a metatable without metatable whose field `name` is absent
or a weak table (2 values above the metatable). -/
theorem subtable_spec_2 (mt : Nat) (a b : Value) (name mode : String)
    (hplain : (T mt).metatable = none) (h1 : GLOBALS < mt) (h2 : mt < nT)
    (hsub : (T mt).get (Value.string name) = Value.nil ∨
      ∃ u, (T mt).get (Value.string name) = Value.table u ∧ u ≠ mt ∧ GLOBALS < u ∧ u < nT ∧
        (T u).metatable = some u ∧ (T u).get (Value.string "__newindex") = Value.nil) :
    ∃ (w : Nat) (T1 : Nat → LTable) (nT1 : Nat),
      subtable ⟨S ++ [Value.table mt] ++ [a] ++ [b], up, T, nT, U, nU, C, nC, tm, del, ob, nO⟩
          ((S ++ [Value.table mt]).length) name mode
        = Except.ok ⟨S ++ [Value.table mt] ++ [a] ++ [b] ++ [Value.table w], up, T1, nT1, U, nU, C, nC, tm, del, ob, nO⟩ ∧
      (T1 mt).get (Value.string name) = Value.table w ∧
      (T1 mt).metatable = none ∧
      (∀ key, key ≠ Value.string name → (T1 mt).get key = (T mt).get key) ∧
      w ≠ mt ∧ GLOBALS < w ∧ w < nT1 ∧ (T1 w).metatable = some w ∧
      (T1 w).get (Value.string "__newindex") = Value.nil ∧
      nT ≤ nT1 ∧
      (∀ j, j ≠ mt → j < nT → T1 j = T j) ∧
      ((T mt).get (Value.string name) = Value.table w ∨
        ((T mt).get (Value.string name) = Value.nil ∧ w = nT ∧
          ∀ id, (T1 w).get (Value.userdata id) = Value.nil)) := by
  rcases hsub with habs | ⟨u, hpres, hu1, hu2, hu3, hu4, hu5⟩
  · have hne : mt ≠ nT := by omega
    have hne2 : nT ≠ mt := by omega
    refine ⟨nT, _, _, subtable_absent_2 S up T nT U nU C nC tm del ob nO mt a b name mode habs hplain hne,
      ?_, ?_, ?_, hne2, by omega, by omega, ?_, ?_, by omega, ?_, Or.inr ⟨habs, rfl, ?_⟩⟩
    · simp only [if_true, LTable.get_set]
    · simp only [if_true, LTable.metatable_set, hplain]
    · intro key hkey; simp only [if_true, LTable.get_set, hkey, if_false]
    · simp only [hne2, if_false, if_true, LTable.metatable_set]
    · simp only [hne2, if_false, if_true, LTable.get_set, LTable.get_mk, LTable.entries_empty,
        rawgetEntries_nil, Value.string.injEq, String.reduceEq]
    · intro j hj1 hj2
      have : j ≠ nT := by omega
      simp only [hj1, this, if_false]
    · intro id
      simp only [hne2, if_false, if_true, LTable.get_set, LTable.get_mk, LTable.entries_empty,
        rawgetEntries_nil, reduceCtorEq]
  · exact ⟨u, T, nT, subtable_present_2 S up T nT U nU C nC tm del ob nO mt u a b name mode hpres,
      hpres, hplain, fun _ _ => rfl, hu1, hu2, hu3, hu4, hu5, le_refl _, fun _ _ _ => rfl,
      Or.inl hpres⟩

end pushLemmas

section pushEval

variable (S up : List Value) (T : Nat → LTable) (nT : Nat) (U : Nat → Userdata) (nU : Nat)
  (C : Nat → Closure) (nC : Nat) (tm : Nat → Option Nat) (del : List Nat)
  (ob : Nat → Int) (nO : Nat)

/-- The first statements of `push` for a non-null pointer and a class whose name the
registry binds to the table `mt`. -/
theorem push_head (cls : LunaClass) (mt inst : Nat) (gc : Bool) (hi : inst ≠ 0)
    (hreg : (T REGISTRY).get (Value.string cls.s_lunaClassName) = Value.table mt) :
    push cls ⟨S, up, T, nT, U, nU, C, nC, tm, del, ob, nO⟩ inst gc = (do
      let l ← subtable ⟨S ++ [Value.table mt], up, T, nT, U, nU, C, nC, tm, del, ob, nO⟩
        ((S ++ [Value.table mt]).length) "userdata" "v"
      let (l, userdata) ← allocUserdata l ((S ++ [Value.table mt]).length) (Ptr.obj inst)
      let l ← (if userdata ≠ NULL then do
        let l ← writePT l userdata inst
        let l ← lua_pushvalue l ((S ++ [Value.table mt]).length)
        let l ← lua_setmetatable l (-2)
        if !gc then
          let _ := lua_checkstack l 3
          let l ← subtable l ((S ++ [Value.table mt]).length) "unmanaged" "k"
          let l ← lua_pushvalue l (-2)
          let l := lua_pushboolean l 1
          let l ← lua_settable l (-3)
          lua_pop l 1
        else
          pure l
      else
        pure l)
      let l ← lua_replace l ((S ++ [Value.table mt]).length)
      let l ← lua_settop l ((S ++ [Value.table mt]).length)
      return (l, (((S ++ [Value.table mt]).length : Nat) : Int))) := by
  have hf : (T REGISTRY).get (Value.string cls.s_lunaClassName) ≠ Value.nil := by
    rw [hreg]; simp
  simp only [push, hi, if_false, luaL_getmetatable, lua_getfield_registry, luaV_gettable_found,
    hf, ne_eq, not_false_eq_true, hreg, ok_bind, lua_isnil_m1, reduceCtorEq, decide_False,
    Bool.false_eq_true, lua_gettop_eq, ok_pure]

/-- The statements of `push` after its first call of `subtable`, when the handle is to be
collected by Lua (`gc` is true). -/
theorem push_managed (mt u inst : Nat)
    (hplain : (T mt).metatable = none)
    (hlight : (T mt).get (Value.lightuserdata (Ptr.obj inst)) = Value.nil)
    (hum : (T u).metatable = some u)
    (hun : (T u).get (Value.string "__newindex") = Value.nil) :
    (do
      let (l, userdata) ← allocUserdata
        ⟨S ++ [Value.table mt] ++ [Value.table u], up, T, nT, U, nU, C, nC, tm, del, ob, nO⟩
        ((S ++ [Value.table mt]).length) (Ptr.obj inst)
      let l ← (if userdata ≠ NULL then do
        let l ← writePT l userdata inst
        let l ← lua_pushvalue l ((S ++ [Value.table mt]).length)
        let l ← lua_setmetatable l (-2)
        if !true then
          let _ := lua_checkstack l 3
          let l ← subtable l ((S ++ [Value.table mt]).length) "unmanaged" "k"
          let l ← lua_pushvalue l (-2)
          let l := lua_pushboolean l 1
          let l ← lua_settable l (-3)
          lua_pop l 1
        else
          pure l
      else
        pure l)
      let l ← lua_replace l ((S ++ [Value.table mt]).length)
      let l ← lua_settop l ((S ++ [Value.table mt]).length)
      return (l, (((S ++ [Value.table mt]).length : Nat) : Int)))
    = Except.ok (⟨S ++ [Value.userdata nU], up,
        fun j => if j = u then
          (T u).set (Value.lightuserdata (Ptr.obj inst)) (Value.userdata nU) else T j,
        nT, fun j => if j = nU then { pT := inst, metatable := some mt } else U j, nU + 1,
        C, nC, tm, del, ob, nO⟩, ((S.length + 1 : Nat) : Int)) := by
  have hn : Ptr.block nU ≠ NULL := by simp [NULL]
  simp only [allocUserdata, lua_pushlightuserdata_eq, lua_gettable_eq, index2adr_abs2,
    luaV_gettable_ok, handlerOf_eq, hplain, hlight, ok_bind, lua_isnil_m1, decide_True, if_true,
    lua_pop_1, lua_newuserdata_eq, lua_pushvalue_m2, lua_settable_eq, index2adr_m4,
    luaV_settable_ok, hum, hun, ne_eq, reduceCtorEq, not_false_eq_true, List.dropLast_concat,
    ok_pure, hn, writePT, LuaState.setUserdata, lua_pushvalue_abs2, lua_setmetatable_m2_userdata,
    Bool.not_true, Bool.false_eq_true, if_false, lua_replace_abs2, lua_settop_abs1]
  simp only [List.length_append, List.length_singleton]
  congr 3
  funext j
  split_ifs <;> rfl

/-- The statements of `push` between its two calls of `subtable`, when the handle is not to
be collected by Lua (`gc` is false). -/
theorem push_unmanaged_head (mt u inst : Nat)
    (hplain : (T mt).metatable = none)
    (hlight : (T mt).get (Value.lightuserdata (Ptr.obj inst)) = Value.nil)
    (hum : (T u).metatable = some u)
    (hun : (T u).get (Value.string "__newindex") = Value.nil) :
    (do
      let (l, userdata) ← allocUserdata
        ⟨S ++ [Value.table mt] ++ [Value.table u], up, T, nT, U, nU, C, nC, tm, del, ob, nO⟩
        ((S ++ [Value.table mt]).length) (Ptr.obj inst)
      let l ← (if userdata ≠ NULL then do
        let l ← writePT l userdata inst
        let l ← lua_pushvalue l ((S ++ [Value.table mt]).length)
        let l ← lua_setmetatable l (-2)
        if !false then
          let _ := lua_checkstack l 3
          let l ← subtable l ((S ++ [Value.table mt]).length) "unmanaged" "k"
          let l ← lua_pushvalue l (-2)
          let l := lua_pushboolean l 1
          let l ← lua_settable l (-3)
          lua_pop l 1
        else
          pure l
      else
        pure l)
      let l ← lua_replace l ((S ++ [Value.table mt]).length)
      let l ← lua_settop l ((S ++ [Value.table mt]).length)
      return (l, (((S ++ [Value.table mt]).length : Nat) : Int)))
    = (do
      let l ← subtable
        ⟨S ++ [Value.table mt] ++ [Value.table u] ++ [Value.userdata nU], up,
          fun j => if j = u then
            (T u).set (Value.lightuserdata (Ptr.obj inst)) (Value.userdata nU) else T j,
          nT, fun j => if j = nU then { pT := inst, metatable := some mt } else U j, nU + 1,
          C, nC, tm, del, ob, nO⟩
        ((S ++ [Value.table mt]).length) "unmanaged" "k"
      let l ← lua_pushvalue l (-2)
      let l := lua_pushboolean l 1
      let l ← lua_settable l (-3)
      let l ← lua_pop l 1
      let l ← lua_replace l ((S ++ [Value.table mt]).length)
      let l ← lua_settop l ((S ++ [Value.table mt]).length)
      return (l, (((S ++ [Value.table mt]).length : Nat) : Int))) := by
  have hn : Ptr.block nU ≠ NULL := by simp [NULL]
  simp only [allocUserdata, lua_pushlightuserdata_eq, lua_gettable_eq, index2adr_abs2,
    luaV_gettable_ok, handlerOf_eq, hplain, hlight, ok_bind, lua_isnil_m1, decide_True, if_true,
    lua_pop_1, lua_newuserdata_eq, lua_pushvalue_m2, lua_settable_eq, index2adr_m4,
    luaV_settable_ok, hum, hun, ne_eq, reduceCtorEq, not_false_eq_true, List.dropLast_concat,
    ok_pure, hn, writePT, LuaState.setUserdata, lua_pushvalue_abs2, lua_setmetatable_m2_userdata,
    Bool.not_false, bind_assoc]
  congr 4
  funext j
  split_ifs <;> rfl

/-- The statements of `push` after its second call of `subtable`. -/
theorem push_unmanaged_tail (mt u k id : Nat)
    (hkm : (T k).metatable = some k)
    (hkn : (T k).get (Value.string "__newindex") = Value.nil) :
    (do
      let l ← lua_pushvalue
        ⟨S ++ [Value.table mt] ++ [Value.table u] ++ [Value.userdata id] ++ [Value.table k],
          up, T, nT, U, nU, C, nC, tm, del, ob, nO⟩ (-2)
      let l := lua_pushboolean l 1
      let l ← lua_settable l (-3)
      let l ← lua_pop l 1
      let l ← lua_replace l ((S ++ [Value.table mt]).length)
      let l ← lua_settop l ((S ++ [Value.table mt]).length)
      return (l, (((S ++ [Value.table mt]).length : Nat) : Int)))
    = Except.ok (⟨S ++ [Value.userdata id], up,
        fun j => if j = k then (T k).set (Value.userdata id) (Value.boolean true) else T j,
        nT, U, nU, C, nC, tm, del, ob, nO⟩, ((S.length + 1 : Nat) : Int)) := by
  simp only [lua_pushvalue_m2, ok_bind, lua_pushboolean_1, lua_settable_eq, index2adr_m3,
    luaV_settable_ok, handlerOf_eq, hkm, hkn, ne_eq, reduceCtorEq, not_false_eq_true,
    List.dropLast_concat, lua_pop_1, lua_replace_abs2, lua_settop_abs1, ok_pure]
  simp only [List.length_append, List.length_singleton]

end pushEval

/-- What `push` does for a non-null pointer in a state where the class is committed:
it succeeds, returns the index of the new top of the stack, and leaves there a new
userdata that stores the pointer and has the class metatable; the userdata is a key of
the "unmanaged" set exactly when `gc` is false; the class is still committed. -/
theorem push_spec (cls : LunaClass) (l : LuaState) (mt inst : Nat) (gc : Bool)
    (hc : Committed cls l mt) (hi : inst ≠ 0) :
    ∃ l', push cls l inst gc = Except.ok (l', ((l.stack.length + 1 : Nat) : Int)) ∧
      l'.stack = l.stack ++ [Value.userdata l.nextUserdata] ∧
      l'.userdata = (fun j => if j = l.nextUserdata
        then { pT := inst, metatable := some mt } else l.userdata j) ∧
      l'.nextUserdata = l.nextUserdata + 1 ∧
      l'.upvalues = l.upvalues ∧ l'.closures = l.closures ∧
      l'.nextClosure = l.nextClosure ∧ l'.typeMetatable = l.typeMetatable ∧
      l'.deleted = l.deleted ∧
      l.nextTable ≤ l'.nextTable ∧
      (∀ j, j ≤ GLOBALS → l'.tables j = l.tables j) ∧
      ((∃ k, (l'.tables mt).get (Value.string "unmanaged") = Value.table k ∧
          (l'.tables k).get (Value.userdata l.nextUserdata) ≠ Value.nil) ↔ gc = false) ∧
      Committed cls l' mt := by
  obtain ⟨S, up, T, nT, U, nU, C, nC, tm, del, ob, nO⟩ := l
  obtain ⟨hreg, hmg, hml, hplain, hlight, husub, hksub, hdist⟩ := hc
  simp only at hreg hmg hml hplain hlight husub hksub hdist
  have husub2 : (T mt).get (Value.string "userdata") = Value.nil ∨
      ∃ u, (T mt).get (Value.string "userdata") = Value.table u ∧ u ≠ mt ∧ GLOBALS < u ∧
        u < nT ∧ (T u).metatable = some u ∧
        (T u).get (Value.string "__newindex") = Value.nil := by
    rcases husub with h | ⟨u, h1, h2, h3, h4, h5, h6⟩
    · exact Or.inl h
    · exact Or.inr ⟨u, h1, h2, h3, h4, h5, h6⟩
  have hksub2 : (T mt).get (Value.string "unmanaged") = Value.nil ∨
      ∃ k, (T mt).get (Value.string "unmanaged") = Value.table k ∧ k ≠ mt ∧ (GLOBALS < k ∧
        k < nT ∧ (T k).metatable = some k ∧
        (T k).get (Value.string "__newindex") = Value.nil) ∧
        ∀ id, nU ≤ id → (T k).get (Value.userdata id) = Value.nil := by
    rcases hksub with h | ⟨k, h1, h2, ⟨h3, h4, h5, h6⟩, h7⟩
    · exact Or.inl h
    · exact Or.inr ⟨k, h1, h2, ⟨h3, h4, h5, h6⟩, h7⟩
  clear hksub husub
  obtain ⟨u, T1, nT1, heq0, a1, a2, a3, a4, a5, a6, a7, a8, a9, a10, a11⟩ :=
    subtable_spec_0 S up T nT U nU C nC tm del ob nO mt "userdata" "v" hplain hmg hml husub2
  have hlight1 : (T1 mt).get (Value.lightuserdata (Ptr.obj inst)) = Value.nil := by
    rw [a3 _ (by simp)]; exact hlight _
  have hmu : mt ≠ u := fun h => a4 h.symm
  -- the "unmanaged" field of the metatable after the first part of `push`
  have hk1 : (T1 mt).get (Value.string "unmanaged") = (T mt).get (Value.string "unmanaged") :=
    a3 _ (by simp)
  -- an "unmanaged" set that exists is not the "userdata" table
  have hku : ∀ k, (T mt).get (Value.string "unmanaged") = Value.table k → k < nT → k ≠ u := by
    intro k hk hlt
    rcases a11 with h | ⟨_, h, _⟩
    · exact fun e => hdist u k h hk e.symm
    · omega
  cases gc with
  | true =>
    have hp := push_managed S up T1 nT1 U nU C nC tm del ob nO mt u inst a2 hlight1 a7 a8
    have hq := push_head S up T nT U nU C nC tm del ob nO cls mt inst true hi hreg
    rw [heq0, ok_bind] at hq
    refine ⟨_, hq.trans hp, rfl, rfl, rfl, rfl, rfl, rfl, rfl, rfl, a9, ?_, ?_, ?_⟩
    · intro j hj
      have h1 : j ≠ u := by omega
      have h2 : j ≠ mt := by omega
      show (if j = u then _ else T1 j) = T j
      rw [if_neg h1]; exact a10 j h2 (by omega)
    · constructor
      · rintro ⟨k, hk1', hk2'⟩
        exfalso
        apply hk2'
        have e1 : (T1 mt).get (Value.string "unmanaged") = Value.table k := by
          simpa only [hmu, if_false] using hk1'
        rw [hk1] at e1
        rcases hksub2 with h | ⟨k', h1, h2, ⟨h3, h4, h5, h6⟩, h7⟩
        · rw [h] at e1; cases e1
        · rw [h1] at e1
          have : k' = k := by injection e1
          subst this
          have hne := hku k' h1 h4
          show (if k' = u then _ else T1 k').get _ = _
          rw [if_neg hne, a10 k' h2 h4]
          exact h7 nU (le_refl _)
      · intro h; cases h
    · refine ⟨?_, hmg, by show mt < nT1; omega, ?_, ?_, ?_, ?_, ?_⟩
      · show (if REGISTRY = u then _ else T1 REGISTRY).get _ = _
        have h1 : REGISTRY ≠ u := by unfold REGISTRY GLOBALS at *; omega
        have h2 : REGISTRY ≠ mt := by unfold REGISTRY GLOBALS at *; omega
        rw [if_neg h1, a10 REGISTRY h2 (by unfold REGISTRY GLOBALS at *; omega)]; exact hreg
      · show (if mt = u then _ else T1 mt).metatable = none
        rw [if_neg hmu]; exact a2
      · intro p
        show (if mt = u then _ else T1 mt).get _ = _
        rw [if_neg hmu, a3 _ (by simp)]; exact hlight p
      · refine Or.inr ⟨u, ?_, a4, a5, a6, ?_, ?_⟩
        · show (if mt = u then _ else T1 mt).get _ = _
          rw [if_neg hmu]; exact a1
        · show (if u = u then _ else T1 u).metatable = _
          rw [if_pos rfl, LTable.metatable_set]; exact a7
        · show (if u = u then _ else T1 u).get _ = _
          rw [if_pos rfl, LTable.get_set, if_neg (by simp)]; exact a8
      · rcases hksub2 with h | ⟨k, h1, h2, ⟨h3, h4, h5, h6⟩, h7⟩
        · refine Or.inl ?_
          show (if mt = u then _ else T1 mt).get _ = _
          rw [if_neg hmu, hk1]; exact h
        · have hne := hku k h1 h4
          have hTk : (if k = u then
              (T1 u).set (Value.lightuserdata (Ptr.obj inst)) (Value.userdata nU)
              else T1 k) = T k := by rw [if_neg hne]; exact a10 k h2 h4
          refine Or.inr ⟨k, ?_, h2, ⟨h3, by show k < nT1; omega, ?_, ?_⟩, ?_⟩
          · show (if mt = u then _ else T1 mt).get _ = _
            rw [if_neg hmu, hk1]; exact h1
          · show (if k = u then _ else T1 k).metatable = _
            rw [hTk]; exact h5
          · show (if k = u then _ else T1 k).get _ = _
            rw [hTk]; exact h6
          · intro id hid
            show (if k = u then _ else T1 k).get _ = _
            rw [hTk]; exact h7 id (by have : nU + 1 ≤ id := hid; omega)
      · intro u' k' hu' hk'
        have e1 : (T1 mt).get (Value.string "userdata") = Value.table u' := by
          simpa only [hmu, if_false] using hu'
        have e2 : (T1 mt).get (Value.string "unmanaged") = Value.table k' := by
          simpa only [hmu, if_false] using hk'
        rw [a1] at e1
        have : u = u' := by injection e1
        subst this
        rw [hk1] at e2
        rcases hksub2 with h | ⟨k, h1, h2, ⟨h3, h4, h5, h6⟩, h7⟩
        · rw [h] at e2; cases e2
        · rw [h1] at e2
          have : k = k' := by injection e2
          subst this
          exact fun e => hku k h1 h4 e.symm
  | false =>
    have hq := push_head S up T nT U nU C nC tm del ob nO cls mt inst false hi hreg
    rw [heq0, ok_bind] at hq
    have hp1 := push_unmanaged_head S up T1 nT1 U nU C nC tm del ob nO mt u inst a2 hlight1 a7 a8
    have hT2mt : (if mt = u then
        (T1 u).set (Value.lightuserdata (Ptr.obj inst)) (Value.userdata nU) else T1 mt)
        = T1 mt := if_neg hmu
    have hT2u : (if u = u then
        (T1 u).set (Value.lightuserdata (Ptr.obj inst)) (Value.userdata nU) else T1 u)
        = (T1 u).set (Value.lightuserdata (Ptr.obj inst)) (Value.userdata nU) := if_pos rfl
    have hT2o : ∀ j, j ≠ u → (if j = u then
        (T1 u).set (Value.lightuserdata (Ptr.obj inst)) (Value.userdata nU) else T1 j)
        = T1 j := fun j hj => if_neg hj
    have hsub2 : ((if mt = u then
        (T1 u).set (Value.lightuserdata (Ptr.obj inst)) (Value.userdata nU) else T1 mt)).get
          (Value.string "unmanaged") = Value.nil ∨
        ∃ k, ((if mt = u then
        (T1 u).set (Value.lightuserdata (Ptr.obj inst)) (Value.userdata nU) else T1 mt)).get
          (Value.string "unmanaged") = Value.table k ∧ k ≠ mt ∧
          GLOBALS < k ∧ k < nT1 ∧ ((if k = u then
        (T1 u).set (Value.lightuserdata (Ptr.obj inst)) (Value.userdata nU) else T1 k)).metatable
            = some k ∧
          ((if k = u then
        (T1 u).set (Value.lightuserdata (Ptr.obj inst)) (Value.userdata nU) else T1 k)).get
            (Value.string "__newindex") = Value.nil := by
      rw [hT2mt, hk1]
      rcases hksub2 with h | ⟨k, h1, h2, ⟨h3, h4, h5, h6⟩, _⟩
      · exact Or.inl h
      · have hne := hku k h1 h4
        refine Or.inr ⟨k, h1, h2, h3, by omega, ?_, ?_⟩
        · rw [hT2o k hne, a10 k h2 h4]; exact h5
        · rw [hT2o k hne, a10 k h2 h4]; exact h6
    obtain ⟨k, T3, nT3, heq2, b1, b2, b3, b4, b5, b6, b7, b8, b9, b10, b11⟩ :=
      subtable_spec_2 S up (fun j => if j = u then
        (T1 u).set (Value.lightuserdata (Ptr.obj inst)) (Value.userdata nU) else T1 j) nT1
        (fun j => if j = nU then { pT := inst, metatable := some mt } else U j)
        (nU + 1) C nC tm del ob nO mt
        (Value.table u) (Value.userdata nU) "unmanaged" "k"
        (by beta_reduce; rw [hT2mt]; exact a2) hmg (by omega) (by beta_reduce; exact hsub2)
    rw [heq2, ok_bind] at hp1
    have hp2 := push_unmanaged_tail S up T3 nT3
      (fun j => if j = nU then { pT := inst, metatable := some mt } else U j)
      (nU + 1) C nC tm del ob nO mt u k nU b7 b8
    have hmk : mt ≠ k := fun h => b4 h.symm
    -- the set is not the "userdata" table, and when it existed it is unchanged so far
    have hold : (T mt).get (Value.string "unmanaged") = Value.table k → k < nT ∧ T3 k = T k := by
      intro hk
      rcases hksub2 with h | ⟨k', h1, h2, ⟨h3, h4, h5, h6⟩, _⟩
      · rw [h] at hk; cases hk
      · rw [h1] at hk
        have : k' = k := by injection hk
        subst this
        refine ⟨h4, ?_⟩
        rw [b10 k' h2 (by omega), hT2o k' (hku k' h1 h4), a10 k' h2 h4]
    have hku2 : u ≠ k := by
      rcases b11 with h | ⟨_, h, _⟩
      · rw [hT2mt, hk1] at h
        exact fun e => hku k h (hold h).1 e.symm
      · omega
    have hT3u : T3 u = (T1 u).set (Value.lightuserdata (Ptr.obj inst)) (Value.userdata nU) := by
      rw [b10 u a4 a6, hT2u]
    refine ⟨_, hq.trans (hp1.trans hp2), rfl, rfl, rfl, rfl, rfl, rfl, rfl, rfl,
      by show nT ≤ nT3; omega, ?_, ?_, ?_⟩
    · intro j hj
      have h1 : j ≠ u := by omega
      have h2 : j ≠ mt := by omega
      have h3 : j ≠ k := by omega
      show (if j = k then _ else T3 j) = T j
      rw [if_neg h3, b10 j h2 (by omega), hT2o j h1]; exact a10 j h2 (by omega)
    · refine ⟨fun _ => rfl, fun _ => ⟨k, ?_, ?_⟩⟩
      · show (if mt = k then _ else T3 mt).get _ = _
        rw [if_neg hmk]; exact b1
      · show (if k = k then _ else T3 k).get _ ≠ _
        rw [if_pos rfl, LTable.get_set, if_pos rfl]; simp
    · refine ⟨?_, hmg, by show mt < nT3; omega, ?_, ?_, ?_, ?_, ?_⟩
      · show (if REGISTRY = k then _ else T3 REGISTRY).get _ = _
        have h0 : REGISTRY ≠ k := by unfold REGISTRY GLOBALS at *; omega
        have h1 : REGISTRY ≠ u := by unfold REGISTRY GLOBALS at *; omega
        have h2 : REGISTRY ≠ mt := by unfold REGISTRY GLOBALS at *; omega
        have h3 : REGISTRY < nT := by unfold REGISTRY GLOBALS at *; omega
        rw [if_neg h0, b10 REGISTRY h2 (by omega), hT2o REGISTRY h1, a10 REGISTRY h2 h3]
        exact hreg
      · show (if mt = k then _ else T3 mt).metatable = none
        rw [if_neg hmk]; exact b2
      · intro p
        show (if mt = k then _ else T3 mt).get _ = _
        rw [if_neg hmk, b3 _ (by simp), hT2mt, a3 _ (by simp)]; exact hlight p
      · refine Or.inr ⟨u, ?_, a4, a5, by show u < nT3; omega, ?_, ?_⟩
        · show (if mt = k then _ else T3 mt).get _ = _
          rw [if_neg hmk, b3 _ (by simp), hT2mt]; exact a1
        · show (if u = k then _ else T3 u).metatable = _
          rw [if_neg hku2, hT3u, LTable.metatable_set]; exact a7
        · show (if u = k then _ else T3 u).get _ = _
          rw [if_neg hku2, hT3u, LTable.get_set, if_neg (by simp)]; exact a8
      · refine Or.inr ⟨k, ?_, b4, ⟨b5, b6, ?_, ?_⟩, ?_⟩
        · show (if mt = k then _ else T3 mt).get _ = _
          rw [if_neg hmk]; exact b1
        · show (if k = k then _ else T3 k).metatable = _
          rw [if_pos rfl, LTable.metatable_set]; exact b7
        · show (if k = k then _ else T3 k).get _ = _
          rw [if_pos rfl, LTable.get_set, if_neg (by simp)]; exact b8
        · intro id hid
          have hid2 : nU + 1 ≤ id := hid
          have hne : Value.userdata id ≠ Value.userdata nU := by
            intro e; injection e with e; omega
          show (if k = k then _ else T3 k).get _ = _
          rw [if_pos rfl, LTable.get_set, if_neg hne]
          rcases b11 with h | ⟨_, _, h⟩
          · rw [hT2mt, hk1] at h
            rw [(hold h).2]
            rcases hksub2 with h' | ⟨k', h1, _, _, h7⟩
            · rw [h'] at h; cases h
            · rw [h1] at h
              have : k' = k := by injection h
              subst this
              exact h7 id (by omega)
          · exact h id
      · intro u' k' hu' hk'
        have e1 : (T3 mt).get (Value.string "userdata") = Value.table u' := by
          simpa only [hmk, if_false] using hu'
        have e2 : (T3 mt).get (Value.string "unmanaged") = Value.table k' := by
          simpa only [hmk, if_false] using hk'
        rw [b3 _ (by simp), hT2mt, a1] at e1
        rw [b1] at e2
        have h1 : u = u' := by injection e1
        have h2 : k = k' := by injection e2
        rw [← h1, ← h2]; exact hku2

/-! ## `thunk`, `newT`, `check` and the committed states -/

/-- Entry `k` of the method array lies before the sentinel and has name `s` when `s` is
the `k`-th bound name. -/
theorem boundNames_getElem (ms : List MethodMap) :
    ∀ (k : Nat) (s : String), (boundNames ms)[k]? = some s →
      ∃ e, ms[k]? = some e ∧ e.name = some s := by
  induction ms with
  | nil => intro k s h; simp [boundNames] at h
  | cons m rest ih =>
    intro k s h
    cases hname : m.name with
    | none => simp [boundNames, hname] at h
    | some name =>
      have hb : boundNames (m :: rest) = name :: boundNames rest := by
        simp [boundNames, hname]
      rw [hb] at h
      cases k with
      | zero =>
        simp only [List.getElem?_cons_zero, Option.some.injEq] at h
        exact ⟨m, by simp, by rw [hname, h]⟩
      | succ k =>
        simp only [List.getElem?_cons_succ] at h
        obtain ⟨e, h1, h2⟩ := ih k s h
        exact ⟨e, by simpa using h1, h2⟩

/-- The dispatch done by `thunk` for a receiver of the class. -/
theorem thunk_eq (cls : LunaClass) (l : LuaState) (u mt i : Nat) (args : List Value)
    (m : MethodMap) (method : Method)
    (hstack : l.stack = Value.userdata u :: args)
    (hmeta : (l.userdata u).metatable = some mt)
    (hreg : (l.tables REGISTRY).get (Value.string cls.s_lunaClassName) = Value.table mt)
    (hup : l.upvalues = [Value.lightuserdata (Ptr.methodMap cls.typeidName i)])
    (hentry : cls.s_lunaMethods[i]? = some m) (hmethod : m.method = some method) :
    thunk cls l = method (l.userdata u).pT { l with stack := args } := by
  obtain ⟨stack, upvalues, tables, nextTable, userdata, nextUserdata, closures, nextClosure,
    tm, deleted, objects, nextObject⟩ := l
  simp only at hstack hmeta hreg hup
  subst hstack hup
  have m1 : ∀ l : LuaState, index2adr l (-1) = l.stack.reverse[0]? :=
    fun l => index2adr_neg l 1 (by decide) (by decide)
  have m2 : ∀ l : LuaState, index2adr l (-2) = l.stack.reverse[1]? :=
    fun l => index2adr_neg l 2 (by decide) (by decide)
  simp [thunk, check, luaL_checkudata, lua_touserdata, index2adr_pos, m1, m2,
    index2adr_registry, index2adr_upvalue1, NULL, lua_getmetatable, metatableOf, hmeta,
    lua_getfield, luaV_gettable, hreg, LuaState.push, lua_rawequal, lua_pop, lua_settop, ok_bind,
    readPT, lua_remove, stackPos, derefMethodMap, hentry, hmethod]

/-- The instantiator `newT` called with the class table and the arguments on the stack:
it runs the constructor on the arguments alone and wraps the object in a new userdata. -/
theorem newT_eq (cls : LunaClass) (c c1 : LuaState) (classTable : Value) (args : List Value)
    (obj mt : Nat) (hstack : c.stack = classTable :: args)
    (hctor : cls.construct { c with stack := args } = Except.ok (c1, obj))
    (hreg : (c1.tables REGISTRY).get (Value.string cls.s_lunaClassName) = Value.table mt) :
    newT cls c = Except.ok
      ({ c1 with stack := c1.stack ++ [Value.userdata c1.nextUserdata],
                 userdata := fun j => if j = c1.nextUserdata
                   then { pT := obj, metatable := some mt } else c1.userdata j,
                 nextUserdata := c1.nextUserdata + 1 }, 1) := by
  have hrem : lua_remove c 1 = Except.ok { c with stack := args } := by
    simp [lua_remove, stackPos, hstack]
  obtain ⟨S, up, T, nT, U, nU, C, nC, tm, del, ob, nO⟩ := c1
  simp only at hreg
  have hf : (T REGISTRY).get (Value.string cls.s_lunaClassName) ≠ Value.nil := by
    rw [hreg]; simp
  simp only [newT, hrem, ok_bind, hctor, lua_newuserdata_eq, writePT, LuaState.setUserdata,
    luaL_getmetatable, lua_getfield_registry, luaV_gettable_found, hf, ne_eq, not_false_eq_true,
    reduceCtorEq,
    hreg, lua_setmetatable_m2_userdata, ok_pure, if_true]
  congr 3
  funext j
  by_cases hj : j = nU
  · subst hj; simp only [if_true]
  · simp only [hj, if_false]

/-- In a state that is ready for it, `commit` succeeds; the state it returns is the one
described by `CommitPost` without its two topmost stack values. -/
theorem commit_ok (cls : LunaClass) (l : LuaState) (h : CommitReady cls l) :
    ∃ lm mt base,
      commit cls l = Except.ok { lm with stack := lm.stack.take (lm.stack.length - 2) } ∧
      CommitPost cls l lm mt base ∧
      base.get (Value.string "__call")
        = (if (l.tables REGISTRY).get (Value.string cls.s_lunaClassName) = Value.nil
            then Value.nil else (l.tables mt).get (Value.string "__call")) := by
  have key : ∃ lm mt base, commit cls l = lua_pop lm 2 ∧ CommitPost cls l lm mt base ∧
      base.get (Value.string "__call")
        = (if (l.tables REGISTRY).get (Value.string cls.s_lunaClassName) = Value.nil
            then Value.nil else (l.tables mt).get (Value.string "__call")) := by
    rcases h.class_entry with hreg | ⟨mt, hreg, hmt, hm1, hm2, hm3⟩
    · obtain ⟨lm, h1, h2⟩ :=
        commit_spec_fresh cls l hreg h.registry_plain h.globals_plain h.allocated
      exact ⟨lm, _, _, h1, h2, by rw [if_pos hreg, LTable.get_empty]⟩
    · obtain ⟨lm, h1, h2⟩ := commit_spec_existing cls l mt hreg hmt hm1 hm2 hm3
        h.registry_plain h.globals_plain h.allocated
      refine ⟨lm, _, _, h1, h2, ?_⟩
      rw [hreg, if_neg (by simp)]
  obtain ⟨lm, mt, base, h1, h2, h3⟩ := key
  refine ⟨lm, mt, base, ?_, h2, h3⟩
  rw [h1, lua_pop_2_eq]
  have hlen : 2 ≤ lm.stack.length := by
    rcases h2.stack with ⟨hc, hs⟩ | ⟨_, _, _, hs⟩
    · have hne := h.stack hc
      rw [hs, List.length_append]
      have : 0 < l.stack.length := List.length_pos.mpr hne
      simp only [List.length_singleton]; omega
    · rw [hs, List.length_append]
      simp only [List.length_cons, List.length_nil]; omega
  rw [if_pos hlen]

/-- The first commit of a class in a state that is ready for it succeeds, with a new
class metatable. -/
theorem commit_fresh_ok (cls : LunaClass) (l : LuaState) (h : CommitReady cls l)
    (hreg : (l.tables REGISTRY).get (Value.string cls.s_lunaClassName) = Value.nil) :
    ∃ lm, commit cls l = Except.ok { lm with stack := lm.stack.take (lm.stack.length - 2) } ∧
      CommitPost cls l lm (l.nextTable + 1) LTable.empty := by
  obtain ⟨lm, h1, h2⟩ :=
    commit_spec_fresh cls l hreg h.registry_plain h.globals_plain h.allocated
  refine ⟨lm, ?_, h2⟩
  rw [h1, lua_pop_2_eq]
  have hlen : 2 ≤ lm.stack.length := by
    rcases h2.stack with ⟨hc, hs⟩ | ⟨_, _, _, hs⟩
    · have hne := h.stack hc
      rw [hs, List.length_append]
      have : 0 < l.stack.length := List.length_pos.mpr hne
      simp only [List.length_singleton]; omega
    · rw [hs, List.length_append]
      simp only [List.length_cons, List.length_nil]; omega
  rw [if_pos hlen]

/-- After its first commit the class is committed in the sense of `Committed`. -/
theorem Committed.of_commit (cls : LunaClass) (l lm : LuaState) (s : List Value)
    (h : CommitReady cls l) (hp : CommitPost cls l lm (l.nextTable + 1) LTable.empty) :
    Committed cls { lm with stack := s } (l.nextTable + 1) where
  registered := hp.registry_class
  mt_gt := by have := h.allocated; unfold GLOBALS; omega
  mt_lt := hp.mt_lt
  plain := by
    show (lm.tables (l.nextTable + 1)).metatable = none
    rw [hp.metatable_eq]
    simp only [LTable.metatable_set, LTable.metatable_empty]
  no_light := by
    intro p
    show (lm.tables (l.nextTable + 1)).get _ = _
    rw [hp.metatable_eq]
    simp only [LTable.get_set, LTable.get_empty, reduceCtorEq, if_false]
  userdata_sub := by
    left
    show (lm.tables (l.nextTable + 1)).get _ = _
    rw [hp.metatable_eq]
    simp only [LTable.get_set, LTable.get_empty, Value.string.injEq, String.reduceEq, if_false]
  unmanaged_sub := by
    left
    show (lm.tables (l.nextTable + 1)).get _ = _
    rw [hp.metatable_eq]
    simp only [LTable.get_set, LTable.get_empty, Value.string.injEq, String.reduceEq, if_false]
  distinct := by
    intro u k hu
    have hu2 : (lm.tables (l.nextTable + 1)).get (Value.string "userdata") = Value.table u := hu
    rw [hp.metatable_eq] at hu2
    simp only [LTable.get_set, LTable.get_empty, Value.string.injEq, String.reduceEq, if_false,
      reduceCtorEq] at hu2

/-- A handle whose metatable is not the table registered under the class name is
rejected by `check` with the type error. -/
theorem check_foreign (B : LunaClass) (l : LuaState) (narg : Int) (u mtA mtB : Nat)
    (hidx : index2adr l narg = some (Value.userdata u))
    (hmeta : (l.userdata u).metatable = some mtA)
    (hreg : (l.tables REGISTRY).get (Value.string B.s_lunaClassName) = Value.table mtB)
    (hne : mtA ≠ mtB) :
    check B l narg = Except.error (luaL_typerror narg B.s_lunaClassName) := by
  obtain ⟨S, up, T, nT, U, nU, C, nC, tm, del, ob, nO⟩ := l
  simp only at hidx hmeta hreg
  have hf : (T REGISTRY).get (Value.string B.s_lunaClassName) ≠ Value.nil := by
    rw [hreg]; simp
  have m1 : ∀ l : LuaState, index2adr l (-1) = l.stack.reverse[0]? :=
    fun l => index2adr_neg l 1 (by decide) (by decide)
  have m2 : ∀ l : LuaState, index2adr l (-2) = l.stack.reverse[1]? :=
    fun l => index2adr_neg l 2 (by decide) (by decide)
  have hne2 : ¬ mtB = mtA := fun e => hne e.symm
  simp [check, luaL_checkudata, lua_touserdata, hidx, NULL, lua_getmetatable, metatableOf,
    hmeta, LuaState.push, lua_getfield_registry, luaV_gettable_found, hf, hreg, ok_bind,
    lua_rawequal, m1, m2, hne2]
  rfl

/-- The final `lua_pop` of `commit` succeeds in a state that is ready for the commit. -/
theorem commit_pop_ok (cls : LunaClass) (l lm : LuaState) (mt : Nat) (base : LTable)
    (h : CommitReady cls l) (h1 : commit cls l = lua_pop lm 2)
    (h2 : CommitPost cls l lm mt base) :
    commit cls l = Except.ok { lm with stack := lm.stack.take (lm.stack.length - 2) } := by
  rw [h1, lua_pop_2_eq]
  have hlen : 2 ≤ lm.stack.length := by
    rcases h2.stack with ⟨hc, hs⟩ | ⟨_, _, _, hs⟩
    · have hne := h.stack hc
      rw [hs, List.length_append]
      have : 0 < l.stack.length := List.length_pos.mpr hne
      simp only [List.length_singleton]; omega
    · rw [hs, List.length_append]
      simp only [List.length_cons, List.length_nil]; omega
  rw [if_pos hlen]

/-- A commit of a class that is registered already succeeds and keeps the class
metatable. -/
theorem commit_again_ok (cls : LunaClass) (l : LuaState) (mt : Nat) (h : CommitReady cls l)
    (hreg : (l.tables REGISTRY).get (Value.string cls.s_lunaClassName) = Value.table mt) :
    (l.tables mt).metatable = none ∧ mt < l.nextTable ∧
    ∃ lm, commit cls l = Except.ok { lm with stack := lm.stack.take (lm.stack.length - 2) } ∧
      CommitPost cls l lm mt (l.tables mt) := by
  rcases h.class_entry with hnil | ⟨mt2, hreg2, hmt, hm1, hm2, hm3⟩
  · rw [hnil] at hreg; cases hreg
  · rw [hreg2] at hreg
    have e : mt2 = mt := by injection hreg
    subst e
    obtain ⟨lm, h1, h2⟩ := commit_spec_existing cls l mt2 hreg2 hmt hm1 hm2 hm3
      h.registry_plain h.globals_plain h.allocated
    exact ⟨hmt, hm3, lm, commit_pop_ok cls l lm mt2 _ h h1 h2, h2⟩

/-- A new state has a sound registry: it binds nothing. -/
theorem registrySound_fresh : RegistrySound LuaState.fresh where
  allocated := by
    intro s t h
    have e : (LuaState.fresh.tables REGISTRY).get (Value.string s) = Value.nil := rfl
    rw [e] at h; cases h
  distinct := by
    intro s1 s2 t1 t2 h
    have e : (LuaState.fresh.tables REGISTRY).get (Value.string s1) = Value.nil := rfl
    rw [e] at h; cases h

/-- The registry stays sound in the state in which `commit` runs its final `lua_pop`:
the class metatable is the table registered before, or a new one. -/
theorem RegistrySound.of_commitPost (cls : LunaClass) (l lm : LuaState) (s : List Value)
    (mt : Nat) (base : LTable) (hs : RegistrySound l) (hp : CommitPost cls l lm mt base)
    (hmt : (l.tables REGISTRY).get (Value.string cls.s_lunaClassName) = Value.table mt ∨
      l.nextTable ≤ mt) :
    RegistrySound { lm with stack := s } := by
  have hnT := hp.nextTable
  have hlt := hp.mt_lt
  have key : ∀ n t, (lm.tables REGISTRY).get (Value.string n) = Value.table t →
      (n = cls.s_lunaClassName ∧ t = mt) ∨
      (n ≠ cls.s_lunaClassName ∧ (l.tables REGISTRY).get (Value.string n) = Value.table t) := by
    intro n t h
    by_cases hn : n = cls.s_lunaClassName
    · subst hn
      rw [hp.registry_class] at h
      exact Or.inl ⟨rfl, by injection h with h; exact h.symm⟩
    · rw [hp.registry_other _ (by intro e; injection e with e; exact hn e)] at h
      exact Or.inr ⟨hn, h⟩
  have sep : ∀ n t, n ≠ cls.s_lunaClassName →
      (l.tables REGISTRY).get (Value.string n) = Value.table t → t ≠ mt := by
    intro n t hn h
    rcases hmt with hmt | hmt
    · exact hs.distinct n _ t mt h hmt hn
    · have := hs.allocated n t h
      omega
  constructor
  · intro n t h
    have h2 : (lm.tables REGISTRY).get (Value.string n) = Value.table t := h
    show t < lm.nextTable
    rcases key n t h2 with ⟨_, e⟩ | ⟨_, e⟩
    · omega
    · have := hs.allocated n t e
      omega
  · intro s1 s2 t1 t2 h1 h2 hne
    have h1b : (lm.tables REGISTRY).get (Value.string s1) = Value.table t1 := h1
    have h2b : (lm.tables REGISTRY).get (Value.string s2) = Value.table t2 := h2
    rcases key s1 t1 h1b with ⟨e1, f1⟩ | ⟨e1, f1⟩ <;>
      rcases key s2 t2 h2b with ⟨e2, f2⟩ | ⟨e2, f2⟩
    · exact absurd (e1.trans e2.symm) hne
    · rw [f1]; exact fun e => sep s2 t2 e2 f2 e.symm
    · rw [f2]; exact sep s1 t1 e1 f1
    · exact hs.distinct s1 s2 t1 t2 f1 f2 hne

/-- The commit of a class keeps the registry sound, whether the class is new or
registered already. -/
theorem RegistrySound.commit (cls : LunaClass) (l l' : LuaState) (h : CommitReady cls l)
    (hs : RegistrySound l) (hc : commit cls l = Except.ok l') : RegistrySound l' := by
  cases hreg : (l.tables REGISTRY).get (Value.string cls.s_lunaClassName) with
  | nil =>
    obtain ⟨lm, h1, h2⟩ := commit_fresh_ok cls l h hreg
    rw [h1] at hc
    injection hc with hc
    rw [← hc]
    exact RegistrySound.of_commitPost cls l lm _ _ _ hs h2 (Or.inr (by omega))
  | table mt =>
    obtain ⟨_, _, lm, h1, h2⟩ := commit_again_ok cls l mt h hreg
    rw [h1] at hc
    injection hc with hc
    rw [← hc]
    exact RegistrySound.of_commitPost cls l lm _ _ _ hs h2 (Or.inl hreg)
  | _ =>
    rcases h.class_entry with e | ⟨mt, e, _⟩ <;> rw [hreg] at e <;> cases e

/-- A `push` keeps the registry sound: it does not write to the registry. -/
theorem RegistrySound.push (cls : LunaClass) (l l' : LuaState) (mt inst : Nat) (gc : Bool)
    (idx : Int) (hc : Committed cls l mt) (hi : inst ≠ 0) (hs : RegistrySound l)
    (hp : push cls l inst gc = Except.ok (l', idx)) : RegistrySound l' := by
  obtain ⟨l2, h1, _, _, _, _, _, _, _, _, h10, h11, _, _⟩ := push_spec cls l mt inst gc hc hi
  rw [h1] at hp
  injection hp with hp
  injection hp with hp _
  subst hp
  have hr : l2.tables REGISTRY = l.tables REGISTRY := h11 REGISTRY (by decide)
  constructor
  · intro s t h
    rw [hr] at h
    have := hs.allocated s t h
    omega
  · intro s1 s2 t1 t2 h1 h2 hne
    rw [hr] at h1 h2
    exact hs.distinct s1 s2 t1 t2 h1 h2 hne

/-- In the state in which a commit of another class runs its final `lua_pop`, a
committed class is still committed: the commit writes to the registry, the globals, its
own class metatable and new tables only. -/
theorem Committed.of_commitPost_other (A B : LunaClass) (l lm : LuaState) (s : List Value)
    (mtA mtB : Nat) (base : LTable) (hA : Committed A l mtA)
    (hp : CommitPost B l lm mtB base)
    (hname : A.s_lunaClassName ≠ B.s_lunaClassName) (hne : mtA ≠ mtB)
    (hmt : (l.tables mtB).metatable = none ∨ l.nextTable ≤ mtB) :
    Committed A { lm with stack := s } mtA := by
  have hgt := hA.mt_gt
  have hlt := hA.mt_lt
  have hnT := hp.nextTable
  have hun : ∀ j, GLOBALS < j → j < l.nextTable → j ≠ mtB → lm.tables j = l.tables j := by
    intro j h1 h2 h3
    exact hp.untouched j h2 (by unfold REGISTRY; unfold GLOBALS at h1; omega) (by omega) h3
  have hweak : ∀ w, IsWeakTable l w → w ≠ mtB := by
    intro w hw e
    obtain ⟨_, h2, h3, _⟩ := hw
    subst e
    rcases hmt with h | h
    · rw [h] at h3; cases h3
    · omega
  have hmt2 : lm.tables mtA = l.tables mtA := hun mtA hgt hlt hne
  refine ⟨?_, hgt, by show mtA < lm.nextTable; omega, ?_, ?_, ?_, ?_, ?_⟩
  · show (lm.tables REGISTRY).get _ = _
    rw [hp.registry_other _ (by intro e; injection e with e; exact hname e)]
    exact hA.registered
  · show (lm.tables mtA).metatable = none
    rw [hmt2]; exact hA.plain
  · intro p
    show (lm.tables mtA).get _ = _
    rw [hmt2]; exact hA.no_light p
  · show (lm.tables mtA).get _ = _ ∨ ∃ u, (lm.tables mtA).get _ = _ ∧ _
    rw [hmt2]
    rcases hA.userdata_sub with h | ⟨u, h1, h2, hw⟩
    · exact Or.inl h
    · have hu := hweak u hw
      obtain ⟨h3, h4, h5, h6⟩ := hw
      have h4b : u < l.nextTable := h4
      exact Or.inr ⟨u, h1, h2, h3, by show u < lm.nextTable; omega,
        by show (lm.tables u).metatable = _; rw [hun u h3 h4b hu]; exact h5,
        by show (lm.tables u).get _ = _; rw [hun u h3 h4b hu]; exact h6⟩
  · show (lm.tables mtA).get _ = _ ∨ ∃ k, (lm.tables mtA).get _ = _ ∧ _
    rw [hmt2]
    rcases hA.unmanaged_sub with h | ⟨k, h1, h2, hw, h7⟩
    · exact Or.inl h
    · have hk := hweak k hw
      obtain ⟨h3, h4, h5, h6⟩ := hw
      have h4b : k < l.nextTable := h4
      refine Or.inr ⟨k, h1, h2, ⟨h3, by show k < lm.nextTable; omega,
        by show (lm.tables k).metatable = _; rw [hun k h3 h4b hk]; exact h5,
        by show (lm.tables k).get _ = _; rw [hun k h3 h4b hk]; exact h6⟩, ?_⟩
      intro id hid
      show (lm.tables k).get _ = _
      rw [hun k h3 h4b hk]
      exact h7 id (by have := hp.nextUserdata; have hid2 : lm.nextUserdata ≤ id := hid; omega)
  · intro u k hu hk
    have hu2 : (lm.tables mtA).get (Value.string "userdata") = Value.table u := hu
    have hk2 : (lm.tables mtA).get (Value.string "unmanaged") = Value.table k := hk
    rw [hmt2] at hu2 hk2
    exact hA.distinct u k hu2 hk2

/-- In the state in which a second commit of a committed class runs its final `lua_pop`,
the class is still committed, with the same class metatable: the commit sets the four
fields `__metatable`, `__index`, `__tostring` and `__gc` of it again. -/
theorem Committed.of_commitPost_same (cls : LunaClass) (l lm : LuaState) (s : List Value)
    (mt : Nat) (hA : Committed cls l mt) (hp : CommitPost cls l lm mt (l.tables mt)) :
    Committed cls { lm with stack := s } mt := by
  have hgt := hA.mt_gt
  have hlt := hA.mt_lt
  have hnT := hp.nextTable
  have hun : ∀ j, GLOBALS < j → j < l.nextTable → j ≠ mt → lm.tables j = l.tables j := by
    intro j h1 h2 h3
    exact hp.untouched j h2 (by unfold REGISTRY; unfold GLOBALS at h1; omega) (by omega) h3
  have hget : ∀ key, key ≠ Value.string "__metatable" → key ≠ Value.string "__index" →
      key ≠ Value.string "__tostring" → key ≠ Value.string "__gc" →
      (lm.tables mt).get key = (l.tables mt).get key := by
    intro key k1 k2 k3 k4
    rw [hp.metatable_eq]
    simp only [LTable.get_set, k1, k2, k3, k4, if_false]
  have hud : (lm.tables mt).get (Value.string "userdata")
      = (l.tables mt).get (Value.string "userdata") :=
    hget _ (by simp) (by simp) (by simp) (by simp)
  have hum : (lm.tables mt).get (Value.string "unmanaged")
      = (l.tables mt).get (Value.string "unmanaged") :=
    hget _ (by simp) (by simp) (by simp) (by simp)
  refine ⟨hp.registry_class, hgt, hp.mt_lt, ?_, ?_, ?_, ?_, ?_⟩
  · show (lm.tables mt).metatable = none
    rw [hp.metatable_eq]
    simp only [LTable.metatable_set]
    exact hA.plain
  · intro p
    show (lm.tables mt).get _ = _
    rw [hget _ (by simp) (by simp) (by simp) (by simp)]
    exact hA.no_light p
  · show (lm.tables mt).get _ = _ ∨ ∃ u, (lm.tables mt).get _ = _ ∧ _
    rw [hud]
    rcases hA.userdata_sub with h | ⟨u, h1, h2, h3, h4, h5, h6⟩
    · exact Or.inl h
    · have h4b : u < l.nextTable := h4
      exact Or.inr ⟨u, h1, h2, h3, by show u < lm.nextTable; omega,
        by show (lm.tables u).metatable = _; rw [hun u h3 h4b h2]; exact h5,
        by show (lm.tables u).get _ = _; rw [hun u h3 h4b h2]; exact h6⟩
  · show (lm.tables mt).get _ = _ ∨ ∃ k, (lm.tables mt).get _ = _ ∧ _
    rw [hum]
    rcases hA.unmanaged_sub with h | ⟨k, h1, h2, ⟨h3, h4, h5, h6⟩, h7⟩
    · exact Or.inl h
    · have h4b : k < l.nextTable := h4
      refine Or.inr ⟨k, h1, h2, ⟨h3, by show k < lm.nextTable; omega,
        by show (lm.tables k).metatable = _; rw [hun k h3 h4b h2]; exact h5,
        by show (lm.tables k).get _ = _; rw [hun k h3 h4b h2]; exact h6⟩, ?_⟩
      intro id hid
      show (lm.tables k).get _ = _
      rw [hun k h3 h4b h2]
      exact h7 id (by have := hp.nextUserdata; have hid2 : lm.nextUserdata ≤ id := hid; omega)
  · intro u k hu hk
    have hu2 : (lm.tables mt).get (Value.string "userdata") = Value.table u := hu
    have hk2 : (lm.tables mt).get (Value.string "unmanaged") = Value.table k := hk
    rw [hud] at hu2
    rw [hum] at hk2
    exact hA.distinct u k hu2 hk2

/-- A commit makes the class committed: with a new class metatable when the class name
was not registered, with the class metatable it had when it was committed already. -/
theorem Committed.commit_self (cls : LunaClass) (l l' : LuaState) (h : CommitReady cls l)
    (hold : ∀ mt, (l.tables REGISTRY).get (Value.string cls.s_lunaClassName) = Value.table mt →
      Committed cls l mt)
    (hc : commit cls l = Except.ok l') :
    ∃ mt, Committed cls l' mt ∧
      ((l.tables REGISTRY).get (Value.string cls.s_lunaClassName) = Value.table mt ∨
        (l.tables REGISTRY).get (Value.string cls.s_lunaClassName) = Value.nil) := by
  cases hreg : (l.tables REGISTRY).get (Value.string cls.s_lunaClassName) with
  | nil =>
    obtain ⟨lm, h1, h2⟩ := commit_fresh_ok cls l h hreg
    rw [h1] at hc
    injection hc with hc
    rw [← hc]
    exact ⟨_, Committed.of_commit cls l lm _ h h2, Or.inr rfl⟩
  | table mt =>
    obtain ⟨_, _, lm, h1, h2⟩ := commit_again_ok cls l mt h hreg
    rw [h1] at hc
    injection hc with hc
    rw [← hc]
    exact ⟨mt, Committed.of_commitPost_same cls l lm _ mt (hold mt hreg) h2, Or.inl rfl⟩
  | _ =>
    rcases h.class_entry with e | ⟨mt, e, _⟩ <;> rw [hreg] at e <;> cases e

/-- A commit of a class with another name, new or registered already, keeps a committed
class committed, with the same class metatable. -/
theorem Committed.commit_other (A B : LunaClass) (l l' : LuaState) (mtA : Nat)
    (hA : Committed A l mtA) (hB : CommitReady B l) (hs : RegistrySound l)
    (hname : A.s_lunaClassName ≠ B.s_lunaClassName)
    (hc : commit B l = Except.ok l') : Committed A l' mtA := by
  cases hreg : (l.tables REGISTRY).get (Value.string B.s_lunaClassName) with
  | nil =>
    obtain ⟨lm, h1, h2⟩ := commit_fresh_ok B l hB hreg
    rw [h1] at hc
    injection hc with hc
    rw [← hc]
    have hlt := hA.mt_lt
    exact Committed.of_commitPost_other A B l lm _ mtA _ _ hA h2 hname (by omega)
      (Or.inr (by omega))
  | table mtB =>
    obtain ⟨hpl, _, lm, h1, h2⟩ := commit_again_ok B l mtB hB hreg
    rw [h1] at hc
    injection hc with hc
    rw [← hc]
    exact Committed.of_commitPost_other A B l lm _ mtA mtB _ hA h2 hname
      (hs.distinct _ _ _ _ hA.registered hreg hname) (Or.inl hpl)
  | _ =>
    rcases hB.class_entry with e | ⟨mt, e, _⟩ <;> rw [hreg] at e <;> cases e

/-- A commit leaves the userdata as they are: the handles made before it keep their
pointers and metatables. -/
theorem commit_userdata (cls : LunaClass) (l l' : LuaState) (h : CommitReady cls l)
    (hc : commit cls l = Except.ok l') :
    l'.userdata = l.userdata ∧ l'.nextUserdata = l.nextUserdata := by
  obtain ⟨lm, mt, base, h1, h2, _⟩ := commit_ok cls l h
  rw [h1] at hc
  injection hc with hc
  rw [← hc]
  exact ⟨h2.userdata, h2.nextUserdata⟩

/-- The registry stays sound when the tables stay as they are: in another call frame,
and after `newT` once the constructor has returned. -/
theorem RegistrySound.frame (l l' : LuaState) (hs : RegistrySound l)
    (ht : l'.tables REGISTRY = l.tables REGISTRY) (hn : l.nextTable ≤ l'.nextTable) :
    RegistrySound l' := by
  constructor
  · intro s t h
    rw [ht] at h
    have := hs.allocated s t h
    omega
  · intro s1 s2 t1 t2 h1 h2 hne
    rw [ht] at h1 h2
    exact hs.distinct s1 s2 t1 t2 h1 h2 hne

/-! ## The claims -/

/-- A new state is ready for the commit of `LuaTest`. -/
theorem commitReady_fresh_LuaTest : CommitReady LuaTest LuaState.fresh where
  allocated := le_refl _
  registry_plain := rfl
  globals_plain := rfl
  class_entry := Or.inl rfl
  stack := by
    intro h
    rcases h with h | ⟨gt, h⟩
    · exact absurd h (by decide)
    · exact absurd h (by intro h2; cases h2)

/-- The class `LuaTest` is committed in the state in which the script of `test.cc`
starts; its class metatable is table 3. -/
theorem committed_LuaTest : Committed LuaTest committed 3 where
  registered := rfl
  mt_gt := by decide
  mt_lt := by decide
  plain := rfl
  no_light := by
    intro p
    have h : committed.tables 3 =
        { entries := [(Value.string "__gc", Value.function 1),
                      (Value.string "__tostring", Value.function 0),
                      (Value.string "__index", Value.table 2),
                      (Value.string "__metatable", Value.table 2)],
          metatable := none } := rfl
    rw [h]
    simp [LTable.get, rawgetEntries]
  userdata_sub := Or.inl rfl
  unmanaged_sub := Or.inl rfl
  distinct := by
    intro u k hu
    have h : (committed.tables 3).get (Value.string "userdata") = Value.nil := rfl
    rw [h] at hu
    cases hu

/-- The state of `test.cc` is ready for the commit of a class named `Test2`. -/
theorem commitReady_committed_LuaTest2 : CommitReady LuaTest2 committed where
  allocated := by decide
  registry_plain := rfl
  globals_plain := rfl
  class_entry := Or.inl rfl
  stack := fun _ => by decide

/-- The registry is sound in the state in which the script of `test.cc` starts. -/
theorem registrySound_committed : RegistrySound committed :=
  RegistrySound.commit LuaTest LuaState.fresh committed commitReady_fresh_LuaTest
    registrySound_fresh rfl

/-- The registry is sound after the commit of `LuaTest2` in the state of `test.cc`. -/
theorem registrySound_paired : RegistrySound paired :=
  RegistrySound.commit LuaTest2 committed paired commitReady_committed_LuaTest2
    registrySound_committed rfl

/-- The class `LuaTest` is committed after the commit of `LuaTest2`. -/
theorem committed_paired : Committed LuaTest paired 3 :=
  Committed.commit_other LuaTest LuaTest2 committed paired 3 committed_LuaTest
    commitReady_committed_LuaTest2 registrySound_committed (by decide) rfl

/-- The state `handled` is ready for the commit of a class named `Test2`. -/
theorem commitReady_handled_LuaTest2 : CommitReady LuaTest2 handled where
  allocated := by decide
  registry_plain := rfl
  globals_plain := rfl
  class_entry := Or.inl rfl
  stack := fun _ => by decide

/-- The registry is sound in the state `handledPaired`. -/
theorem registrySound_handledPaired : RegistrySound handledPaired :=
  RegistrySound.commit LuaTest2 handled handledPaired commitReady_handled_LuaTest2
    (RegistrySound.push LuaTest committed handled 3 5 true 3 committed_LuaTest (by decide)
      registrySound_committed rfl) rfl

/-- C1, the code on a failing input.  In the state in which the script of `test.cc`
starts, `push` is called twice with the pointer 5 and the same `gc`.  The first handle
stays on the stack at index 3.  The second call allocates a second userdata: the handles
at the indices 3 and 4 are the userdata 0 and 1, both store the pointer 5, and
`lua_rawequal` on them is false. -/
theorem push_twice_allocates_twice (gc : Bool) :
    ∃ l1 l2, push LuaTest committed 5 gc = Except.ok (l1, 3) ∧
      push LuaTest l1 5 gc = Except.ok (l2, 4) ∧
      index2adr l2 3 = some (Value.userdata 0) ∧
      index2adr l2 4 = some (Value.userdata 1) ∧
      (l2.userdata 0).pT = 5 ∧ (l2.userdata 1).pT = 5 ∧
      l1.nextUserdata = committed.nextUserdata + 1 ∧
      l2.nextUserdata = l1.nextUserdata + 1 ∧
      lua_rawequal l2 3 4 = false := by
  cases gc
  · exact ⟨_, _, rfl, rfl, rfl, rfl, rfl, rfl, rfl, rfl, rfl⟩
  · exact ⟨_, _, rfl, rfl, rfl, rfl, rfl, rfl, rfl, rfl, rfl⟩

/-- C2, the code on a failing input.  In the state in which the script of `test.cc`
starts, `push` with `gc = false` wraps the pointer 5 in the userdata 0, which it records
as a key of the "unmanaged" set of the class.  The finalizer `gcT`, called with that
handle as its argument, deletes the object 5 all the same. -/
theorem gcT_deletes_unmanaged :
    ∃ l1 k l2, push LuaTest committed 5 false = Except.ok (l1, 3) ∧
      index2adr l1 3 = some (Value.userdata 0) ∧
      (l1.tables 3).get (Value.string "unmanaged") = Value.table k ∧
      (l1.tables k).get (Value.userdata 0) = Value.boolean true ∧
      l1.deleted = [] ∧
      gcT LuaTest { l1 with stack := [Value.userdata 0] } = Except.ok (l2, 0) ∧
      l2.deleted = [5] :=
  ⟨_, _, _, rfl, rfl, rfl, rfl, rfl, rfl, rfl⟩

/-- C3. Dispatch correctness: on a call stack `[h, a1, ..., an]` whose first value `h` is
a handle of the class storing the pointer `p`, and with the address of entry `m` of the
method array as its upvalue, `thunk` calls `m.method` on `p` in the state whose stack is
exactly `[a1, ..., an]`, and returns what that call returns (state, result count, or
error). -/
theorem thunk_dispatch (cls : LunaClass) (l : LuaState) (u mt i : Nat) (args : List Value)
    (m : MethodMap) (method : Method)
    (hstack : l.stack = Value.userdata u :: args)
    (hmeta : (l.userdata u).metatable = some mt)
    (hreg : (l.tables REGISTRY).get (Value.string cls.s_lunaClassName) = Value.table mt)
    (hup : l.upvalues = [Value.lightuserdata (Ptr.methodMap cls.typeidName i)])
    (hentry : cls.s_lunaMethods[i]? = some m) (hmethod : m.method = some method) :
    thunk cls l = method (l.userdata u).pT { l with stack := args } :=
  thunk_eq cls l u mt i args m method hstack hmeta hreg hup hentry hmethod

/-- C3, witness.  The state in which the script of `test.cc` calls a method on the
handle of an object: the handle and one argument on the stack, the address of the first
entry of the method array as upvalue. -/
theorem thunk_dispatch_witness :
    thunk LuaTest { committed with
        stack := [Value.userdata 0, Value.number 7],
        upvalues := [Value.lightuserdata (Ptr.methodMap "7LuaTest" 0)],
        userdata := fun _ => { pT := 5, metatable := some 3 } }
      = LuaTest.getValue 5 { committed with
        stack := [Value.number 7],
        upvalues := [Value.lightuserdata (Ptr.methodMap "7LuaTest" 0)],
        userdata := fun _ => { pT := 5, metatable := some 3 } } :=
  thunk_dispatch LuaTest _ 0 3 0 [Value.number 7] ⟨some "getValue", some LuaTest.getValue⟩
    LuaTest.getValue rfl rfl rfl rfl rfl rfl

/-- C4 (amended). Type safety: let `A` and `B` be two bound classes with different class
names, both committed, in any state `l`: the registry binds the class name of `A` to the
class metatable `mtA` and that of `B` to `mtB`, and it is sound (`RegistrySound`, the
property of the registry of a new state that `commit`, `push` and `newT` keep).  Then
`check` of `B` raises the type error, returning no pointer, at every argument position
of `l` that holds a handle of `A`, a userdata whose metatable is `mtA`.  The handles that
`push` of `A` makes in `l` and that the constructor `newT` of `A` makes are such handles,
and the state that `push` returns satisfies the hypotheses again, with the older handles
unchanged. -/
theorem check_rejects_other_class (A B : LunaClass) (l : LuaState) (mtA mtB : Nat)
    (hname : A.s_lunaClassName ≠ B.s_lunaClassName)
    (hs : RegistrySound l)
    (hA : (l.tables REGISTRY).get (Value.string A.s_lunaClassName) = Value.table mtA)
    (hB : (l.tables REGISTRY).get (Value.string B.s_lunaClassName) = Value.table mtB) :
    (∀ narg h, index2adr l narg = some (Value.userdata h) →
      (l.userdata h).metatable = some mtA →
      check B l narg = Except.error (luaL_typerror narg B.s_lunaClassName)) ∧
    (Committed A l mtA → ∀ inst gc, inst ≠ 0 →
      ∃ l' idx h, push A l inst gc = Except.ok (l', idx) ∧
        index2adr l' idx = some (Value.userdata h) ∧
        (l'.userdata h).metatable = some mtA ∧
        (∀ narg, index2adr l' narg = some (Value.userdata h) →
          check B l' narg = Except.error (luaL_typerror narg B.s_lunaClassName)) ∧
        RegistrySound l' ∧ Committed A l' mtA ∧
        l'.tables REGISTRY = l.tables REGISTRY ∧
        (∀ j, j < l.nextUserdata → l'.userdata j = l.userdata j)) ∧
    (∀ (c c1 : LuaState) (classTable : Value) (args : List Value) (obj : Nat),
      c.stack = classTable :: args →
      A.construct { c with stack := args } = Except.ok (c1, obj) →
      c1.tables REGISTRY = l.tables REGISTRY →
      ∃ c2 h, newT A c = Except.ok (c2, 1) ∧
        index2adr c2 (lua_gettop c2) = some (Value.userdata h) ∧
        (c2.userdata h).metatable = some mtA ∧
        (∀ narg, index2adr c2 narg = some (Value.userdata h) →
          check B c2 narg = Except.error (luaL_typerror narg B.s_lunaClassName)) ∧
        c2.tables = c1.tables ∧
        (∀ j, j < c1.nextUserdata → c2.userdata j = c1.userdata j)) := by
  have hne : mtA ≠ mtB := hs.distinct _ _ _ _ hA hB hname
  refine ⟨?_, ?_, ?_⟩
  · intro narg h hidx hmeta
    exact check_foreign B l narg h mtA mtB hidx hmeta hB hne
  · intro hc inst gc hi
    obtain ⟨l', h1, h2, h3, _, _, _, _, _, _, _, h11, _, h13⟩ :=
      push_spec A l mtA inst gc hc hi
    have hidx : index2adr l' ((l.stack.length + 1 : Nat) : Int)
        = some (Value.userdata l.nextUserdata) := by
      have := index2adr_abs l' l.stack [] (Value.userdata l.nextUserdata)
        (by rw [h2, List.append_nil])
      rwa [List.length_append, List.length_singleton] at this
    have hr : l'.tables REGISTRY = l.tables REGISTRY := h11 REGISTRY (by decide)
    have hmeta : (l'.userdata l.nextUserdata).metatable = some mtA := by
      rw [h3]; simp only [if_true]
    refine ⟨l', _, l.nextUserdata, h1, hidx, hmeta, ?_,
      RegistrySound.push A l l' mtA inst gc _ hc hi hs h1, h13, hr, ?_⟩
    · intro narg hn
      exact check_foreign B l' narg l.nextUserdata mtA mtB hn hmeta (by rw [hr]; exact hB) hne
    · intro j hj
      rw [h3]
      have : j ≠ l.nextUserdata := by omega
      simp only [this, if_false]
  · intro c c1 classTable args obj hstack hctor hR
    have hreg : (c1.tables REGISTRY).get (Value.string A.s_lunaClassName) = Value.table mtA := by
      rw [hR]; exact hA
    have hmeta : Userdata.metatable (if c1.nextUserdata = c1.nextUserdata
        then { pT := obj, metatable := some mtA } else c1.userdata c1.nextUserdata)
        = some mtA := by
      rw [if_pos rfl]
    refine ⟨_, c1.nextUserdata, newT_eq A c c1 classTable args obj mtA hstack hctor hreg,
      ?_, hmeta, ?_, rfl, ?_⟩
    · exact index2adr_abs
        ({ c1 with stack := c1.stack ++ [Value.userdata c1.nextUserdata],
                   userdata := fun j => if j = c1.nextUserdata
                     then { pT := obj, metatable := some mtA } else c1.userdata j,
                   nextUserdata := c1.nextUserdata + 1 } : LuaState)
        c1.stack [] (Value.userdata c1.nextUserdata) (by rw [List.append_nil])
    · intro narg hn
      refine check_foreign B _ narg c1.nextUserdata mtA mtB hn hmeta ?_ hne
      show (c1.tables REGISTRY).get _ = _
      rw [hR]; exact hB
    · intro j hj
      have : j ≠ c1.nextUserdata := by omega
      show (if j = c1.nextUserdata then _ else c1.userdata j) = _
      rw [if_neg this]

/-- C4, witness.  `LuaTest` and `LuaTest2`, named `Test` and `Test2`, are both committed
in the state `paired`, and the handle that `Luna<LuaTest>::push` makes there is rejected
by `Luna<LuaTest2>::check`.  In the state `handledPaired` the handle of `LuaTest` at
index 3 was made before `LuaTest2` was committed; it is rejected as well. -/
theorem check_rejects_other_class_witness :
    LuaTest.s_lunaClassName ≠ LuaTest2.s_lunaClassName ∧ RegistrySound paired ∧
    (paired.tables REGISTRY).get (Value.string "Test") = Value.table 3 ∧
    (paired.tables REGISTRY).get (Value.string "Test2") = Value.table 7 ∧
    Committed LuaTest paired 3 ∧
    (∃ l' idx h, push LuaTest paired 5 true = Except.ok (l', idx) ∧
      index2adr l' idx = some (Value.userdata h) ∧
      check LuaTest2 l' idx = Except.error (luaL_typerror idx "Test2")) ∧
    RegistrySound handledPaired ∧
    (handledPaired.tables REGISTRY).get (Value.string "Test") = Value.table 3 ∧
    (handledPaired.tables REGISTRY).get (Value.string "Test2") = Value.table 8 ∧
    index2adr handledPaired 3 = some (Value.userdata 0) ∧
    (handledPaired.userdata 0).metatable = some 3 ∧
    check LuaTest2 handledPaired 3 = Except.error (luaL_typerror 3 "Test2") := by
  refine ⟨by decide, registrySound_paired, rfl, rfl, committed_paired, ?_,
    registrySound_handledPaired, rfl, rfl, rfl, rfl,
    (check_rejects_other_class LuaTest LuaTest2 handledPaired 3 8 (by decide)
      registrySound_handledPaired rfl rfl).1 3 0 rfl rfl⟩
  obtain ⟨l', idx, h, h1, h2, _, h4, _⟩ :=
    (check_rejects_other_class LuaTest LuaTest2 paired 3 7 (by decide) registrySound_paired
      rfl rfl).2.1 committed_paired 5 true (by decide)
  exact ⟨l', idx, h, h1, h2, h4 idx h2⟩

/-- C4, counterexample.  `LuaTest` and `LuaOther` are two binding classes, for two
native types, that are both named `Test`.  With both committed, the handle that
`Luna<LuaTest>::push` makes for the object 5 passes `Luna<LuaOther>::check`, which returns
the pointer 5 and raises no error. -/
theorem check_accepts_same_name :
    LuaTest.typeidName ≠ LuaOther.typeidName ∧
    LuaTest.s_lunaTypeInfoName ≠ LuaOther.s_lunaTypeInfoName ∧
    ∃ l1 l2 l3 l4, commit LuaTest LuaState.fresh = Except.ok l1 ∧
      commit LuaOther l1 = Except.ok l2 ∧
      push LuaTest l2 5 true = Except.ok (l3, 5) ∧
      index2adr l3 5 = some (Value.userdata 0) ∧
      check LuaOther l3 5 = Except.ok (l4, 5) :=
  ⟨by decide, by decide, _, _, _, _, rfl, rfl, rfl, rfl, rfl⟩

/-- C5, the code on a failing input.  `LuaTest` and `LuaTest2` bind the native type
`Test` under the class names `Test` and `Test2`.  After the commit of the one and then
of the other in a new state, the `type` fields of the two class tables are two tables:
each has the `name` field `4Test`, and they are not the same table. -/
theorem typeInfo_not_shared :
    LuaTest.s_lunaTypeInfoName = LuaTest2.s_lunaTypeInfoName ∧
    LuaTest.s_lunaClassName ≠ LuaTest2.s_lunaClassName ∧
    ∃ l1 l2 a b ra rb, commit LuaTest LuaState.fresh = Except.ok l1 ∧
      commit LuaTest2 l1 = Except.ok l2 ∧
      (l2.tables GLOBALS).get (Value.string "Test") = Value.table a ∧
      (l2.tables GLOBALS).get (Value.string "Test2") = Value.table b ∧
      (l2.tables a).get (Value.string "type") = Value.table ra ∧
      (l2.tables b).get (Value.string "type") = Value.table rb ∧
      (l2.tables ra).get (Value.string "name") = Value.string "4Test" ∧
      (l2.tables rb).get (Value.string "name") = Value.string "4Test" ∧
      ra ≠ rb :=
  ⟨rfl, by decide, _, _, _, _, _, _, rfl, rfl, rfl, rfl, rfl, rfl, rfl, rfl, by decide⟩

/-- C6, the code on a failing input.  In a new state no global is bound under the name
of the identity token, `4Test`, nor under `typeid(LuaTest).name()`.  After the commit of
`LuaTest` the class table `m` has the Type Record `r` in its field `type`, and `r` has
the `name` field `4Test`; the global `4Test` is bound to the class table `m`, which is
not `r` and has no `name` field. -/
theorem typeInfo_global_is_class_table :
    ∃ l1 m r, commit LuaTest LuaState.fresh = Except.ok l1 ∧
      (LuaState.fresh.tables GLOBALS).get (Value.string "4Test") = Value.nil ∧
      (LuaState.fresh.tables GLOBALS).get (Value.string "7LuaTest") = Value.nil ∧
      (l1.tables GLOBALS).get (Value.string "Test") = Value.table m ∧
      (l1.tables m).get (Value.string "type") = Value.table r ∧
      (l1.tables r).get (Value.string "name") = Value.string "4Test" ∧
      (l1.tables GLOBALS).get (Value.string "4Test") = Value.table m ∧
      (l1.tables m).get (Value.string "name") = Value.nil ∧
      m ≠ r :=
  ⟨_, _, _, rfl, rfl, rfl, rfl, rfl, rfl, rfl, rfl, by decide⟩

/-- C7. Construction surface: `commit`, in a state that is ready for it (`CommitReady`:
no handler runs on the registry, the globals or the class metatable), returns, and after
it the class table bound to the global class
name has a metatable whose `__call` entry is a closure of `newT`, and `commit` leaves the
`__call` field of the class metatable as it was (absent when `commit` created the
metatable).  On a call stack `[classTable, a1, ..., an]`, `newT` runs the constructor on
the stack `[a1, ..., an]`; when the constructor fails so does `newT`, and when it returns
the object `obj`, `newT` returns the result count 1 with one value pushed, a new
userdata that stores `obj` and has the class metatable; `newT` changes no table, so the
userdata is no key of the "unmanaged" set. -/
theorem commit_installs_constructor (cls : LunaClass) (l : LuaState)
    (h : CommitReady cls l) :
    (∃ l' m t f mt, commit cls l = Except.ok l' ∧
      (l'.tables GLOBALS).get (Value.string cls.s_lunaClassName) = Value.table m ∧
      (l'.tables m).metatable = some t ∧
      (l'.tables t).get (Value.string "__call") = Value.function f ∧
      l'.closures f = { fn := CFunction.newT cls.typeidName, upvalues := [] } ∧
      (l'.tables REGISTRY).get (Value.string cls.s_lunaClassName) = Value.table mt ∧
      (l'.tables mt).get (Value.string "__call")
        = (if (l.tables REGISTRY).get (Value.string cls.s_lunaClassName) = Value.nil
            then Value.nil else (l.tables mt).get (Value.string "__call"))) ∧
    (∀ (c : LuaState) (classTable : Value) (args : List Value),
      c.stack = classTable :: args →
      (∀ e, cls.construct { c with stack := args } = Except.error e →
        newT cls c = Except.error e) ∧
      (∀ c1 obj mt, cls.construct { c with stack := args } = Except.ok (c1, obj) →
        (c1.tables REGISTRY).get (Value.string cls.s_lunaClassName) = Value.table mt →
        ∃ c2, newT cls c = Except.ok (c2, 1) ∧
          c2.stack = c1.stack ++ [Value.userdata c1.nextUserdata] ∧
          c2.userdata c1.nextUserdata = { pT := obj, metatable := some mt } ∧
          c2.nextUserdata = c1.nextUserdata + 1 ∧
          (∀ j, j ≠ c1.nextUserdata → c2.userdata j = c1.userdata j) ∧
          c2.tables = c1.tables ∧
          ((∀ k, (c1.tables mt).get (Value.string "unmanaged") = Value.table k →
              (c1.tables k).get (Value.userdata c1.nextUserdata) = Value.nil) →
            ∀ k, (c2.tables mt).get (Value.string "unmanaged") = Value.table k →
              (c2.tables k).get (Value.userdata c1.nextUserdata) = Value.nil))) := by
  constructor
  · obtain ⟨lm, mt, base, hc, hp, hb⟩ := commit_ok cls l h
    obtain ⟨t, ht1, ht2⟩ := hp.methods_meta
    refine ⟨_, l.nextTable, t, l.nextClosure + 2, mt, hc, hp.globals_class, ht1, ?_,
      hp.closure_newT, hp.registry_class, ?_⟩
    · show (lm.tables t).get _ = _
      rw [ht2, LTable.get_set]; simp only [if_true]
    · show (lm.tables mt).get _ = _
      rw [hp.metatable_eq, ← hb]
      simp only [LTable.get_set, Value.string.injEq, String.reduceEq, if_false]
  · intro c classTable args hstack
    constructor
    · intro e he
      have hrem : lua_remove c 1 = Except.ok { c with stack := args } := by
        simp [lua_remove, stackPos, hstack]
      simp only [newT, hrem, ok_bind, he, error_bind]
    · intro c1 obj mt hctor hreg
      refine ⟨_, newT_eq cls c c1 classTable args obj mt hstack hctor hreg, rfl, ?_, rfl, ?_,
        rfl, fun hk => hk⟩
      · show (if c1.nextUserdata = c1.nextUserdata then _ else _) = _
        rw [if_pos rfl]
      · intro j hj
        show (if j = c1.nextUserdata then _ else _) = _
        rw [if_neg hj]

/-- C7, witness.  The commit of `LuaTest` in the new state of `test.cc`. -/
theorem commit_installs_constructor_witness :
    CommitReady LuaTest LuaState.fresh ∧
    ∃ l' m t f mt, commit LuaTest LuaState.fresh = Except.ok l' ∧
      (l'.tables GLOBALS).get (Value.string "Test") = Value.table m ∧
      (l'.tables m).metatable = some t ∧
      (l'.tables t).get (Value.string "__call") = Value.function f ∧
      l'.closures f = { fn := CFunction.newT "7LuaTest", upvalues := [] } ∧
      (l'.tables REGISTRY).get (Value.string "Test") = Value.table mt ∧
      (l'.tables mt).get (Value.string "__call") = Value.nil :=
  ⟨commitReady_fresh_LuaTest,
    (commit_installs_constructor LuaTest LuaState.fresh commitReady_fresh_LuaTest).1⟩

/-- C8. Wrap postcondition: in a state in which the class is committed, with class
metatable `mt`, `push` of a non-null instance returns; the stack is the stack on entry
with one value on top of it, the index returned is the new top of the stack, and the
value there is a userdata that stores the instance and whose metatable is `mt`, the
table registered under the class name.  That userdata is a key of the "unmanaged" set of
the class exactly when `gc` is false.  The class is committed in the state returned. -/
theorem push_postcondition (cls : LunaClass) (l : LuaState) (mt inst : Nat) (gc : Bool)
    (hc : Committed cls l mt) (hi : inst ≠ 0) :
    ∃ l' idx h, push cls l inst gc = Except.ok (l', idx) ∧
      l'.stack = l.stack ++ [Value.userdata h] ∧
      lua_gettop l' = lua_gettop l + 1 ∧
      idx = lua_gettop l' ∧
      index2adr l' idx = some (Value.userdata h) ∧
      (l'.userdata h).pT = inst ∧
      (l'.userdata h).metatable = some mt ∧
      (l'.tables REGISTRY).get (Value.string cls.s_lunaClassName) = Value.table mt ∧
      ((∃ k, (l'.tables mt).get (Value.string "unmanaged") = Value.table k ∧
          (l'.tables k).get (Value.userdata h) ≠ Value.nil) ↔ gc = false) ∧
      Committed cls l' mt := by
  obtain ⟨l', h1, h2, h3, _, _, _, _, _, _, _, _, h12, h13⟩ := push_spec cls l mt inst gc hc hi
  have hlen : l'.stack.length = l.stack.length + 1 := by
    rw [h2, List.length_append, List.length_singleton]
  have hidx : index2adr l' ((l.stack.length + 1 : Nat) : Int)
      = some (Value.userdata l.nextUserdata) := by
    have := index2adr_abs l' l.stack [] (Value.userdata l.nextUserdata)
      (by rw [h2, List.append_nil])
    rwa [List.length_append, List.length_singleton] at this
  refine ⟨l', _, l.nextUserdata, h1, h2, ?_, ?_, hidx, ?_, ?_, h13.registered, h12, h13⟩
  · show ((l'.stack.length : Nat) : Int) = (l.stack.length : Int) + 1
    rw [hlen]; push_cast; rfl
  · show ((l.stack.length + 1 : Nat) : Int) = ((l'.stack.length : Nat) : Int)
    rw [hlen]
  · rw [h3]; simp only [if_true]
  · rw [h3]; simp only [if_true]

/-- C8, witness.  The call `Luna<LuaTest>::push(l, p, false)` in the state in which the script of
`test.cc` starts. -/
theorem push_postcondition_witness :
    Committed LuaTest committed 3 ∧ (5 : Nat) ≠ 0 ∧
    ∃ l' idx h, push LuaTest committed 5 false = Except.ok (l', idx) ∧
      l'.stack = committed.stack ++ [Value.userdata h] ∧
      lua_gettop l' = lua_gettop committed + 1 ∧
      idx = lua_gettop l' ∧
      index2adr l' idx = some (Value.userdata h) ∧
      (l'.userdata h).pT = 5 ∧
      (l'.userdata h).metatable = some 3 ∧
      (l'.tables REGISTRY).get (Value.string "Test") = Value.table 3 ∧
      ((∃ k, (l'.tables 3).get (Value.string "unmanaged") = Value.table k ∧
          (l'.tables k).get (Value.userdata h) ≠ Value.nil) ↔ false = false) ∧
      Committed LuaTest l' 3 :=
  ⟨committed_LuaTest, by decide,
    push_postcondition LuaTest committed 3 5 false committed_LuaTest (by decide)⟩

/-- C9 (amended). Method installation: `commit`, in a state that is ready for it
(`CommitReady`), returns, and after it, for every entry of the method
array that precedes the sentinel, whose name is not `type` and does not occur again
between it and the sentinel, looking up the name in the class table bound to the global
class name yields a closure of `thunk` whose only upvalue is the address of that entry;
run on a handle of the class with that upvalue, `thunk` calls the method of the
entry. -/
theorem commit_installs_methods (cls : LunaClass) (l : LuaState) (h : CommitReady cls l) :
    ∃ l' m, commit cls l = Except.ok l' ∧
      (l'.tables GLOBALS).get (Value.string cls.s_lunaClassName) = Value.table m ∧
      ∀ k s, (boundNames cls.s_lunaMethods)[k]? = some s →
        s ∉ (boundNames cls.s_lunaMethods).drop (k + 1) → s ≠ "type" →
        ∃ f e, (l'.tables m).get (Value.string s) = Value.function f ∧
          l'.closures f =
            { fn := CFunction.thunk cls.typeidName,
              upvalues := [Value.lightuserdata (Ptr.methodMap cls.typeidName k)] } ∧
          cls.s_lunaMethods[k]? = some e ∧ e.name = some s ∧
          ∀ method (c : LuaState) (u mt : Nat) (args : List Value),
            e.method = some method →
            c.stack = Value.userdata u :: args →
            (c.userdata u).metatable = some mt →
            (c.tables REGISTRY).get (Value.string cls.s_lunaClassName) = Value.table mt →
            c.upvalues = (l'.closures f).upvalues →
            thunk cls c = method (c.userdata u).pT { c with stack := args } := by
  obtain ⟨lm, mt, base, hc, hp, _⟩ := commit_ok cls l h
  refine ⟨_, l.nextTable, hc, hp.globals_class, ?_⟩
  intro k s hk hnot hty
  obtain ⟨f, hf1, hf2⟩ := hp.methods k s hk hnot hty
  obtain ⟨e, he1, he2⟩ := boundNames_getElem cls.s_lunaMethods k s hk
  refine ⟨f, e, hf1, hf2, he1, he2, ?_⟩
  intro method c u mt2 args hm hstack hmeta hreg hup
  have hup2 : c.upvalues = [Value.lightuserdata (Ptr.methodMap cls.typeidName k)] := by
    rw [hup]; show (lm.closures f).upvalues = _; rw [hf2]
  exact thunk_eq cls c u mt2 k args e method hstack hmeta hreg hup2 he1 hm

/-- C9, witness.  The commit of `LuaTest` in the new state of `test.cc`: the lookup of
`getInstance`, entry 1 of the method array. -/
theorem commit_installs_methods_witness :
    CommitReady LuaTest LuaState.fresh ∧
    ∃ l' m, commit LuaTest LuaState.fresh = Except.ok l' ∧
      (l'.tables GLOBALS).get (Value.string "Test") = Value.table m ∧
      ∃ f, (l'.tables m).get (Value.string "getInstance") = Value.function f ∧
        l'.closures f =
          { fn := CFunction.thunk "7LuaTest",
            upvalues := [Value.lightuserdata (Ptr.methodMap "7LuaTest" 1)] } := by
  refine ⟨commitReady_fresh_LuaTest, ?_⟩
  obtain ⟨l', m, h1, h2, h3⟩ :=
    commit_installs_methods LuaTest LuaState.fresh commitReady_fresh_LuaTest
  obtain ⟨f, e, h4, h5, _⟩ := h3 1 "getInstance" rfl (by decide) (by decide)
  exact ⟨l', m, h1, h2, f, h4, h5⟩

/-- C9, counterexample.  `LuaTyped` has the entries `type`, `value`, `value` before its
sentinel.  After its commit in a new state the class table is table 2; the lookup of
`type` yields a table (the Type Record), not a closure, and the lookup of `value` yields
a closure whose upvalue is the address of entry 2, not of entry 1. -/
theorem commit_installs_methods_counterexample :
    ∃ l', commit LuaTyped LuaState.fresh = Except.ok l' ∧
      (l'.tables GLOBALS).get (Value.string "Typed") = Value.table 2 ∧
      (boundNames LuaTyped.s_lunaMethods)[0]? = some "type" ∧
      (l'.tables 2).get (Value.string "type") = Value.table 5 ∧
      (boundNames LuaTyped.s_lunaMethods)[1]? = some "value" ∧
      (l'.tables 2).get (Value.string "value") = Value.function 5 ∧
      l'.closures 5 =
        { fn := CFunction.thunk "8LuaTyped",
          upvalues := [Value.lightuserdata (Ptr.methodMap "8LuaTyped" 2)] } :=
  ⟨_, rfl, rfl, rfl, rfl, rfl, rfl, rfl⟩

/-- C10, the code on failing inputs.  In a new state, with an empty stack, `commit`
returns with two tables left on the stack.  In the state that commit returned, where the
class is committed, a second `commit` leaves two more values.  In a state with one value
on the stack and a table bound to the global `7LuaTest`, the name `typeid(LuaTest).name()`,
`commit` returns with the stack empty: it removed a value that was there on entry. -/
theorem commit_changes_stack :
    (∃ l1, commit LuaTest LuaState.fresh = Except.ok l1 ∧
      LuaState.fresh.stack = [] ∧ l1.stack = [Value.table 2, Value.table 3]) ∧
    (∃ l2, commit LuaTest committed = Except.ok l2 ∧
      committed.stack = [Value.table 2, Value.table 3] ∧
      l2.stack = [Value.table 2, Value.table 3, Value.table 6, Value.table 3]) ∧
    (∃ l3, commit LuaTest typeidBound = Except.ok l3 ∧
      typeidBound.stack = [Value.number 1] ∧ l3.stack = []) :=
  ⟨⟨_, rfl, rfl, rfl⟩, ⟨_, rfl, rfl, rfl⟩, ⟨_, rfl, rfl, rfl⟩⟩

end Luna
